import Mathlib

/-!
The message-broker client runtime of ts-gobase (packages `rabbitmq` and `kafka`) and
its helper packages `jwt`, `i18n`, `cron` and `verify_code`.

A shallow embedding of `rabbitmq/client.go`, `rabbitmq/core.go`, `kafka/client.go`,
`kafka/core.go`, `jwt/jwt_utils.go`, `i18n/i18n.go`, `cron/cron.go`, `cron/every.go`,
`verify_code/redis_script.go` and `verify_code/redis_verify_code.go`.

Conventions of the embedding.

* Go `int` and `time.Duration` values are `Int`; where the source multiplies
  durations the 64-bit wrap-around is explicit (`wrap64`).
* A Go `error` is its message (`String`); `nil` is `none`.
* Every call that leaves the package (broker library, `time.Sleep`, the user
  handler) is recorded, in program order, in the `trace` of a `World`.  The
  outcome of a broker call is decided by the environment `env` of the world, as a
  function of the whole history of calls and of the call itself.
* The user handler is a state-passing function: it may keep arbitrary private
  state of type `σ` between invocations.
* Pointers to configuration records and to clients are represented by the records
  themselves; a function that writes through such a pointer returns the updated
  record.
* Calls to the logger (`hlog`) have no influence on control flow and are left out.
* A Go map with string keys is its lookup function; the nil map is told apart from
  an empty map where the source writes to the map.
* A call that panics has the result `none`, or a flag `panicked` in its result; where
  the state at the panic matters (the Kafka `RegisterConn`), the value of the panic is
  recorded in `panicked` of the world.
* State that the client libraries keep between calls and on which a result depends
  (the confirmation listeners of an AMQP channel) is passed explicitly.
* The Lua scripts of `verify_code` act on the Redis hash under their key, a record
  of optional fields.
-/

namespace GoBase

/-- A byte slice (`[]byte`). -/
abbrev Bytes := List Nat

/-- Two's-complement wrap-around of a 64-bit signed integer operation. -/
def wrap64 (x : Int) : Int := (x + 2 ^ 63) % 2 ^ 64 - 2 ^ 63

/-- The constant `time.Second`, in nanoseconds. -/
def Second : Int := 1000000000

/-- The error of a Go result pair `(value, error)`: `none` when the error is nil. -/
def errorOf {α : Type} : Except String α → Option String
  | Except.error err => some err
  | Except.ok _ => none

/-- A user handler `func([]byte) error` with private state `σ`. -/
abbrev Handler (σ : Type) := Bytes → σ → Option String × σ

/-- State of the handler after `i` invocations on `body`, starting from `s`. -/
def handlerState {σ : Type} (h : Handler σ) (body : Bytes) : Nat → σ → σ
  | 0, s => s
  | i + 1, s => handlerState h body i (h body s).2

/-- The values taken by the counter of `for attempt := 0; attempt <= n; attempt++`
(the counter is not assigned in the loop bodies of this repository, and it is read
as a mathematical integer: the wrap-around of `attempt++` at `n = 2^63 - 1` is out
of reach of any run). -/
def attempts (n : Int) : List Int := (List.range (n + 1).toNat).map Int.ofNat

namespace rabbitmq

def DefaultRetryCount : Int := 3
def DefaultRetryDelay : Int := 2 * Second
def DefaultPrefetchCount : Int := 1
def DefaultReconnectDelay : Int := 5 * Second
def MaxReconnectDelay : Int := 300 * Second
def DefaultConfirmTimeout : Int := 5 * Second

/-- Calls that leave the package, with their arguments.  Connections and channels
are named by the position in the trace of the call that created them. -/
inductive Call where
  | dial (address : String)
  | channel (conn : Nat)
  | connClose (conn : Nat)
  | channelClose (ch : Nat)
  | exchangeDeclare (ch : Nat) (name kind : String) (durable autoDelete internal noWait : Bool)
  | confirm (ch : Nat) (noWait : Bool)
  | qos (ch : Nat) (prefetchCount prefetchSize : Int) (global : Bool)
  | consume (ch : Nat) (queue consumer : String) (autoAck exclusive noLocal noWait : Bool)
  | notifyClose (conn : Nat) (receiver : Nat)
  | goReceive (ch : Nat)
  | ack (tag : Nat) (multiple : Bool)
  | nack (tag : Nat) (multiple requeue : Bool)
  | sleep (d : Int)
  | handler (body : Bytes)
  | publish (ch : Nat) (exchange key : String) (mandatory immediate : Bool)
      (contentType : String) (deliveryMode : Nat) (body : Bytes)
  | notifyPublish (ch : Nat) (capacity : Nat)
  | awaitConfirm (timeout : Int)
  deriving DecidableEq, Repr

/-- The world a RabbitMQ client runs in. -/
structure World (σ : Type) where
  env : List Call → Call → Option String
  trace : List Call
  hstate : σ

/-- Perform a broker call: the environment decides its error, the call is logged. -/
def World.call {σ : Type} (w : World σ) (c : Call) : Option String × World σ :=
  (w.env w.trace c, { w with trace := w.trace ++ [c] })

/-- Invoke the user handler on `body`. -/
def World.invoke {σ : Type} (w : World σ) (h : Handler σ) (body : Bytes) :
    Option String × World σ :=
  ((h body w.hstate).1,
   { w with hstate := (h body w.hstate).2, trace := w.trace ++ [Call.handler body] })

structure ProducerConf where
  Key : String
  Address : String
  Exchange : String
  RoutingKey : String
  Confirm : Bool
  deriving DecidableEq, Repr

structure ConsumerConf where
  Key : String
  Address : String
  Queue : String
  PrefetchCount : Int
  RetryCount : Int
  RetryDelay : Int
  AutoAck : Bool
  deriving DecidableEq, Repr

structure RabbitMQ where
  Address : String
  Producer : List ProducerConf
  Consumer : List ConsumerConf
  deriving DecidableEq, Repr

structure Client where
  address : String
  conn : Nat
  channel : Nat
  deriving DecidableEq, Repr

structure Producer where
  client : Client
  config : ProducerConf
  deriving DecidableEq, Repr

/-- The struct `Consumer`.  `done` is `true` once the channel `done` has been closed;
`closeErr` names the channel made for close notifications. -/
structure Consumer (σ : Type) where
  client : Client
  config : ConsumerConf
  handler : Option (Handler σ)
  done : Bool
  closeErr : Nat
  reconnecting : Bool

/-- An `amqp.Delivery`: the payload and the handle used to acknowledge it. -/
structure Delivery where
  Body : Bytes
  DeliveryTag : Nat
  deriving DecidableEq, Repr

/-- The package-level variables of `client.go`. -/
structure Globals (σ : Type) where
  initByKeysEnable : Bool
  initKeys : List String
  producers : String → Option Producer
  consumers : String → Option (Consumer σ)

/-- The package-level variables as initialised at program start. -/
def Globals.init (σ : Type) : Globals σ :=
  { initByKeysEnable := false, initKeys := [], producers := fun _ => none,
    consumers := fun _ => none }

/-- Source: `NewClient` (core.go 30-47). -/
def NewClient {σ : Type} (address : String) (w : World σ) : Except String Client × World σ :=
  let conn := w.trace.length
  match w.call (Call.dial address) with
  | (some err, w1) => (Except.error ("failed to connect to RabbitMQ: " ++ err), w1)
  | (none, w1) =>
    let channel := w1.trace.length
    match w1.call (Call.channel conn) with
    | (some err, w2) =>
      let w3 := (w2.call (Call.connClose conn)).2
      (Except.error ("failed to open channel: " ++ err), w3)
    | (none, w2) =>
      (Except.ok { conn := conn, channel := channel, address := address }, w2)

/-- Source: `InitProducer` (core.go 49-75). -/
def InitProducer {σ : Type} (conf : ProducerConf) (w : World σ) :
    Except String Producer × World σ :=
  match NewClient conf.Address w with
  | (Except.error err, w1) => (Except.error err, w1)
  | (Except.ok client, w1) =>
    let declared : Option String × World σ :=
      if conf.Exchange ≠ "" then
        w1.call (Call.exchangeDeclare client.channel conf.Exchange "direct" true false false false)
      else (none, w1)
    match declared with
    | (some err, w2) => (Except.error ("failed to declare exchange: " ++ err), w2)
    | (none, w2) =>
      if conf.Confirm then
        match w2.call (Call.confirm client.channel false) with
        | (some err, w3) =>
          (Except.error ("failed to put channel in confirm mode: " ++ err), w3)
        | (none, w3) => (Except.ok { client := client, config := conf }, w3)
      else (Except.ok { client := client, config := conf }, w2)

/-- Source: `InitConsumer` (core.go 77-100).  The second component is the record
behind the pointer `conf` after the call. -/
def InitConsumer {σ : Type} (conf : ConsumerConf) (w : World σ) :
    Except String (Consumer σ) × ConsumerConf × World σ :=
  let conf1 := if conf.PrefetchCount ≤ 0 then
    { conf with PrefetchCount := DefaultPrefetchCount } else conf
  let conf2 := if conf1.RetryCount ≤ 0 then
    { conf1 with RetryCount := DefaultRetryCount } else conf1
  match NewClient conf2.Address w with
  | (Except.error err, w1) => (Except.error err, conf2, w1)
  | (Except.ok client, w1) =>
    let consumer : Consumer σ :=
      { config := conf2, client := client, handler := none, done := false,
        closeErr := w1.trace.length, reconnecting := false }
    match w1.call (Call.qos client.channel conf2.PrefetchCount 0 false) with
    | (some err, w2) => (Except.error ("failed to set QoS: " ++ err), conf2, w2)
    | (none, w2) => (Except.ok consumer, conf2, w2)

/-- Record a call that returns nothing the caller looks at from the environment
(`time.Sleep`, `NotifyClose`, a `go` statement). -/
def World.emit {σ : Type} (w : World σ) (c : Call) : World σ :=
  { w with trace := w.trace ++ [c] }

/-- Assignment `m[key] = v` on a Go map, seen through its lookups. -/
def setKey {α : Type} (m : String → Option α) (key : String) (v : α) : String → Option α :=
  fun k => if k = key then some v else m k

/-- Source: `filterByInitKeys` (client.go 91-115); the package variables it reads
are passed as `g`, the record behind the pointer is returned. -/
def filterByInitKeys {σ : Type} (g : Globals σ) (rabbitMQ : RabbitMQ) : RabbitMQ :=
  if !g.initByKeysEnable then rabbitMQ
  else
    let producerTmp := rabbitMQ.Producer.foldl
      (fun tmp v => g.initKeys.foldl (fun tmp key => if v.Key = key then tmp ++ [v] else tmp) tmp) []
    let consumerTmp := rabbitMQ.Consumer.foldl
      (fun tmp v => g.initKeys.foldl (fun tmp key => if v.Key = key then tmp ++ [v] else tmp) tmp) []
    { rabbitMQ with Producer := producerTmp, Consumer := consumerTmp }

/-- The loop `for _, conf := range producerConfs` of `RegisterConn` (client.go 71-77):
the error returned from inside the loop (if any), the package variables and the
world when the loop is left. -/
def registerProducers {σ : Type} :
    List ProducerConf → Globals σ → World σ → Option String × Globals σ × World σ
  | [], g, w => (none, g, w)
  | conf :: rest, g, w =>
    match InitProducer conf w with
    | (Except.error err, w1) => (some err, g, w1)
    | (Except.ok producer, w1) =>
      registerProducers rest { g with producers := setKey g.producers conf.Key producer } w1

/-- The loop `for _, conf := range consumerConfs` of `RegisterConn` (client.go 80-86). -/
def registerConsumers {σ : Type} :
    List ConsumerConf → Globals σ → World σ → Option String × Globals σ × World σ
  | [], g, w => (none, g, w)
  | conf :: rest, g, w =>
    match InitConsumer conf w with
    | (Except.error err, _, w1) => (some err, g, w1)
    | (Except.ok consumer, conf1, w1) =>
      registerConsumers rest { g with consumers := setKey g.consumers conf1.Key consumer } w1

/-- The config records behind the pointers of the slice `consumerConfs` when the loop
`for _, conf := range consumerConfs` of `RegisterConn` is left: `InitConsumer` writes
its defaults through the pointer of every config it is called with. -/
def consumersAfter {σ : Type} : List ConsumerConf → World σ → List ConsumerConf
  | [], _ => []
  | conf :: rest, w =>
    match (InitConsumer conf w : Except String (Consumer σ) × ConsumerConf × World σ) with
    | (Except.error _, conf1, _) => conf1 :: rest
    | (Except.ok _, conf1, w1) => conf1 :: consumersAfter rest w1

/-- What a call of `RegisterConn` leaves behind: the returned error, the record
behind the pointer `mq` (its `Producer` and `Consumer` slices), the package variables
and the world. -/
structure Registered (σ : Type) where
  err : Option String
  mq : RabbitMQ
  globals : Globals σ
  world : World σ

/-- The local `producerConfs` of `RegisterConn` after the first defaulting loop
(client.go 55, 58-62): the slice read from `mq.Producer` on entry, an empty `Address`
replaced by `mq.Address`. -/
def producerConfs (mq : RabbitMQ) : List ProducerConf :=
  mq.Producer.map (fun v => if v.Address = "" then { v with Address := mq.Address } else v)

/-- The local `consumerConfs` of `RegisterConn` after the second defaulting loop
(client.go 56, 63-67). -/
def consumerConfs (mq : RabbitMQ) : List ConsumerConf :=
  mq.Consumer.map (fun v => if v.Address = "" then { v with Address := mq.Address } else v)

/-- Source: `RegisterConn` (client.go 54-89).  `producerConfs` and `consumerConfs`
are the slices read from `mq` on entry (client.go 55-56); the two defaulting loops
write through the pointers they hold, so that both these locals and `mq` see the
updated records; `filterByInitKeys` then assigns new slices to the fields of `mq`,
while the locals keep the slices read on entry, and the registration loops range over
the locals.  The records that `mq.Consumer` points to are the ones the consumer loop
has written its defaults to; `filterByInitKeys` selects by `Key`, which
`InitConsumer` leaves as it is, so the slice it assigned is the one it selects from
the records after the loop. -/
def RegisterConn {σ : Type} (mq : RabbitMQ) (g : Globals σ) (w : World σ) : Registered σ :=
  match registerProducers (producerConfs mq) g w with
  | (some err, g1, w1) =>
    { err := some err,
      mq := filterByInitKeys g
        { mq with Producer := producerConfs mq, Consumer := consumerConfs mq },
      globals := g1, world := w1 }
  | (none, g1, w1) =>
    let mq1 := filterByInitKeys g
      { mq with Producer := producerConfs mq,
                Consumer := consumersAfter (consumerConfs mq) w1 }
    match registerConsumers (consumerConfs mq) g1 w1 with
    | (some err, g2, w2) => { err := some err, mq := mq1, globals := g2, world := w2 }
    | (none, g2, w2) => { err := none, mq := mq1, globals := g2, world := w2 }

/-- Source: `RegisterConnWithKeys` (client.go 48-52). -/
def RegisterConnWithKeys {σ : Type} (mq : RabbitMQ) (keys : List String) (g : Globals σ)
    (w : World σ) : Registered σ :=
  RegisterConn mq { g with initKeys := keys, initByKeysEnable := true } w

/-- Source: `GetProducer` (client.go 117-119). -/
def GetProducer {σ : Type} (g : Globals σ) (key : String) : Option Producer := g.producers key

/-- Source: `GetConsumer` (client.go 121-123). -/
def GetConsumer {σ : Type} (g : Globals σ) (key : String) : Option (Consumer σ) :=
  g.consumers key

/-- Source: `Consumer.consume` (core.go 121-153): subscribe, then start the receive
loop with a `go` statement. -/
def consume {σ : Type} (c : Consumer σ) (w : World σ) : Option String × World σ :=
  match w.call (Call.consume c.client.channel c.config.Queue "" c.config.AutoAck false false false) with
  | (some err, w1) => (some ("failed to start consuming: " ++ err), w1)
  | (none, w1) => (none, w1.emit (Call.goReceive c.client.channel))

/-- The loop of `Consumer.processMessage` (core.go 157-171) over the remaining values
of `attempt`, followed by the statements after the loop (core.go 173-177).  `err` is
the variable `err` of the source. -/
def processAttempts {σ : Type} (c : Consumer σ) (h : Handler σ) (msg : Delivery) :
    List Int → Option String → World σ → Option String × World σ
  | [], err, w =>
    if !c.config.AutoAck then (err, (w.call (Call.nack msg.DeliveryTag false true)).2)
    else (err, w)
  | attempt :: rest, _, w =>
    match w.invoke h msg.Body with
    | (none, w1) =>
      if !c.config.AutoAck then w1.call (Call.ack msg.DeliveryTag false) else (none, w1)
    | (some err, w1) =>
      let w2 := if attempt < c.config.RetryCount then
        w1.emit (Call.sleep (wrap64 (c.config.RetryDelay * Second))) else w1
      processAttempts c h msg rest (some err) w2

/-- Source: `Consumer.processMessage` (core.go 155-178).  The result is `none` when
the call panics: the field `handler` is nil and the loop body is entered. -/
def processMessage {σ : Type} (c : Consumer σ) (msg : Delivery) (w : World σ) :
    Option (Option String × World σ) :=
  match c.handler with
  | some h => some (processAttempts c h msg (attempts c.config.RetryCount) none w)
  | none =>
    if 0 ≤ c.config.RetryCount then none
    else some (processAttempts c (fun _ s => (none, s)) msg [] none w)

/-- The update of `backoff` in an iteration of the loop of `Consumer.reconnect`
(core.go 208-213); the doubling is a 64-bit multiplication. -/
def nextBackoff (backoff : Int) : Int :=
  let backoff1 := if backoff < MaxReconnectDelay then wrap64 (backoff * 2) else backoff
  if backoff1 > MaxReconnectDelay then MaxReconnectDelay else backoff1

/-- The `for` loop of `Consumer.reconnect` (core.go 205-233), run for at most `fuel`
iterations from the given value of `backoff`.  The first component tells whether the
loop was left through `break`. -/
def reconnectLoop {σ : Type} :
    Nat → Consumer σ → Int → World σ → Bool × Consumer σ × Int × World σ
  | 0, c, backoff, w => (false, c, backoff, w)
  | fuel + 1, c, backoff, w =>
    let w1 := w.emit (Call.sleep backoff)
    let backoff1 := nextBackoff backoff
    match NewClient c.client.address w1 with
    | (Except.error _, w2) => reconnectLoop fuel c backoff1 w2
    | (Except.ok newClient, w2) =>
      let c1 := { c with client :=
        { c.client with conn := newClient.conn, channel := newClient.channel } }
      let w3 := w2.emit (Call.notifyClose c1.client.conn c1.closeErr)
      match consume c1 w3 with
      | (some _, w4) => reconnectLoop fuel c1 backoff1 w4
      | (none, w4) => (true, c1, backoff1, w4)

/-- State in which a run of `Consumer.reconnect` is observed: `returned` tells whether
the call has returned (otherwise it is still in its loop after `fuel` iterations). -/
structure Reconnected (σ : Type) where
  returned : Bool
  consumer : Consumer σ
  world : World σ

/-- Source: `Consumer.reconnect` (core.go 194-234), its loop run for at most `fuel`
iterations. -/
def reconnect {σ : Type} (fuel : Nat) (c : Consumer σ) (w : World σ) : Reconnected σ :=
  if c.reconnecting then { returned := true, consumer := c, world := w }
  else
    let c1 := { c with reconnecting := true }
    let w1 := (w.call (Call.connClose c1.client.conn)).2
    let w2 := (w1.call (Call.channelClose c1.client.channel)).2
    match reconnectLoop fuel c1 Second w2 with
    | (true, c2, _, w3) =>
      { returned := true, consumer := { c2 with reconnecting := false }, world := w3 }
    | (false, c2, _, w3) => { returned := false, consumer := c2, world := w3 }

end rabbitmq

namespace kafka

def DefaultRetryCount : Int := 3
def DefaultRetryDelay : Int := 2 * Second
def DefaultBatchSize : Int := 100
def DefaultCommitTimeout : Int := 5 * Second

/-- The constant `kafka.FirstOffset` of the client library. -/
def FirstOffset : Int := -2

/-- The constant `kafka.RequireAll` of the client library. -/
def RequireAll : Int := -1

/-- A `kafka.Message`. -/
structure Message where
  Topic : String
  Partition : Int
  Offset : Int
  Key : Bytes
  Value : Bytes
  deriving DecidableEq, Repr

/-- The fields of `kafka.ReaderConfig` that `InitConsumer` sets. -/
structure ReaderConfig where
  Brokers : List String
  Topic : String
  GroupID : String
  MaxAttempts : Int
  StartOffset : Int
  deriving DecidableEq, Repr

/-- Calls that leave the package, with their arguments.  Readers and contexts are
named by the position in the trace of the call that created them. -/
inductive Call where
  | newReader (config : ReaderConfig)
  | withCancel
  | cancel (ctx : Nat)
  | readMessage (reader : Nat) (ctx : Nat)
  | commitMessages (reader : Nat) (ctx : Nat) (msg : Message)
  | readerClose (reader : Nat)
  | writeMessages (addr : List String) (topic : String) (value : Bytes)
  | sleep (d : Int)
  | handler (body : Bytes)
  deriving DecidableEq, Repr

/-- The world a Kafka client runs in.  `panicked` holds the value of a panic that is
unwinding the calls of the package (`none`: no panic). -/
structure World (σ : Type) where
  env : List Call → Call → Option String
  trace : List Call
  hstate : σ
  panicked : Option String := none

/-- Perform a library call: the environment decides its error, the call is logged. -/
def World.call {σ : Type} (w : World σ) (c : Call) : Option String × World σ :=
  (w.env w.trace c, { w with trace := w.trace ++ [c] })

/-- Record a call that returns nothing the caller looks at from the environment. -/
def World.emit {σ : Type} (w : World σ) (c : Call) : World σ :=
  { w with trace := w.trace ++ [c] }

/-- Invoke the user handler on `body`. -/
def World.invoke {σ : Type} (w : World σ) (h : Handler σ) (body : Bytes) :
    Option String × World σ :=
  ((h body w.hstate).1,
   { w with hstate := (h body w.hstate).2, trace := w.trace ++ [Call.handler body] })

structure ProducerConf where
  Key : String
  Brokers : List String
  Topic : String
  Async : Bool
  deriving DecidableEq, Repr

structure ConsumerConf where
  Key : String
  Brokers : List String
  Topic : String
  Group : String
  RetryCount : Int
  RetryDelay : Int
  AutoCommit : Bool
  FromBeginning : Bool
  deriving DecidableEq, Repr

structure Kafka where
  Brokers : List String
  Producer : List ProducerConf
  Consumer : List ConsumerConf
  deriving DecidableEq, Repr

structure Client where
  brokers : List String
  deriving DecidableEq, Repr

/-- The fields of `kafka.Writer` that `InitProducer` sets. -/
structure Writer where
  Addr : List String
  Topic : String
  Async : Bool
  RequiredAcks : Int
  MaxAttempts : Int
  deriving DecidableEq, Repr

structure Producer where
  client : Client
  config : ProducerConf
  writer : Writer
  deriving DecidableEq, Repr

/-- The struct `Consumer`.  `ctx` names the cancellable context (`cancel` is the
function that cancels it); `done` is `true` once the channel `done` has been closed. -/
structure Consumer (σ : Type) where
  client : Client
  config : ConsumerConf
  reader : Nat
  handler : Option (Handler σ)
  ctx : Nat
  done : Bool

/-- The package-level variables of `client.go`. -/
structure Globals (σ : Type) where
  initByKeysEnable : Bool
  initKeys : List String
  producers : String → Option Producer
  consumers : String → Option (Consumer σ)

/-- The package-level variables as initialised at program start. -/
def Globals.init (σ : Type) : Globals σ :=
  { initByKeysEnable := false, initKeys := [], producers := fun _ => none,
    consumers := fun _ => none }

/-- Assignment `m[key] = v` on a Go map, seen through its lookups. -/
def setKey {α : Type} (m : String → Option α) (key : String) (v : α) : String → Option α :=
  fun k => if k = key then some v else m k

/-- Source: `NewClient` (core.go 32-36). -/
def NewClient (brokers : List String) : Except String Client :=
  Except.ok { brokers := brokers }

/-- Source: `InitProducer` (core.go 38-57). -/
def InitProducer {σ : Type} (conf : ProducerConf) (w : World σ) :
    Except String Producer × World σ :=
  match NewClient conf.Brokers with
  | Except.error err => (Except.error err, w)
  | Except.ok client =>
    let writer : Writer :=
      { Addr := conf.Brokers, Topic := conf.Topic, Async := conf.Async,
        RequiredAcks := RequireAll, MaxAttempts := DefaultRetryCount }
    (Except.ok { client := client, config := conf, writer := writer }, w)

/-- Source: `InitConsumer` (core.go 59-92).  The second component is the record
behind the pointer `conf` after the call.  `kafka.NewReader` has no error result: it
panics with the error of the library's validation when the library rejects the
configuration (for instance one without a broker address), which is the answer
`some value` of the environment to the call.  `InitConsumer` does not recover: the
panic leaves it, its value is recorded in `panicked` of the world and is handed to
the callers in the place of an error, so that they stop where the unwinding stops
them.  A result `Except.error` is an error that `InitConsumer` returned only when
`panicked` is `none`. -/
def InitConsumer {σ : Type} (conf : ConsumerConf) (w : World σ) :
    Except String (Consumer σ) × ConsumerConf × World σ :=
  match NewClient conf.Brokers with
  | Except.error err => (Except.error err, conf, w)
  | Except.ok client =>
    let conf1 := if conf.RetryCount ≤ 0 then
      { conf with RetryCount := DefaultRetryCount } else conf
    let config : ReaderConfig :=
      { Brokers := conf1.Brokers, Topic := conf1.Topic, GroupID := conf1.Group,
        MaxAttempts := conf1.RetryCount, StartOffset := 0 }
    let config1 := if conf1.FromBeginning then
      { config with StartOffset := FirstOffset } else config
    let reader := w.trace.length
    match w.call (Call.newReader config1) with
    | (some value, w1) => (Except.error value, conf1, { w1 with panicked := some value })
    | (none, w1) =>
      let ctx := w1.trace.length
      let w2 := w1.emit Call.withCancel
      (Except.ok { client := client, config := conf1, reader := reader, handler := none,
                   ctx := ctx, done := false }, conf1, w2)

/-- Source: `filterByInitKeys` (client.go 88-112); the package variables it reads
are passed as `g`, the record behind the pointer is returned. -/
def filterByInitKeys {σ : Type} (g : Globals σ) (kafka : Kafka) : Kafka :=
  if !g.initByKeysEnable then kafka
  else
    let producerTmp := kafka.Producer.foldl
      (fun tmp v => g.initKeys.foldl (fun tmp key => if v.Key = key then tmp ++ [v] else tmp) tmp) []
    let consumerTmp := kafka.Consumer.foldl
      (fun tmp v => g.initKeys.foldl (fun tmp key => if v.Key = key then tmp ++ [v] else tmp) tmp) []
    { kafka with Producer := producerTmp, Consumer := consumerTmp }

/-- The loop `for _, conf := range producerConfs` of `RegisterConn` (client.go 69-75). -/
def registerProducers {σ : Type} :
    List ProducerConf → Globals σ → World σ → Option String × Globals σ × World σ
  | [], g, w => (none, g, w)
  | conf :: rest, g, w =>
    match InitProducer conf w with
    | (Except.error err, w1) => (some err, g, w1)
    | (Except.ok producer, w1) =>
      registerProducers rest { g with producers := setKey g.producers conf.Key producer } w1

/-- The loop `for _, conf := range consumerConfs` of `RegisterConn` (client.go 77-83). -/
def registerConsumers {σ : Type} :
    List ConsumerConf → Globals σ → World σ → Option String × Globals σ × World σ
  | [], g, w => (none, g, w)
  | conf :: rest, g, w =>
    match InitConsumer conf w with
    | (Except.error err, _, w1) => (some err, g, w1)
    | (Except.ok consumer, conf1, w1) =>
      registerConsumers rest { g with consumers := setKey g.consumers conf1.Key consumer } w1

/-- The config records behind the pointers of the slice `consumerConfs` when the loop
`for _, conf := range consumerConfs` of `RegisterConn` is left: `InitConsumer` writes
its default through the pointer of every config it is called with. -/
def consumersAfter {σ : Type} : List ConsumerConf → World σ → List ConsumerConf
  | [], _ => []
  | conf :: rest, w =>
    match (InitConsumer conf w : Except String (Consumer σ) × ConsumerConf × World σ) with
    | (Except.error _, conf1, _) => conf1 :: rest
    | (Except.ok _, conf1, w1) => conf1 :: consumersAfter rest w1

/-- What a call of `RegisterConn` leaves behind: the returned error, the record
behind the pointer `k`, the package variables and the world.  When `panicked` of the
world is set, the call did not return: it panicked with that value, and `err` is the
same value on its way up. -/
structure Registered (σ : Type) where
  err : Option String
  k : Kafka
  globals : Globals σ
  world : World σ

/-- The local `producerConfs` of `RegisterConn` after the first defaulting loop
(client.go 53, 56-60): the slice read from `k.Producer` on entry, an empty `Brokers`
replaced by `k.Brokers`. -/
def producerConfs (k : Kafka) : List ProducerConf :=
  k.Producer.map (fun v => if v.Brokers.length = 0 then { v with Brokers := k.Brokers } else v)

/-- The local `consumerConfs` of `RegisterConn` after the second defaulting loop
(client.go 54, 61-65). -/
def consumerConfs (k : Kafka) : List ConsumerConf :=
  k.Consumer.map (fun v => if v.Brokers.length = 0 then { v with Brokers := k.Brokers } else v)

/-- Source: `RegisterConn` (client.go 52-86).  As in the RabbitMQ package, the locals
`producerConfs` and `consumerConfs` keep the slices read on entry, `filterByInitKeys`
assigns new slices to the fields of `k`, and the registration loops range over the
locals.  The slices hold pointers: the records that `k.Consumer` points to are the
ones the consumer loop has written its defaults to; `filterByInitKeys` selects by
`Key`, which `InitConsumer` leaves as it is, so the slice it assigned is the one it
selects from the records after the loop. -/
def RegisterConn {σ : Type} (k : Kafka) (g : Globals σ) (w : World σ) : Registered σ :=
  match registerProducers (producerConfs k) g w with
  | (some err, g1, w1) =>
    { err := some err,
      k := filterByInitKeys g
        { k with Producer := producerConfs k, Consumer := consumerConfs k },
      globals := g1, world := w1 }
  | (none, g1, w1) =>
    let k1 := filterByInitKeys g
      { k with Producer := producerConfs k,
               Consumer := consumersAfter (consumerConfs k) w1 }
    match registerConsumers (consumerConfs k) g1 w1 with
    | (some err, g2, w2) => { err := some err, k := k1, globals := g2, world := w2 }
    | (none, g2, w2) => { err := none, k := k1, globals := g2, world := w2 }

/-- Source: `RegisterConnWithKeys` (client.go 46-50). -/
def RegisterConnWithKeys {σ : Type} (k : Kafka) (keys : List String) (g : Globals σ)
    (w : World σ) : Registered σ :=
  RegisterConn k { g with initKeys := keys, initByKeysEnable := true } w

/-- Source: `GetProducer` (client.go 114-116). -/
def GetProducer {σ : Type} (g : Globals σ) (key : String) : Option Producer := g.producers key

/-- Source: `GetConsumer` (client.go 118-120). -/
def GetConsumer {σ : Type} (g : Globals σ) (key : String) : Option (Consumer σ) :=
  g.consumers key

/-- The loop of `Consumer.processMessage` (core.go 139-155) over the remaining values
of `attempt`, followed by the `return err` after the loop.  `err` is the variable
`err` of the source. -/
def processAttempts {σ : Type} (c : Consumer σ) (h : Handler σ) (msg : Message) :
    List Int → Option String → World σ → Option String × World σ
  | [], err, w => (err, w)
  | attempt :: rest, _, w =>
    match w.invoke h msg.Value with
    | (none, w1) =>
      if !c.config.AutoCommit then
        match w1.call (Call.commitMessages c.reader c.ctx msg) with
        | (some err, w2) => (some ("failed to commit message: " ++ err), w2)
        | (none, w2) => (none, w2)
      else (none, w1)
    | (some err, w1) =>
      let w2 := if attempt < c.config.RetryCount then
        w1.emit (Call.sleep (wrap64 (c.config.RetryDelay * Second))) else w1
      processAttempts c h msg rest (some err) w2

/-- Source: `Consumer.processMessage` (core.go 137-158).  The result is `none` when
the call panics: the field `handler` is nil and the loop body is entered. -/
def processMessage {σ : Type} (c : Consumer σ) (msg : Message) (w : World σ) :
    Option (Option String × World σ) :=
  match c.handler with
  | some h => some (processAttempts c h msg (attempts c.config.RetryCount) none w)
  | none =>
    if 0 ≤ c.config.RetryCount then none
    else some (processAttempts c (fun _ s => (none, s)) msg [] none w)

end kafka

namespace rabbitmq

/-- The call is an invocation of the user handler. -/
def Call.isHandler : Call → Bool
  | Call.handler _ => true
  | _ => false

/-- The call is a `Delivery.Ack`. -/
def Call.isAck : Call → Bool
  | Call.ack _ _ => true
  | _ => false

/-- The call is a `Delivery.Nack`. -/
def Call.isNack : Call → Bool
  | Call.nack _ _ _ => true
  | _ => false

/-- The call is a `time.Sleep`. -/
def Call.isSleep : Call → Bool
  | Call.sleep _ => true
  | _ => false

/-- The durations of the `time.Sleep` calls of a trace, in order. -/
def sleeps : List Call → List Int
  | [] => []
  | Call.sleep d :: rest => d :: sleeps rest
  | _ :: rest => sleeps rest

end rabbitmq

namespace kafka

/-- The call is an invocation of the user handler. -/
def Call.isHandler : Call → Bool
  | Call.handler _ => true
  | _ => false

/-- The call is a `Reader.CommitMessages`. -/
def Call.isCommit : Call → Bool
  | Call.commitMessages _ _ _ => true
  | _ => false

/-- The call is a `time.Sleep`. -/
def Call.isSleep : Call → Bool
  | Call.sleep _ => true
  | _ => false

/-- The durations of the `time.Sleep` calls of a trace, in order. -/
def sleeps : List Call → List Int
  | [] => []
  | Call.sleep d :: rest => d :: sleeps rest
  | _ :: rest => sleeps rest

end kafka

/-! ## Publishing, stopping and the receive loops -/

namespace rabbitmq

/-- The constant `amqp.Persistent` of the client library. -/
def Persistent : Nat := 2

/-- Source: `Producer.Publish` (core.go 236-249).  The `Timestamp` field of the
publishing (a reading of the clock) is not represented. -/
def Publish {σ : Type} (c : Producer) (message : Bytes) (w : World σ) :
    Option String × World σ :=
  w.call (Call.publish c.client.channel c.config.Exchange c.config.RoutingKey false false
    "text/plain" Persistent message)

/-- The listeners for publish confirmations registered on the channel of a producer
(the state of the client library behind `c.client.channel`): for every listener, in
order of registration, the confirmation waiting in its buffer of capacity 1 (`none`:
the buffer is empty).  `blocked` tells that the library is stuck in a send to a
listener whose buffer is full. -/
structure Confirms where
  listeners : List (Option Bool)
  blocked : Bool
  deriving DecidableEq, Repr

/-- The listeners of a channel on which `NotifyPublish` was never called. -/
def Confirms.init : Confirms := { listeners := [], blocked := false }

/-- The call `NotifyPublish(make(chan amqp.Confirmation, 1))` (core.go 256): one more
listener, with an empty buffer. -/
def Confirms.Listen (cs : Confirms) : Confirms :=
  { cs with listeners := cs.listeners ++ [none] }

/-- The library sends a confirmation to the listeners one after the other, in order of
registration (`for _, l := range listeners { l <- confirmation }`): the buffers
afterwards and whether a send blocked.  A send to a full buffer blocks, and the
listeners after it get nothing. -/
def Confirms.send (ack : Bool) : List (Option Bool) → List (Option Bool) × Bool
  | [] => ([], false)
  | none :: rest => (some ack :: (Confirms.send ack rest).1, (Confirms.send ack rest).2)
  | some v :: rest => (some v :: rest, true)

/-- The library hands out a confirmation that arrived from the broker.  The listener
of an earlier call of `PublishWithConfirm` is never received from after that call has
returned, so a send that blocks on it blocks for good, and nothing is handed out any
more. -/
def Confirms.confirm (cs : Confirms) (ack : Bool) : Confirms :=
  if cs.blocked then cs
  else { listeners := (Confirms.send ack cs.listeners).1,
         blocked := (Confirms.send ack cs.listeners).2 }

/-- The receive `<-confirms` on the listener registered last: the confirmation in its
buffer, if there is one, is taken out. -/
def Confirms.receive (cs : Confirms) : Option Bool × Confirms :=
  match cs.listeners.getLast? with
  | some (some ack) => (some ack, { cs with listeners := cs.listeners.dropLast ++ [none] })
  | _ => (none, cs)

/-- Source: `Producer.PublishWithConfirm` (core.go 251-284).  `reply` is what the
broker answers to this publishing within the `5 * time.Second` of the timer
(core.go 279): `some ack` a confirmation with that `Ack`, `none` nothing.  `cs` is the
state of the listeners of `c.client.channel` on entry.  The `select` (core.go 274-281)
receives from the listener this call has registered, or runs into the timer. -/
def PublishWithConfirm {σ : Type} (c : Producer) (message : Bytes) (reply : Option Bool)
    (cs : Confirms) (w : World σ) : Option String × Confirms × World σ :=
  match w.call (Call.confirm c.client.channel false) with
  | (some err, w1) => (some ("failed to set confirm mode: " ++ err), cs, w1)
  | (none, w1) =>
    let w2 := w1.emit (Call.notifyPublish c.client.channel 1)
    let cs1 := cs.Listen
    match w2.call (Call.publish c.client.channel c.config.Exchange c.config.RoutingKey
        true false "text/plain" Persistent message) with
    | (some err, w3) => (some ("failed to publish message: " ++ err), cs1, w3)
    | (none, w3) =>
      let w4 := w3.emit (Call.awaitConfirm (5 * Second))
      let cs2 := match reply with
        | some ack => cs1.confirm ack
        | none => cs1
      match cs2.receive with
      | (some ack, cs3) =>
        if !ack then (some "message publish was not confirmed", cs3, w4) else (none, cs3, w4)
      | (none, cs3) => (some "confirmation timeout", cs3, w4)

/-- Calls of `PublishWithConfirm` made one after the other on the same producer, each
with its message and the answer of the broker: the errors returned, in order, the
listeners and the world afterwards. -/
def publishAll {σ : Type} (c : Producer) :
    List (Bytes × Option Bool) → Confirms → World σ →
      List (Option String) × Confirms × World σ
  | [], cs, w => ([], cs, w)
  | (message, reply) :: rest, cs, w =>
    let r := PublishWithConfirm c message reply cs w
    let rs := publishAll c rest r.2.1 r.2.2
    (r.1 :: rs.1, rs.2)

/-- What a call of `Consumer.Stop` leaves behind; `panicked` tells that the call
panicked (closing a channel that is already closed) instead of returning. -/
structure Stopped (σ : Type) where
  panicked : Bool
  consumer : Consumer σ
  world : World σ

/-- Source: `Consumer.Stop` (core.go 116-119): `close(c.done)`. -/
def Stop {σ : Type} (c : Consumer σ) (w : World σ) : Stopped σ :=
  if c.done then { panicked := true, consumer := c, world := w }
  else { panicked := false, consumer := { c with done := true }, world := w }

/-- What one `select` of the receive loop (core.go 137-148) receives: the stop signal
(`done` is closed), the closing of `messages`, or a delivery. -/
inductive Recv where
  | done
  | closed
  | delivery (msg : Delivery)
  deriving DecidableEq, Repr

/-- The goroutine started by `Consumer.consume` (core.go 135-150), run on the sequence
of what its successive `select`s receive.  The result is `none` when `processMessage`
panics; the flag tells whether the goroutine has returned (it is `false` when the
goroutine waits in its `select` after the last element). -/
def receiveLoop {σ : Type} (c : Consumer σ) : List Recv → World σ → Option (Bool × World σ)
  | [], w => some (false, w)
  | Recv.done :: _, w => some (true, w)
  | Recv.closed :: _, w => some (true, w)
  | Recv.delivery msg :: rest, w =>
    match processMessage c msg w with
    | none => none
    | some (_, w1) => receiveLoop c rest w1

/-- The payloads of the handler invocations of a trace, in order. -/
def handled : List Call → List Bytes
  | [] => []
  | Call.handler body :: rest => body :: handled rest
  | _ :: rest => handled rest

/-- The calls of a trace that are handler invocations or sleeps, in order. -/
def attemptsAndSleeps (calls : List Call) : List Call :=
  calls.filter (fun call => call.isHandler || call.isSleep)

end rabbitmq

namespace kafka

/-- Source: `Producer.Publish` (core.go 94-99). -/
def Publish {σ : Type} (p : Producer) (message : Bytes) (w : World σ) :
    Option String × World σ :=
  w.call (Call.writeMessages p.writer.Addr p.writer.Topic message)

/-- The limit that a writer puts on the attempts to deliver one message: its field
`MaxAttempts`, for which the client library takes 10 when the field is 0. -/
def Writer.attemptLimit (w : Writer) : Int := if w.MaxAttempts = 0 then 10 else w.MaxAttempts

/-- What a call of `Consumer.Stop` leaves behind; `panicked` tells that the call
panicked (closing a channel that is already closed) instead of returning. -/
structure Stopped (σ : Type) where
  panicked : Bool
  consumer : Consumer σ
  world : World σ

/-- Source: `Consumer.Stop` (core.go 129-135): `c.cancel()`, `close(c.done)`,
`c.reader.Close()` (its error is only logged). -/
def Stop {σ : Type} (c : Consumer σ) (w : World σ) : Stopped σ :=
  let w1 := w.emit (Call.cancel c.ctx)
  if c.done then { panicked := true, consumer := c, world := w1 }
  else
    { panicked := false, consumer := { c with done := true },
      world := (w1.call (Call.readerClose c.reader)).2 }

/-- What one iteration of the receive loop (core.go 105-123) meets: the stop signal
(`done` is closed), a failed `ReadMessage` (with whether `c.ctx.Err()` is
`context.Canceled`), or a message. -/
inductive Poll where
  | done
  | failed (err : String) (canceled : Bool)
  | message (msg : Message)
  deriving DecidableEq, Repr

/-- The goroutine started by `Consumer.Start` (core.go 104-124), run on the sequence
of what its successive iterations meet.  The result is `none` when `processMessage`
panics; the flag tells whether the goroutine has returned (it is `false` when the
goroutine waits in `ReadMessage` after the last element). -/
def receiveLoop {σ : Type} (c : Consumer σ) : List Poll → World σ → Option (Bool × World σ)
  | [], w => some (false, w)
  | Poll.done :: _, w => some (true, w)
  | Poll.failed _ canceled :: rest, w =>
    let w1 := w.emit (Call.readMessage c.reader c.ctx)
    if canceled then some (true, w1) else receiveLoop c rest w1
  | Poll.message msg :: rest, w =>
    let w1 := w.emit (Call.readMessage c.reader c.ctx)
    match processMessage c msg w1 with
    | none => none
    | some (_, w2) => receiveLoop c rest w2

/-- The payloads of the handler invocations of a trace, in order. -/
def handled : List Call → List Bytes
  | [] => []
  | Call.handler body :: rest => body :: handled rest
  | _ :: rest => handled rest

/-- The calls of a trace that are handler invocations or sleeps, in order. -/
def attemptsAndSleeps (calls : List Call) : List Call :=
  calls.filter (fun call => call.isHandler || call.isSleep)

/-- The environment met by a goroutine when another goroutine issues `Stop()` on the
consumer `c` at the moment this goroutine has made `n` calls: `Stop` cancels `c.ctx`
(core.go 130), and from then on the client library answers a `CommitMessages` on that
context with the error of the context; every other call is answered as by `env`. -/
def stoppedAfter {σ : Type} (c : Consumer σ) (n : Nat)
    (env : List Call → Call → Option String) : List Call → Call → Option String :=
  fun history call =>
    match call with
    | Call.commitMessages _ ctx _ =>
      if n ≤ history.length ∧ ctx = c.ctx then some "context canceled" else env history call
    | _ => env history call

end kafka

/-! ## Package `jwt` -/

namespace jwt

structure JWTConfig where
  SecretKey : String
  ExpireMinute : Int
  deriving DecidableEq, Repr

/-- The package-level variables of `jwt_utils.go`; `once` is `true` when the
`sync.Once` has already run its function. -/
structure Globals where
  gConfig : JWTConfig
  once : Bool
  deriving DecidableEq, Repr

/-- The package-level variables as initialised at program start. -/
def Globals.init : Globals :=
  { gConfig := { SecretKey := "", ExpireMinute := 0 }, once := false }

/-- Source: `InitJWT` (jwt_utils.go 21-25). -/
def InitJWT (config : JWTConfig) (g : Globals) : Globals :=
  if g.once then g else { gConfig := config, once := true }

end jwt

/-! ## Maps with string keys -/

/-- A value of type `any` held in a map: an integer or a string, the kinds of value
the code under study and its tests store. -/
inductive Value where
  | int (n : Int)
  | str (s : String)
  deriving DecidableEq, Repr

/-- A non-nil `map[string]any`, given by its lookup (`none`: the key is absent). -/
abbrev StrMap := String → Option Value

/-- The map without entries, `make(map[string]any)`. -/
def StrMap.empty : StrMap := fun _ => none

/-- The assignment `m[key] = v`. -/
def StrMap.set (m : StrMap) (key : String) (v : Value) : StrMap :=
  fun k => if k = key then some v else m k

/-- The loop `for k, v := range src { dst[k] = v }`: every entry of `src` is assigned
into `dst` (the keys of a map are distinct, so the iteration order has no influence). -/
def StrMap.assignAll (dst src : StrMap) : StrMap :=
  fun k => match src k with
    | some v => some v
    | none => dst k

/-! ## Package `jwt`: generating a token -/

namespace jwt

/-- The constant `time.Minute`, in nanoseconds. -/
def Minute : Int := 60 * Second

/-- What `GenerateToken` passes to `token.SignedString`: the claims of the token and
the key.  The token string and the error that `GenerateToken` returns are the ones the
library computes from these two. -/
structure Signing where
  claims : StrMap
  key : String

/-- Source: `GenerateToken` (jwt_utils.go 27-32).  `now` is `time.Now()` in nanoseconds
since the Unix epoch; the product `time.Minute * time.Duration(ExpireMinute)` is a
64-bit multiplication; `Unix()` is the number of whole seconds.  The argument `none`
is the nil map: `jwt.MapClaims(claimMap)` is then nil too and the assignment of the
entry "exp" panics, which is the result `none`. -/
def GenerateToken (g : Globals) (now : Int) (claimMap : Option StrMap) : Option Signing :=
  let expireTime := now + wrap64 (Minute * g.gConfig.ExpireMinute)
  match claimMap with
  | none => none
  | some claims =>
    some { claims := claims.set "exp" (Value.int (expireTime / Second)),
           key := g.gConfig.SecretKey }

/-- The functions of the jwt-go library that the package calls: `SignedString`, from
the claims and the key to the token string and the error, and `ParseWithClaims` with
the key function of `ValidateToken`, from the token string and the key to the claims
or the error (signature, encoding and expiry are checked by the library). -/
structure Library where
  SignedString : Signing → String × Option String
  ParseWithClaims : String → String → Except String StrMap

/-- Source: `ValidateToken` (jwt_utils.go 34-49). -/
def ValidateToken (lib : Library) (g : Globals) (token : String) : Except String StrMap :=
  match lib.ParseWithClaims token g.gConfig.SecretKey with
  | Except.error err => Except.error err
  | Except.ok claims => Except.ok claims

/-- The round trip `t, err := GenerateToken(claims)` followed by `ValidateToken(t)`:
what the two calls return, or `none` when `GenerateToken` panics. -/
def roundTrip (lib : Library) (g : Globals) (now : Int) (claimMap : Option StrMap) :
    Option ((String × Option String) × Except String StrMap) :=
  match GenerateToken g now claimMap with
  | none => none
  | some signing =>
    some (lib.SignedString signing, ValidateToken lib g (lib.SignedString signing).1)

end jwt

/-! ## Package `i18n` -/

namespace i18n

/-- One argument of `params ...any`: a `map[string]any` (a nil map of that type is the
map without entries: ranging over it runs no iteration) or a value of another type. -/
inductive Param where
  | strMap (m : StrMap)
  | other (v : Value)

/-- The struct `i18n.LocalizeConfig`, with the two fields that `GetLocalizeMessage`
sets. -/
structure LocalizeConfig where
  MessageID : String
  TemplateData : StrMap

/-- A localizer of the library, given by its method `Localize`. -/
abbrev Localizer := LocalizeConfig → String × Option String

/-- The struct `I18n` held by `buffer`. -/
structure I18n where
  localizerMap : String → Option Localizer

/-- The loop over `params` in `GetLocalizeMessage` (i18n.go 88-95), from the given
value of `templateData`. -/
def mergeParams (templateData : StrMap) (params : List Param) : StrMap :=
  params.foldl (fun templateData param =>
    match param with
    | Param.strMap paramMap => templateData.assignAll paramMap
    | Param.other _ => templateData) templateData

/-- Source: `GetLocalizeMessage` (i18n.go 83-103); `i` is the value `buffer.Load()`
returns. -/
def GetLocalizeMessage (i : I18n) (lang key : String) (params : List Param) :
    String × Option String :=
  match i.localizerMap lang with
  | some localizer =>
    localizer { MessageID := key, TemplateData := mergeParams StrMap.empty params }
  | none => ("", some "lang not found")

/-- The value of `key` in the last map of `params` that has the key. -/
def lastValue (params : List Param) (key : String) : Option Value :=
  params.reverse.findSome? (fun param =>
    match param with
    | Param.strMap m => m key
    | Param.other _ => none)

/-- Whether the argument is a `map[string]any`. -/
def Param.isMap : Param → Bool
  | Param.strMap _ => true
  | Param.other _ => false

end i18n

/-! ## Package `cron` -/

namespace cron

/-- The scheduler `c` of the library, as far as the package uses it: the entries
(id and spec) it runs and the id given out last. -/
structure Cron where
  entries : List (Nat × String)
  nextID : Nat
  deriving DecidableEq, Repr

/-- The package-level variables `c` and `ids` of `cron.go`. -/
structure Globals where
  c : Cron
  ids : String → Option Nat

/-- The package-level variables after `init()` (cron.go 13-17). -/
def Globals.init : Globals := { c := { entries := [], nextID := 0 }, ids := fun _ => none }

/-- The library call `c.AddJob(spec, job)`: it fails with the error of the spec parser
`parse` when the spec is not valid, and otherwise adds an entry under the next id. -/
def Cron.AddJob (parse : String → Option String) (c : Cron) (spec : String) :
    Except String Nat × Cron :=
  match parse spec with
  | some err => (Except.error err, c)
  | none =>
    (Except.ok (c.nextID + 1),
     { entries := c.entries ++ [(c.nextID + 1, spec)], nextID := c.nextID + 1 })

/-- The library call `c.Remove(id)`. -/
def Cron.Remove (c : Cron) (id : Nat) : Cron :=
  { c with entries := c.entries.filter (fun e => e.1 != id) }

/-- Source: `AddCronFunc` (every.go 12-33); `parse` is the spec parser of the
scheduler. -/
def AddCronFunc (parse : String → Option String) (symbol spec : String) (g : Globals) :
    Option String × Globals :=
  match g.ids symbol with
  | some _ => (some (symbol ++ " cron job already exists"), g)
  | none =>
    match g.c.AddJob parse spec with
    | (Except.error err, c1) => (some err, { g with c := c1 })
    | (Except.ok id, c1) =>
      (none, { c := c1, ids := fun k => if k = symbol then some id else g.ids k })

/-- Source: `RemoveFunc` (cron.go 24-32). -/
def RemoveFunc (symbol : String) (g : Globals) : Globals :=
  match g.ids symbol with
  | none => g
  | some id => { g with c := g.c.Remove id }

end cron

/-! ## Package `verify_code` -/

namespace verify_code

def redisVerifyCodeSuccess : Int := 0
def redisStoreVerifyCodeErrFastCode : Int := 1
def redisStoreVerifyCodeErrLimitCode : Int := 2
def redisValidateVerifyCodeErrInvalidCode : Int := 3
def redisValidateVerifyCodeErrExpiredCode : Int := 4
def redisNeedResetVerifyCodeErrCode : Int := 5

def RedisStoreVerifyCodeErrFast : String := "verify code is too fast"
def RedisStoreVerifyCodeErrLimit : String := "verify code is too many"
def RedisValidateVerifyCodeErr : String := "verify code is invalid"
def RedisValidateVerifyCodeExpired : String := "verify code is expired"
def RedisNeedResetVerifyCode : String := "verify code need reset"

/-- Source: `errMap` (redis_verify_code.go 29-36); a code without entry yields the nil
error. -/
def errMap (errCode : Int) : Option String :=
  if errCode = redisVerifyCodeSuccess then none
  else if errCode = redisStoreVerifyCodeErrFastCode then some RedisStoreVerifyCodeErrFast
  else if errCode = redisStoreVerifyCodeErrLimitCode then some RedisStoreVerifyCodeErrLimit
  else if errCode = redisValidateVerifyCodeErrInvalidCode then some RedisValidateVerifyCodeErr
  else if errCode = redisValidateVerifyCodeErrExpiredCode then
    some RedisValidateVerifyCodeExpired
  else if errCode = redisNeedResetVerifyCodeErrCode then some RedisNeedResetVerifyCode
  else none

/-- Source: `VerifyCodeOption` (verify_code.go). -/
structure VerifyCodeOption where
  Interval : Int
  Limit : Int
  Lifetime : Int
  ErrorTimes : Int
  SuccessTimes : Int
  deriving DecidableEq, Repr

/-- The Redis hash stored under the key of a verification code, with the fields the
scripts read and write (`none`: the field is absent; a key that does not exist is the
hash without fields).  The numeric fields hold the integers the scripts wrote. -/
structure Hash where
  code : Option String
  time : Option Int
  ip : Option String
  success : Option Int
  error : Option Int
  total : Option Int
  deriving DecidableEq, Repr

/-- The hash of a key that does not exist. -/
def Hash.absent : Hash :=
  { code := none, time := none, ip := none, success := none, error := none, total := none }

/-- Source: `redisStoreVerifyCodeScript` (redis_script.go 3-25), run on the hash under
`KEYS[1]`: the reply (two integers) and the hash afterwards.  The script also sets
the expiry of the key to 24 hours; the key is taken not to expire meanwhile. -/
def redisStoreVerifyCodeScript (h : Hash) (ip code : String)
    (now interval dayTotal errFast errLimit : Int) : (Int × Int) × Hash :=
  let tooFast := match h.time with
    | some time => decide (now - time < interval)
    | none => false
  if tooFast then ((errFast, interval + h.time.getD 0 - now), h)
  else
    let limited := match h.total with
      | some total => decide (total ≥ dayTotal)
      | none => false
    if limited then ((errLimit, 0), h)
    else
      ((0, interval),
       { code := some code, time := some now, ip := some ip, success := some 0,
         error := some 0, total := some (h.total.getD 0 + 1) })

/-- Source: `redisValidateVerifyCodeScript` (redis_script.go 26-66), run on the hash
under `KEYS[1]`: the integer reply and the hash afterwards. -/
def redisValidateVerifyCodeScript (h : Hash) (_ip code : String)
    (now lifetime errorTimes successTimes errReset errExpired errInvalid : Int) :
    Int × Hash :=
  let present := match h.code with
    | some currCode => decide (currCode.length > 0)
    | none => false
  if present then
    if h.code ≠ some code then
      let curErrorTimes := h.error.getD 0 + 1
      let h1 := { h with error := some curErrorTimes }
      (errInvalid, if curErrorTimes > errorTimes then { h1 with code := some "" } else h1)
    else
      let expired := match h.time with
        | some time => decide (now - time > lifetime)
        | none => true
      if expired then (errExpired, h)
      else
        let curSuccessTimes := h.success.getD 0 + 1
        let h1 := { h with success := some curSuccessTimes }
        (0, if curSuccessTimes > successTimes then { h1 with code := some "" } else h1)
  else
    let failed := match h.error with
      | some errorTimes => decide (errorTimes > 0)
      | none => false
    let succeeded := match h.success with
      | some successTime => decide (successTime > 0)
      | none => false
    if failed || succeeded then (errReset, h) else (errInvalid, h)

/-- Source: `redisVerifyCodeService.StoreVerifyCode` (redis_verify_code.go 44-68) for a
script run that Redis completes: `h` is the hash under the formatted key, `now` is
`time.Now().Unix()`. -/
def StoreVerifyCode (option : VerifyCodeOption) (h : Hash) (now : Int) (code ip : String) :
    (Int × Option String) × Hash :=
  let reply := redisStoreVerifyCodeScript h ip code now option.Interval option.Limit
    redisStoreVerifyCodeErrFastCode redisStoreVerifyCodeErrLimitCode
  ((reply.1.2, errMap reply.1.1), reply.2)

/-- Source: `redisVerifyCodeService.ValidateVerifyCode` (redis_verify_code.go 69-92)
for a script run that Redis completes. -/
def ValidateVerifyCode (option : VerifyCodeOption) (h : Hash) (now : Int)
    (code ip : String) : Option String × Hash :=
  let reply := redisValidateVerifyCodeScript h ip code now option.Lifetime
    option.ErrorTimes option.SuccessTimes redisNeedResetVerifyCodeErrCode
    redisValidateVerifyCodeErrExpiredCode redisValidateVerifyCodeErrInvalidCode
  (errMap reply.1, reply.2)

/-- One call of `ValidateVerifyCode`: the time of the call and its arguments. -/
structure Attempt where
  now : Int
  code : String
  ip : String
  deriving DecidableEq, Repr

/-- The calls `ValidateVerifyCode` made one after the other for the given attempts:
the errors returned, in order, and the hash left. -/
def validateAll (option : VerifyCodeOption) : List Attempt → Hash → List (Option String) × Hash
  | [], h => ([], h)
  | a :: rest, h =>
    let r := ValidateVerifyCode option h a.now a.code a.ip
    let rs := validateAll option rest r.2
    (r.1 :: rs.1, rs.2)

end verify_code

/-! ## Every construction succeeds -/

namespace rabbitmq

/-- The producers of the list are constructed one after the other, each in the world
left by the one before, and every construction succeeds: the world left by the last. -/
def producersConstruct {σ : Type} : List ProducerConf → World σ → Option (World σ)
  | [], w => some w
  | conf :: rest, w =>
    match InitProducer conf w with
    | (Except.ok _, w1) => producersConstruct rest w1
    | (Except.error _, _) => none

/-- The consumers of the list are constructed one after the other, each in the world
left by the one before, and every construction succeeds: the world left by the last. -/
def consumersConstruct {σ : Type} : List ConsumerConf → World σ → Option (World σ)
  | [], w => some w
  | conf :: rest, w =>
    match (InitConsumer conf w : Except String (Consumer σ) × ConsumerConf × World σ) with
    | (Except.ok _, _, w1) => consumersConstruct rest w1
    | (Except.error _, _, _) => none

end rabbitmq

namespace kafka

/-- The producers of the list are constructed one after the other, each in the world
left by the one before, and every construction succeeds: the world left by the last. -/
def producersConstruct {σ : Type} : List ProducerConf → World σ → Option (World σ)
  | [], w => some w
  | conf :: rest, w =>
    match InitProducer conf w with
    | (Except.ok _, w1) => producersConstruct rest w1
    | (Except.error _, _) => none

/-- The consumers of the list are constructed one after the other, each in the world
left by the one before, and every construction succeeds (none panics): the world left
by the last. -/
def consumersConstruct {σ : Type} : List ConsumerConf → World σ → Option (World σ)
  | [], w => some w
  | conf :: rest, w =>
    match (InitConsumer conf w : Except String (Consumer σ) × ConsumerConf × World σ) with
    | (Except.ok _, _, w1) => consumersConstruct rest w1
    | (Except.error _, _, _) => none

end kafka

/-! ## Concrete inputs used to instantiate the theorems -/

/-- A handler that counts its invocations and fails on the first `k` of them. -/
def failFirst (k : Nat) : Handler Nat :=
  fun _ n => (if n < k then some "handler failed" else none, n + 1)

namespace rabbitmq

/-- A world whose broker accepts every call. -/
def calmWorld : World Nat := { env := fun _ _ => none, trace := [], hstate := 0 }

/-- A manual-ack consumer with the given retry count and retry delay whose handler
fails on its first `k` invocations. -/
def sampleConsumer (retryCount retryDelay : Int) (k : Nat) : Consumer Nat :=
  { client := { address := "amqp://broker", conn := 0, channel := 1 },
    config := { Key := "c", Address := "amqp://broker", Queue := "q", PrefetchCount := 1,
                RetryCount := retryCount, RetryDelay := retryDelay, AutoAck := false },
    handler := some (failFirst k), done := false, closeErr := 2, reconnecting := false }

/-- A world whose broker refuses every dial. -/
def downWorld : World Nat :=
  { env := fun _ call => match call with
      | Call.dial _ => some "connection refused"
      | _ => none,
    trace := [], hstate := 0 }

/-- A producer config with the given key. -/
def producerConf (key : String) : ProducerConf :=
  { Key := key, Address := "", Exchange := "ex-" ++ key, RoutingKey := "rk", Confirm := false }

/-- A consumer config with the given key. -/
def consumerConf (key : String) : ConsumerConf :=
  { Key := key, Address := "", Queue := "q-" ++ key, PrefetchCount := 1, RetryCount := 3,
    RetryDelay := 2, AutoAck := false }

/-- A configuration whose producers and consumers are keyed a, b, c. -/
def sampleMQ : RabbitMQ :=
  { Address := "amqp://broker",
    Producer := [producerConf "a", producerConf "b", producerConf "c"],
    Consumer := [consumerConf "a", consumerConf "b", consumerConf "c"] }

/-- A configuration with two producers and two consumers under the same key x. -/
def dupMQ : RabbitMQ :=
  { Address := "amqp://broker",
    Producer := [{ producerConf "x" with Exchange := "first" },
                 { producerConf "x" with Exchange := "second" }],
    Consumer := [{ consumerConf "x" with Queue := "first" },
                 { consumerConf "x" with Queue := "second" }] }

/-- The producer config of `sampleMQ` with the given key, its address defaulted. -/
def producerConfAt (key : String) : ProducerConf :=
  { producerConf key with Address := "amqp://broker" }

/-- The consumer config of `sampleMQ` with the given key, its address defaulted. -/
def consumerConfAt (key : String) : ConsumerConf :=
  { consumerConf key with Address := "amqp://broker" }

/-- A consumer config that leaves the retry count and the retry delay unset (zero). -/
def unsetRetryConf : ConsumerConf :=
  { Key := "c", Address := "amqp://broker", Queue := "q", PrefetchCount := 0, RetryCount := 0,
    RetryDelay := 0, AutoAck := false }

/-- The consumer that `InitConsumer` builds from `unsetRetryConf` in `calmWorld`. -/
def unsetRetryConsumer : Consumer Nat :=
  { client := { address := "amqp://broker", conn := 0, channel := 1 },
    config := { unsetRetryConf with PrefetchCount := 1, RetryCount := 3 },
    handler := none, done := false, closeErr := 2, reconnecting := false }

/-- A world whose broker accepts every dial and refuses to open a channel. -/
def channelFails : World Nat :=
  { env := fun _ call => match call with
      | Call.channel _ => some "channel limit reached"
      | _ => none,
    trace := [], hstate := 0 }

/-- A world whose broker refuses every exchange declaration. -/
def exchangeFails : World Nat :=
  { env := fun _ call => match call with
      | Call.exchangeDeclare _ _ _ _ _ _ _ => some "access refused"
      | _ => none,
    trace := [], hstate := 0 }

/-- A world whose broker refuses to put a channel in confirm mode. -/
def confirmFails : World Nat :=
  { env := fun _ call => match call with
      | Call.confirm _ _ => some "not supported"
      | _ => none,
    trace := [], hstate := 0 }

/-- A world whose broker refuses every publishing. -/
def publishFails : World Nat :=
  { env := fun _ call => match call with
      | Call.publish _ _ _ _ _ _ _ _ => some "channel closed"
      | _ => none,
    trace := [], hstate := 0 }

/-- A producer on connection 0 and channel 1. -/
def sampleProducer : Producer :=
  { client := { address := "amqp://broker", conn := 0, channel := 1 },
    config := producerConfAt "a" }

/-- A world whose broker refuses the dial of the first reconnect attempt (the
fourth call of `reconnect`) and accepts everything else. -/
def firstDialFails : World Nat :=
  { env := fun history call => match call with
      | Call.dial _ => if history.length < 4 then some "connection refused" else none
      | _ => none,
    trace := [], hstate := 0 }

/-- A world whose broker accepts the first dial and refuses every later one. -/
def secondDialFails : World Nat :=
  { env := fun history call => match call with
      | Call.dial _ => if history.length < 2 then none else some "connection refused"
      | _ => none,
    trace := [], hstate := 0 }

/-- A world whose broker refuses every QoS setting. -/
def qosFails : World Nat :=
  { env := fun _ call => match call with
      | Call.qos _ _ _ _ => some "qos refused"
      | _ => none,
    trace := [], hstate := 0 }

/-- A delivery with tag 8. -/
def otherDelivery : Delivery := { Body := [111], DeliveryTag := 8 }

/-- A consumer whose reconnect is already in progress. -/
def busyConsumer : Consumer Nat := { sampleConsumer 3 2 0 with reconnecting := true }

/-- The package variables after `RegisterConnWithKeys` has stored the given keys. -/
def keyedGlobals (keys : List String) : Globals Nat :=
  { Globals.init Nat with initByKeysEnable := true, initKeys := keys }

/-- A delivery with tag 7. -/
def sampleDelivery : Delivery := { Body := [104, 105], DeliveryTag := 7 }

end rabbitmq

namespace kafka

/-- A world whose library calls all succeed. -/
def calmWorld : World Nat := { env := fun _ _ => none, trace := [], hstate := 0 }

/-- A manual-commit consumer with the given retry count and retry delay whose handler
fails on its first `k` invocations. -/
def sampleConsumer (retryCount retryDelay : Int) (k : Nat) : Consumer Nat :=
  { client := { brokers := ["broker:9092"] },
    config := { Key := "c", Brokers := ["broker:9092"], Topic := "t", Group := "g",
                RetryCount := retryCount, RetryDelay := retryDelay, AutoCommit := false,
                FromBeginning := false },
    reader := 0, handler := some (failFirst k), ctx := 1, done := false }

/-- A producer config with the given key. -/
def producerConf (key : String) : ProducerConf :=
  { Key := key, Brokers := [], Topic := "t-" ++ key, Async := false }

/-- A consumer config with the given key. -/
def consumerConf (key : String) : ConsumerConf :=
  { Key := key, Brokers := [], Topic := "t-" ++ key, Group := "g", RetryCount := 3,
    RetryDelay := 2, AutoCommit := false, FromBeginning := false }

/-- A configuration whose producers and consumers are keyed a, b, c. -/
def sampleKafka : Kafka :=
  { Brokers := ["broker:9092"],
    Producer := [producerConf "a", producerConf "b", producerConf "c"],
    Consumer := [consumerConf "a", consumerConf "b", consumerConf "c"] }

/-- A configuration with two producers and two consumers under the same key x. -/
def dupKafka : Kafka :=
  { Brokers := ["broker:9092"],
    Producer := [{ producerConf "x" with Topic := "first" },
                 { producerConf "x" with Topic := "second" }],
    Consumer := [{ consumerConf "x" with Topic := "first" },
                 { consumerConf "x" with Topic := "second" }] }

/-- A consumer config that leaves the retry count and the retry delay unset (zero). -/
def unsetRetryConf : ConsumerConf :=
  { Key := "c", Brokers := ["broker:9092"], Topic := "t", Group := "g", RetryCount := 0,
    RetryDelay := 0, AutoCommit := false, FromBeginning := false }

/-- The consumer that `InitConsumer` builds from `unsetRetryConf` in `calmWorld`. -/
def unsetRetryConsumer : Consumer Nat :=
  { client := { brokers := ["broker:9092"] },
    config := { unsetRetryConf with RetryCount := 3 },
    reader := 0, handler := none, ctx := 1, done := false }

/-- A message at offset 43. -/
def otherMessage : Message :=
  { Topic := "t", Partition := 0, Offset := 43, Key := [], Value := [111] }

/-- A world in which every `CommitMessages` fails and every other call succeeds. -/
def commitFails : World Nat :=
  { env := fun _ c => match c with
      | Call.commitMessages _ _ _ => some "broker down"
      | _ => none,
    trace := [], hstate := 0 }

/-- The package variables after `RegisterConnWithKeys` has stored the given keys. -/
def keyedGlobals (keys : List String) : Globals Nat :=
  { Globals.init Nat with initByKeysEnable := true, initKeys := keys }

/-- A world in which the client library rejects a reader configuration without broker
addresses, as its validation does, and every other call succeeds. -/
def strictWorld : World Nat :=
  { env := fun _ c => match c with
      | Call.newReader config =>
        if config.Brokers.length = 0 then
          some "cannot create a new kafka reader with an empty list of broker addresses"
        else none
      | _ => none,
    trace := [], hstate := 0 }

/-- A configuration without default brokers whose second consumer has no broker
address of its own. -/
def noBrokerKafka : Kafka :=
  { Brokers := [],
    Producer := [producerConf "a"],
    Consumer := [{ consumerConf "a" with Brokers := ["broker:9092"] }, consumerConf "b",
                 { consumerConf "c" with Brokers := ["broker:9092"] }] }

/-- A message at offset 42. -/
def sampleMessage : Message :=
  { Topic := "t", Partition := 0, Offset := 42, Key := [], Value := [104, 105] }

end kafka

namespace jwt

/-- The claims of the test `TestGenerateToken`. -/
def sampleClaims : StrMap :=
  (StrMap.empty.set "userID" (Value.int 123)).set "role" (Value.str "admin")

/-- The package variables after `InitJWT` with an expiry of 60 minutes. -/
def sampleGlobals : Globals :=
  InitJWT { SecretKey := "test-secret-key", ExpireMinute := 60 } Globals.init

end jwt

namespace i18n

/-- The text of a value in a rendered message. -/
def render : Option Value → String
  | some (Value.str s) => s
  | some (Value.int n) => toString n
  | none => "<no value>"

/-- A localizer for the message `greeting_time` of the test data. -/
def greeting : Localizer :=
  fun cfg => (render (cfg.TemplateData "Name") ++ ", it's " ++ render (cfg.TemplateData "Time")
    ++ ", " ++ render (cfg.TemplateData "Message"), none)

/-- A value of `buffer` with the one language en_US. -/
def sampleI18n : I18n :=
  { localizerMap := fun lang => if lang = "en_US" then some greeting else none }

end i18n

namespace cron

/-- A spec parser that accepts every spec. -/
def acceptAll : String → Option String := fun _ => none

end cron

namespace verify_code

/-- Options with a store interval of 60 seconds, at most 5 stores, and a lockout after
more than 2 wrong codes. -/
def sampleOption : VerifyCodeOption :=
  { Interval := 60, Limit := 5, Lifetime := 300, ErrorTimes := 2, SuccessTimes := 1 }

/-- The hash left by a first `StoreVerifyCode` of the code 1234 at time 100. -/
def storedHash : Hash := (StoreVerifyCode sampleOption Hash.absent 100 "1234" "10.0.0.1").2

/-- A hash whose limit of stores is used up, last stored at time 100. -/
def usedUpHash : Hash := { storedHash with total := some 5 }

/-- A call of `ValidateVerifyCode` with the given code at time 110. -/
def attemptWith (code : String) : Attempt := { now := 110, code := code, ip := "10.0.0.1" }

end verify_code

/-! ## Theorems -/

namespace rabbitmq

theorem processAttempts_success {σ : Type} (c : Consumer σ) (h : Handler σ) (msg : Delivery) :
    ∀ (k : Nat) (as : List Int) (e0 : Option String) (w : World σ), k < as.length →
      (∀ i, i < k → (h msg.Body (handlerState h msg.Body i w.hstate)).1 ≠ none) →
      (h msg.Body (handlerState h msg.Body k w.hstate)).1 = none →
      ∃ calls, (processAttempts c h msg as e0 w).2.trace = w.trace ++ calls ∧
        calls.countP Call.isHandler = k + 1 ∧
        calls.countP Call.isNack = 0 ∧
        calls.countP Call.isAck = (if c.config.AutoAck then 0 else 1) ∧
        calls.count (Call.ack msg.DeliveryTag false) = (if c.config.AutoAck then 0 else 1) := by
  intro k
  induction k with
  | zero =>
    intro as e0 w hlen _ hok
    obtain ⟨a, rest, rfl⟩ : ∃ a rest, as = a :: rest := by
      cases as with
      | nil => simp at hlen
      | cons a rest => exact ⟨a, rest, rfl⟩
    simp only [handlerState] at hok
    by_cases hA : c.config.AutoAck = true
    · refine ⟨[Call.handler msg.Body], ?_, ?_⟩
      · simp [processAttempts, World.invoke, hok, hA]
      · simp [Call.isHandler, Call.isNack, Call.isAck, hA]
    · refine ⟨[Call.handler msg.Body, Call.ack msg.DeliveryTag false], ?_, ?_⟩
      · simp [processAttempts, World.invoke, World.call, hok, hA]
      · simp [Call.isHandler, Call.isNack, Call.isAck, hA]
  | succ k ih =>
    intro as e0 w hlen hfail hok
    obtain ⟨a, rest, rfl⟩ : ∃ a rest, as = a :: rest := by
      cases as with
      | nil => simp at hlen
      | cons a rest => exact ⟨a, rest, rfl⟩
    have h0 := hfail 0 (Nat.succ_pos k)
    simp only [handlerState] at h0
    obtain ⟨e, he⟩ : ∃ e, (h msg.Body w.hstate).1 = some e := by
      cases hh : (h msg.Body w.hstate).1 with
      | none => exact absurd hh h0
      | some e => exact ⟨e, rfl⟩
    have hlen1 : k < rest.length := by simpa using hlen
    by_cases hlt : a < c.config.RetryCount
    · obtain ⟨calls, htr, h1, h2, h3, h4⟩ := ih rest (some e)
        (({ w with hstate := (h msg.Body w.hstate).2,
                   trace := w.trace ++ [Call.handler msg.Body] } : World σ).emit
          (Call.sleep (wrap64 (c.config.RetryDelay * Second)))) hlen1
        (fun i hi => hfail (i + 1) (Nat.succ_lt_succ hi)) hok
      refine ⟨Call.handler msg.Body :: Call.sleep (wrap64 (c.config.RetryDelay * Second)) :: calls,
        ?_, ?_⟩
      · simp only [World.emit, List.append_assoc, List.singleton_append] at htr
        simp [processAttempts, World.invoke, he, hlt, World.emit, htr]
      · simp [Call.isHandler, Call.isNack, Call.isAck, h1, h2, h3, h4]
    · obtain ⟨calls, htr, h1, h2, h3, h4⟩ := ih rest (some e)
        ({ w with hstate := (h msg.Body w.hstate).2,
                  trace := w.trace ++ [Call.handler msg.Body] } : World σ) hlen1
        (fun i hi => hfail (i + 1) (Nat.succ_lt_succ hi)) hok
      refine ⟨Call.handler msg.Body :: calls, ?_, ?_⟩
      · simp [processAttempts, World.invoke, he, hlt, htr]
      · simp [Call.isHandler, Call.isNack, Call.isAck, h1, h2, h3, h4]

end rabbitmq

namespace kafka

theorem processAttempts_commit_success {σ : Type} (c : Consumer σ) (h : Handler σ) (msg : Message) :
    ∀ (k : Nat) (as : List Int) (e0 : Option String) (w : World σ), k < as.length →
      (∀ i, i < k → (h msg.Value (handlerState h msg.Value i w.hstate)).1 ≠ none) →
      (h msg.Value (handlerState h msg.Value k w.hstate)).1 = none →
      ∃ calls, (processAttempts c h msg as e0 w).2.trace = w.trace ++ calls ∧
        calls.countP Call.isHandler = k + 1 ∧
        calls.countP Call.isCommit = (if c.config.AutoCommit then 0 else 1) ∧
        calls.count (Call.commitMessages c.reader c.ctx msg) =
          (if c.config.AutoCommit then 0 else 1) := by
  intro k
  induction k with
  | zero =>
    intro as e0 w hlen _ hok
    obtain ⟨a, rest, rfl⟩ : ∃ a rest, as = a :: rest := by
      cases as with
      | nil => simp at hlen
      | cons a rest => exact ⟨a, rest, rfl⟩
    simp only [handlerState] at hok
    by_cases hA : c.config.AutoCommit = true
    · refine ⟨[Call.handler msg.Value], ?_, ?_⟩
      · simp [processAttempts, World.invoke, hok, hA]
      · simp [Call.isHandler, Call.isCommit, hA]
    · refine ⟨[Call.handler msg.Value, Call.commitMessages c.reader c.ctx msg], ?_, ?_⟩
      · simp only [processAttempts, World.invoke, World.call, hok, hA]
        cases w.env (w.trace ++ [Call.handler msg.Value])
          (Call.commitMessages c.reader c.ctx msg) <;> simp
      · simp [Call.isHandler, Call.isCommit, hA]
  | succ k ih =>
    intro as e0 w hlen hfail hok
    obtain ⟨a, rest, rfl⟩ : ∃ a rest, as = a :: rest := by
      cases as with
      | nil => simp at hlen
      | cons a rest => exact ⟨a, rest, rfl⟩
    have h0 := hfail 0 (Nat.succ_pos k)
    simp only [handlerState] at h0
    obtain ⟨e, he⟩ : ∃ e, (h msg.Value w.hstate).1 = some e := by
      cases hh : (h msg.Value w.hstate).1 with
      | none => exact absurd hh h0
      | some e => exact ⟨e, rfl⟩
    have hlen1 : k < rest.length := by simpa using hlen
    by_cases hlt : a < c.config.RetryCount
    · obtain ⟨calls, htr, h1, h2, h3⟩ := ih rest (some e)
        (({ w with hstate := (h msg.Value w.hstate).2,
                   trace := w.trace ++ [Call.handler msg.Value] } : World σ).emit
          (Call.sleep (wrap64 (c.config.RetryDelay * Second)))) hlen1
        (fun i hi => hfail (i + 1) (Nat.succ_lt_succ hi)) hok
      refine ⟨Call.handler msg.Value :: Call.sleep (wrap64 (c.config.RetryDelay * Second)) :: calls,
        ?_, ?_⟩
      · simp only [World.emit, List.append_assoc, List.singleton_append] at htr
        simp [processAttempts, World.invoke, he, hlt, World.emit, htr]
      · simp [Call.isHandler, Call.isCommit, h1, h2, h3]
    · obtain ⟨calls, htr, h1, h2, h3⟩ := ih rest (some e)
        ({ w with hstate := (h msg.Value w.hstate).2,
                  trace := w.trace ++ [Call.handler msg.Value] } : World σ) hlen1
        (fun i hi => hfail (i + 1) (Nat.succ_lt_succ hi)) hok
      refine ⟨Call.handler msg.Value :: calls, ?_, ?_⟩
      · simp [processAttempts, World.invoke, he, hlt, htr]
      · simp [Call.isHandler, Call.isCommit, h1, h2, h3]

end kafka

theorem attempts_length (N : Nat) : (attempts (N : Int)).length = N + 1 := by
  simp only [attempts, List.length_map, List.length_range]
  omega

/-- C1: for a retry count `N`, a number `k ≤ N` and a handler that fails on its first
`k` invocations and succeeds on invocation `k + 1`, `Consumer.processMessage` (RabbitMQ
and Kafka) returns after invoking the handler exactly `k + 1` times; in manual mode it
acknowledges (resp. commits) this very message exactly once, and never
negative-acknowledges it; in auto mode it issues no Ack, Nack or commit.  (The
statement holds for every `N ≥ 0`, in particular for the effective counts `N ≥ 1`.) -/
theorem processMessage_success_after_k_failures (N k : Nat) (hk : k ≤ N) :
    (∀ {σ : Type} (c : rabbitmq.Consumer σ) (h : Handler σ) (msg : rabbitmq.Delivery)
        (w : rabbitmq.World σ),
        c.handler = some h → c.config.RetryCount = (N : Int) →
        (∀ i, i < k → (h msg.Body (handlerState h msg.Body i w.hstate)).1 ≠ none) →
        (h msg.Body (handlerState h msg.Body k w.hstate)).1 = none →
        ∃ err w1 calls, rabbitmq.processMessage c msg w = some (err, w1) ∧
          w1.trace = w.trace ++ calls ∧
          calls.countP rabbitmq.Call.isHandler = k + 1 ∧
          calls.countP rabbitmq.Call.isNack = 0 ∧
          (c.config.AutoAck = false →
            calls.countP rabbitmq.Call.isAck = 1 ∧
            calls.count (rabbitmq.Call.ack msg.DeliveryTag false) = 1) ∧
          (c.config.AutoAck = true → calls.countP rabbitmq.Call.isAck = 0)) ∧
    (∀ {σ : Type} (c : kafka.Consumer σ) (h : Handler σ) (msg : kafka.Message)
        (w : kafka.World σ),
        c.handler = some h → c.config.RetryCount = (N : Int) →
        (∀ i, i < k → (h msg.Value (handlerState h msg.Value i w.hstate)).1 ≠ none) →
        (h msg.Value (handlerState h msg.Value k w.hstate)).1 = none →
        ∃ err w1 calls, kafka.processMessage c msg w = some (err, w1) ∧
          w1.trace = w.trace ++ calls ∧
          calls.countP kafka.Call.isHandler = k + 1 ∧
          (c.config.AutoCommit = false →
            calls.countP kafka.Call.isCommit = 1 ∧
            calls.count (kafka.Call.commitMessages c.reader c.ctx msg) = 1) ∧
          (c.config.AutoCommit = true → calls.countP kafka.Call.isCommit = 0)) := by
  constructor
  · intro σ c h msg w hh hN hfail hok
    obtain ⟨calls, htr, h1, h2, h3, h4⟩ :=
      rabbitmq.processAttempts_success c h msg k (attempts c.config.RetryCount) none w
        (by rw [hN, attempts_length]; omega) hfail hok
    refine ⟨(rabbitmq.processAttempts c h msg (attempts c.config.RetryCount) none w).1,
      (rabbitmq.processAttempts c h msg (attempts c.config.RetryCount) none w).2, calls,
      ?_, htr, h1, h2, ?_, ?_⟩
    · simp [rabbitmq.processMessage, hh]
    · intro hA
      simp [hA] at h3 h4
      exact ⟨h3, h4⟩
    · intro hA
      simpa [hA] using h3
  · intro σ c h msg w hh hN hfail hok
    obtain ⟨calls, htr, h1, h2, h3⟩ :=
      kafka.processAttempts_commit_success c h msg k (attempts c.config.RetryCount) none w
        (by rw [hN, attempts_length]; omega) hfail hok
    refine ⟨(kafka.processAttempts c h msg (attempts c.config.RetryCount) none w).1,
      (kafka.processAttempts c h msg (attempts c.config.RetryCount) none w).2, calls,
      ?_, htr, h1, ?_, ?_⟩
    · simp [kafka.processMessage, hh]
    · intro hA
      simp [hA] at h2 h3
      exact ⟨h2, h3⟩
    · intro hA
      simpa [hA] using h2

theorem processMessage_success_after_k_failures_witness :
    (∃ err w1 calls,
        rabbitmq.processMessage (rabbitmq.sampleConsumer 2 1 1) rabbitmq.sampleDelivery
          rabbitmq.calmWorld = some (err, w1) ∧
        w1.trace = rabbitmq.calmWorld.trace ++ calls ∧
        calls.countP rabbitmq.Call.isHandler = 1 + 1 ∧
        calls.countP rabbitmq.Call.isNack = 0 ∧
        ((rabbitmq.sampleConsumer 2 1 1).config.AutoAck = false →
          calls.countP rabbitmq.Call.isAck = 1 ∧
          calls.count (rabbitmq.Call.ack rabbitmq.sampleDelivery.DeliveryTag false) = 1) ∧
        ((rabbitmq.sampleConsumer 2 1 1).config.AutoAck = true →
          calls.countP rabbitmq.Call.isAck = 0)) ∧
    (∃ err w1 calls,
        kafka.processMessage (kafka.sampleConsumer 2 1 1) kafka.sampleMessage
          kafka.calmWorld = some (err, w1) ∧
        w1.trace = kafka.calmWorld.trace ++ calls ∧
        calls.countP kafka.Call.isHandler = 1 + 1 ∧
        ((kafka.sampleConsumer 2 1 1).config.AutoCommit = false →
          calls.countP kafka.Call.isCommit = 1 ∧
          calls.count (kafka.Call.commitMessages (kafka.sampleConsumer 2 1 1).reader
            (kafka.sampleConsumer 2 1 1).ctx kafka.sampleMessage) = 1) ∧
        ((kafka.sampleConsumer 2 1 1).config.AutoCommit = true →
          calls.countP kafka.Call.isCommit = 0)) :=
  ⟨(processMessage_success_after_k_failures 2 1 (by decide)).1
      (rabbitmq.sampleConsumer 2 1 1) (failFirst 1) rabbitmq.sampleDelivery rabbitmq.calmWorld
      rfl rfl (by decide) (by decide),
   (processMessage_success_after_k_failures 2 1 (by decide)).2
      (kafka.sampleConsumer 2 1 1) (failFirst 1) kafka.sampleMessage kafka.calmWorld
      rfl rfl (by decide) (by decide)⟩

namespace rabbitmq

theorem processAttempts_exhausted {σ : Type} (c : Consumer σ) (h : Handler σ) (msg : Delivery) :
    ∀ (as : List Int) (e0 : Option String) (w : World σ),
      (∀ i, i < as.length → (h msg.Body (handlerState h msg.Body i w.hstate)).1 ≠ none) →
      ∃ calls, (processAttempts c h msg as e0 w).2.trace = w.trace ++ calls ∧
        calls.countP Call.isHandler = as.length ∧
        calls.countP Call.isAck = 0 ∧
        calls.countP Call.isNack = (if c.config.AutoAck then 0 else 1) ∧
        calls.count (Call.nack msg.DeliveryTag false true) =
          (if c.config.AutoAck then 0 else 1) ∧
        (∀ n, as.length = n + 1 →
          (processAttempts c h msg as e0 w).1 =
            (h msg.Body (handlerState h msg.Body n w.hstate)).1) := by
  intro as
  induction as with
  | nil =>
    intro e0 w _
    by_cases hA : c.config.AutoAck = true
    · exact ⟨[], by simp [processAttempts, hA]⟩
    · exact ⟨[Call.nack msg.DeliveryTag false true], by
        simp [processAttempts, World.call, hA, Call.isHandler, Call.isAck, Call.isNack]⟩
  | cons a rest ih =>
    intro e0 w hfail
    have h0 := hfail 0 (by simp)
    simp only [handlerState] at h0
    obtain ⟨e, he⟩ : ∃ e, (h msg.Body w.hstate).1 = some e := by
      cases hh : (h msg.Body w.hstate).1 with
      | none => exact absurd hh h0
      | some e => exact ⟨e, rfl⟩
    have hrest : ∀ (w2 : World σ), w2.hstate = (h msg.Body w.hstate).2 →
        ∀ i, i < rest.length →
          (h msg.Body (handlerState h msg.Body i w2.hstate)).1 ≠ none := by
      intro w2 hw2 i hi
      rw [hw2]
      exact hfail (i + 1) (by simpa using hi)
    have hlast : ∀ (w2 : World σ), w2.hstate = (h msg.Body w.hstate).2 →
        (∀ n, rest.length = n + 1 →
          (processAttempts c h msg rest (some e) w2).1 =
            (h msg.Body (handlerState h msg.Body n w2.hstate)).1) →
        ∀ n, (a :: rest).length = n + 1 →
          (processAttempts c h msg rest (some e) w2).1 =
            (h msg.Body (handlerState h msg.Body n w.hstate)).1 := by
      intro w2 hw2 hih n hn
      cases rest with
      | nil =>
        have : n = 0 := by simpa using hn.symm
        subst this
        by_cases hA : c.config.AutoAck = true <;>
          simp [processAttempts, hA, handlerState, he]
      | cons b rest2 =>
        obtain ⟨m, rfl⟩ : ∃ m, n = m + 1 := ⟨rest2.length, by simpa using hn.symm⟩
        rw [hih m (by simpa using hn), hw2]
        rfl
    by_cases hlt : a < c.config.RetryCount
    · obtain ⟨calls, htr, h1, h2, h3, h4, h5⟩ := ih (some e)
        (({ w with hstate := (h msg.Body w.hstate).2,
                   trace := w.trace ++ [Call.handler msg.Body] } : World σ).emit
          (Call.sleep (wrap64 (c.config.RetryDelay * Second)))) (hrest _ rfl)
      refine ⟨Call.handler msg.Body :: Call.sleep (wrap64 (c.config.RetryDelay * Second)) :: calls,
        ?_, ?_, ?_, ?_, ?_, ?_⟩
      · simp only [World.emit, List.append_assoc, List.singleton_append] at htr
        simp [processAttempts, World.invoke, he, hlt, World.emit, htr]
      · simp [Call.isHandler, h1]
      · simp [Call.isAck, h2]
      · simp [Call.isNack, h3]
      · simp [h4]
      · intro n hn
        have := hlast _ rfl h5 n hn
        simpa [processAttempts, World.invoke, he, hlt] using this
    · obtain ⟨calls, htr, h1, h2, h3, h4, h5⟩ := ih (some e)
        ({ w with hstate := (h msg.Body w.hstate).2,
                  trace := w.trace ++ [Call.handler msg.Body] } : World σ) (hrest _ rfl)
      refine ⟨Call.handler msg.Body :: calls, ?_, ?_, ?_, ?_, ?_, ?_⟩
      · simp [processAttempts, World.invoke, he, hlt, htr]
      · simp [Call.isHandler, h1]
      · simp [Call.isAck, h2]
      · simp [Call.isNack, h3]
      · simp [h4]
      · intro n hn
        have := hlast _ rfl h5 n hn
        simpa [processAttempts, World.invoke, he, hlt] using this

end rabbitmq

/-- C2: for a retry count `N` and a handler that fails on every invocation, the RabbitMQ
`Consumer.processMessage` returns after invoking the handler exactly `N + 1` times and
never calls Ack; when `AutoAck` is false it negative-acknowledges the message exactly
once, with `multiple = false` and `requeue = true` (and not at all when `AutoAck` is
true); the value returned is the non-nil error of the last handler attempt. -/
theorem rabbitmq_processMessage_always_failing {σ : Type} (N : Nat)
    (c : rabbitmq.Consumer σ) (h : Handler σ) (msg : rabbitmq.Delivery) (w : rabbitmq.World σ)
    (hh : c.handler = some h) (hN : c.config.RetryCount = (N : Int))
    (hfail : ∀ i, i ≤ N → (h msg.Body (handlerState h msg.Body i w.hstate)).1 ≠ none) :
    ∃ err w1 calls, rabbitmq.processMessage c msg w = some (err, w1) ∧
      w1.trace = w.trace ++ calls ∧
      calls.countP rabbitmq.Call.isHandler = N + 1 ∧
      calls.countP rabbitmq.Call.isAck = 0 ∧
      (c.config.AutoAck = false →
        calls.countP rabbitmq.Call.isNack = 1 ∧
        calls.count (rabbitmq.Call.nack msg.DeliveryTag false true) = 1) ∧
      (c.config.AutoAck = true → calls.countP rabbitmq.Call.isNack = 0) ∧
      err = (h msg.Body (handlerState h msg.Body N w.hstate)).1 ∧ err ≠ none := by
  obtain ⟨calls, htr, h1, h2, h3, h4, h5⟩ :=
    rabbitmq.processAttempts_exhausted c h msg (attempts c.config.RetryCount) none w
      (by
        intro i hi
        rw [hN, attempts_length] at hi
        exact hfail i (by omega))
  have hlen : (attempts c.config.RetryCount).length = N + 1 := by rw [hN, attempts_length]
  refine ⟨(rabbitmq.processAttempts c h msg (attempts c.config.RetryCount) none w).1,
    (rabbitmq.processAttempts c h msg (attempts c.config.RetryCount) none w).2, calls,
    ?_, htr, ?_, h2, ?_, ?_, h5 N hlen, ?_⟩
  · simp [rabbitmq.processMessage, hh]
  · rw [h1, hlen]
  · intro hA
    simp [hA] at h3 h4
    exact ⟨h3, h4⟩
  · intro hA
    simpa [hA] using h3
  · rw [h5 N hlen]
    exact hfail N (le_refl N)

theorem rabbitmq_processMessage_always_failing_witness :
    ∃ err w1 calls,
      rabbitmq.processMessage (rabbitmq.sampleConsumer 2 1 3) rabbitmq.sampleDelivery
        rabbitmq.calmWorld = some (err, w1) ∧
      w1.trace = rabbitmq.calmWorld.trace ++ calls ∧
      calls.countP rabbitmq.Call.isHandler = 2 + 1 ∧
      calls.countP rabbitmq.Call.isAck = 0 ∧
      ((rabbitmq.sampleConsumer 2 1 3).config.AutoAck = false →
        calls.countP rabbitmq.Call.isNack = 1 ∧
        calls.count (rabbitmq.Call.nack rabbitmq.sampleDelivery.DeliveryTag false true) = 1) ∧
      ((rabbitmq.sampleConsumer 2 1 3).config.AutoAck = true →
        calls.countP rabbitmq.Call.isNack = 0) ∧
      err = (failFirst 3 rabbitmq.sampleDelivery.Body
        (handlerState (failFirst 3) rabbitmq.sampleDelivery.Body 2
          rabbitmq.calmWorld.hstate)).1 ∧
      err ≠ none :=
  rabbitmq_processMessage_always_failing 2 (rabbitmq.sampleConsumer 2 1 3) (failFirst 3)
    rabbitmq.sampleDelivery rabbitmq.calmWorld rfl rfl (by decide)

namespace kafka

theorem processAttempts_uncommitted {σ : Type} (c : Consumer σ) (h : Handler σ) (msg : Message) :
    ∀ (as : List Int) (e0 : Option String) (w : World σ),
      (∀ i, i < as.length → (h msg.Value (handlerState h msg.Value i w.hstate)).1 ≠ none) →
      ∃ calls, (processAttempts c h msg as e0 w).2.trace = w.trace ++ calls ∧
        calls.countP Call.isHandler = as.length ∧
        calls.countP Call.isCommit = 0 ∧
        (∀ n, as.length = n + 1 →
          (processAttempts c h msg as e0 w).1 =
            (h msg.Value (handlerState h msg.Value n w.hstate)).1) := by
  intro as
  induction as with
  | nil =>
    intro e0 w _
    exact ⟨[], by simp [processAttempts]⟩
  | cons a rest ih =>
    intro e0 w hfail
    have h0 := hfail 0 (by simp)
    simp only [handlerState] at h0
    obtain ⟨e, he⟩ : ∃ e, (h msg.Value w.hstate).1 = some e := by
      cases hh : (h msg.Value w.hstate).1 with
      | none => exact absurd hh h0
      | some e => exact ⟨e, rfl⟩
    have hrest : ∀ (w2 : World σ), w2.hstate = (h msg.Value w.hstate).2 →
        ∀ i, i < rest.length →
          (h msg.Value (handlerState h msg.Value i w2.hstate)).1 ≠ none := by
      intro w2 hw2 i hi
      rw [hw2]
      exact hfail (i + 1) (by simpa using hi)
    have hlast : ∀ (w2 : World σ), w2.hstate = (h msg.Value w.hstate).2 →
        (∀ n, rest.length = n + 1 →
          (processAttempts c h msg rest (some e) w2).1 =
            (h msg.Value (handlerState h msg.Value n w2.hstate)).1) →
        ∀ n, (a :: rest).length = n + 1 →
          (processAttempts c h msg rest (some e) w2).1 =
            (h msg.Value (handlerState h msg.Value n w.hstate)).1 := by
      intro w2 hw2 hih n hn
      cases rest with
      | nil =>
        have : n = 0 := by simpa using hn.symm
        subst this
        simp [processAttempts, handlerState, he]
      | cons b rest2 =>
        obtain ⟨m, rfl⟩ : ∃ m, n = m + 1 := ⟨rest2.length, by simpa using hn.symm⟩
        rw [hih m (by simpa using hn), hw2]
        rfl
    by_cases hlt : a < c.config.RetryCount
    · obtain ⟨calls, htr, h1, h2, h5⟩ := ih (some e)
        (({ w with hstate := (h msg.Value w.hstate).2,
                   trace := w.trace ++ [Call.handler msg.Value] } : World σ).emit
          (Call.sleep (wrap64 (c.config.RetryDelay * Second)))) (hrest _ rfl)
      refine ⟨Call.handler msg.Value :: Call.sleep (wrap64 (c.config.RetryDelay * Second)) :: calls,
        ?_, ?_, ?_, ?_⟩
      · simp only [World.emit, List.append_assoc, List.singleton_append] at htr
        simp [processAttempts, World.invoke, he, hlt, World.emit, htr]
      · simp [Call.isHandler, h1]
      · simp [Call.isCommit, h2]
      · intro n hn
        have := hlast _ rfl h5 n hn
        simpa [processAttempts, World.invoke, he, hlt] using this
    · obtain ⟨calls, htr, h1, h2, h5⟩ := ih (some e)
        ({ w with hstate := (h msg.Value w.hstate).2,
                  trace := w.trace ++ [Call.handler msg.Value] } : World σ) (hrest _ rfl)
      refine ⟨Call.handler msg.Value :: calls, ?_, ?_, ?_, ?_⟩
      · simp [processAttempts, World.invoke, he, hlt, htr]
      · simp [Call.isHandler, h1]
      · simp [Call.isCommit, h2]
      · intro n hn
        have := hlast _ rfl h5 n hn
        simpa [processAttempts, World.invoke, he, hlt] using this

end kafka

/-- C3: for a retry count `N` and a handler that fails on every invocation, the Kafka
`Consumer.processMessage` returns after invoking the handler exactly `N + 1` times and
never calls `CommitMessages`, whatever `AutoCommit` is; the value returned is the
non-nil error of the last handler attempt. -/
theorem kafka_processMessage_always_failing {σ : Type} (N : Nat)
    (c : kafka.Consumer σ) (h : Handler σ) (msg : kafka.Message) (w : kafka.World σ)
    (hh : c.handler = some h) (hN : c.config.RetryCount = (N : Int))
    (hfail : ∀ i, i ≤ N → (h msg.Value (handlerState h msg.Value i w.hstate)).1 ≠ none) :
    ∃ err w1 calls, kafka.processMessage c msg w = some (err, w1) ∧
      w1.trace = w.trace ++ calls ∧
      calls.countP kafka.Call.isHandler = N + 1 ∧
      calls.countP kafka.Call.isCommit = 0 ∧
      err = (h msg.Value (handlerState h msg.Value N w.hstate)).1 ∧ err ≠ none := by
  obtain ⟨calls, htr, h1, h2, h5⟩ :=
    kafka.processAttempts_uncommitted c h msg (attempts c.config.RetryCount) none w
      (by
        intro i hi
        rw [hN, attempts_length] at hi
        exact hfail i (by omega))
  have hlen : (attempts c.config.RetryCount).length = N + 1 := by rw [hN, attempts_length]
  refine ⟨(kafka.processAttempts c h msg (attempts c.config.RetryCount) none w).1,
    (kafka.processAttempts c h msg (attempts c.config.RetryCount) none w).2, calls,
    ?_, htr, ?_, h2, h5 N hlen, ?_⟩
  · simp [kafka.processMessage, hh]
  · rw [h1, hlen]
  · rw [h5 N hlen]
    exact hfail N (le_refl N)

theorem kafka_processMessage_always_failing_witness :
    ∃ err w1 calls,
      kafka.processMessage (kafka.sampleConsumer 2 1 3) kafka.sampleMessage
        kafka.calmWorld = some (err, w1) ∧
      w1.trace = kafka.calmWorld.trace ++ calls ∧
      calls.countP kafka.Call.isHandler = 2 + 1 ∧
      calls.countP kafka.Call.isCommit = 0 ∧
      err = (failFirst 3 kafka.sampleMessage.Value
        (handlerState (failFirst 3) kafka.sampleMessage.Value 2 kafka.calmWorld.hstate)).1 ∧
      err ≠ none :=
  kafka_processMessage_always_failing 2 (kafka.sampleConsumer 2 1 3) (failFirst 3)
    kafka.sampleMessage kafka.calmWorld rfl rfl (by decide)

namespace rabbitmq

theorem sleeps_append (xs ys : List Call) : sleeps (xs ++ ys) = sleeps xs ++ sleeps ys := by
  induction xs with
  | nil => rfl
  | cons x xs ih => cases x <;> simp [sleeps, ih]

theorem nextBackoff_delay (m : Nat) :
    nextBackoff (min (2 ^ m) 300 * Second) = min (2 ^ (m + 1)) 300 * Second := by
  by_cases hm : m < 9
  · interval_cases m <;> decide
  · have h1 : (2 : Int) ^ 9 ≤ 2 ^ m := pow_le_pow_right₀ (by norm_num) (by omega)
    have h2 : (2 : Int) ^ 9 ≤ 2 ^ (m + 1) := pow_le_pow_right₀ (by norm_num) (by omega)
    have e1 : min ((2 : Int) ^ m) 300 = 300 := min_eq_right (by norm_num at h1; omega)
    have e2 : min ((2 : Int) ^ (m + 1)) 300 = 300 := min_eq_right (by norm_num at h2; omega)
    rw [e1, e2]
    decide

theorem NewClient_trace {σ : Type} (address : String) (w : World σ) :
    ∃ rest, (NewClient address w).2.trace = w.trace ++ Call.dial address :: rest ∧
      sleeps rest = [] := by
  unfold NewClient
  simp only [World.call]
  cases h1 : w.env w.trace (Call.dial address) with
  | some err => exact ⟨[], by simp, rfl⟩
  | none =>
    cases h2 : w.env (w.trace ++ [Call.dial address]) (Call.channel w.trace.length) with
    | some err =>
      exact ⟨[Call.channel w.trace.length, Call.connClose w.trace.length], by simp [h2], rfl⟩
    | none => exact ⟨[Call.channel w.trace.length], by simp [h2], rfl⟩

theorem consume_trace {σ : Type} (c : Consumer σ) (w : World σ) :
    ∃ calls, (consume c w).2.trace = w.trace ++ calls ∧ sleeps calls = [] := by
  unfold consume
  simp only [World.call, World.emit]
  cases w.env w.trace
    (Call.consume c.client.channel c.config.Queue "" c.config.AutoAck false false false) with
  | some err =>
    exact ⟨[Call.consume c.client.channel c.config.Queue "" c.config.AutoAck false false false],
      rfl, rfl⟩
  | none =>
    exact ⟨[Call.consume c.client.channel c.config.Queue "" c.config.AutoAck false false false,
      Call.goReceive c.client.channel], by simp, rfl⟩

theorem reconnectLoop_one_trace {σ : Type} (c : Consumer σ) (b : Int) (w : World σ) :
    ∃ rest, (reconnectLoop 1 c b w).2.2.2.trace =
        w.trace ++ Call.sleep b :: Call.dial c.client.address :: rest ∧
      sleeps rest = [] := by
  obtain ⟨r1, h1, s1⟩ := NewClient_trace c.client.address (w.emit (Call.sleep b))
  simp only [reconnectLoop]
  cases hN : NewClient c.client.address (w.emit (Call.sleep b)) with
  | mk res w2 =>
    rw [hN] at h1
    simp only [World.emit, List.append_assoc, List.singleton_append] at h1
    cases res with
    | error e => exact ⟨r1, h1, s1⟩
    | ok newClient =>
      simp only
      obtain ⟨r2, h2, s2⟩ := consume_trace
        ({ c with client := { c.client with conn := newClient.conn,
                                            channel := newClient.channel } } : Consumer σ)
        (w2.emit (Call.notifyClose newClient.conn c.closeErr))
      cases hC : consume
        ({ c with client := { c.client with conn := newClient.conn,
                                            channel := newClient.channel } } : Consumer σ)
        (w2.emit (Call.notifyClose newClient.conn c.closeErr)) with
      | mk e w4 =>
        rw [hC] at h2
        simp only [World.emit] at h2 h1
        have key : w4.trace = w.trace ++ Call.sleep b :: Call.dial c.client.address ::
            (r1 ++ Call.notifyClose newClient.conn c.closeErr :: r2) := by
          rw [h2, h1]; simp
        have hs : sleeps (r1 ++ Call.notifyClose newClient.conn c.closeErr :: r2) = [] := by
          rw [sleeps_append, s1]; simp [sleeps, s2]
        cases e with
        | some e => exact ⟨_, key, hs⟩
        | none => exact ⟨_, key, hs⟩

theorem reconnectLoop_snoc {σ : Type} :
    ∀ (n : Nat) (c : Consumer σ) (b : Int) (w : World σ) (c1 : Consumer σ) (b1 : Int)
      (w1 : World σ), reconnectLoop n c b w = (false, c1, b1, w1) →
      reconnectLoop (n + 1) c b w = reconnectLoop 1 c1 b1 w1 := by
  intro n
  induction n with
  | zero =>
    intro c b w c1 b1 w1 hf
    simp only [reconnectLoop, Prod.mk.injEq, true_and] at hf
    obtain ⟨rfl, rfl, rfl⟩ := hf
    rfl
  | succ n ih =>
    intro c b w c1 b1 w1 hf
    rw [reconnectLoop] at hf
    conv_lhs => rw [reconnectLoop]
    cases hN : NewClient c.client.address (w.emit (Call.sleep b)) with
    | mk res w2 =>
      rw [hN] at hf
      cases res with
      | error e =>
        simp only at hf ⊢
        exact ih _ _ _ _ _ _ hf
      | ok newClient =>
        simp only at hf ⊢
        cases hC : consume
          ({ c with client := { c.client with conn := newClient.conn,
                                              channel := newClient.channel } } : Consumer σ)
          (w2.emit (Call.notifyClose newClient.conn c.closeErr)) with
        | mk e w4 =>
          rw [hC] at hf
          cases e with
          | some e =>
            simp only at hf ⊢
            exact ih _ _ _ _ _ _ hf
          | none => simp at hf

theorem reconnectLoop_one_facts {σ : Type} (c : Consumer σ) (b : Int) (w : World σ) :
    (reconnectLoop 1 c b w).2.2.1 = nextBackoff b ∧
    (reconnectLoop 1 c b w).2.1.client.address = c.client.address ∧
    (reconnectLoop 1 c b w).2.1.reconnecting = c.reconnecting := by
  simp only [reconnectLoop]
  cases hN : NewClient c.client.address (w.emit (Call.sleep b)) with
  | mk res w2 =>
    cases res with
    | error e => exact ⟨rfl, rfl, rfl⟩
    | ok newClient =>
      simp only
      cases hC : consume
        ({ c with client := { c.client with conn := newClient.conn,
                                            channel := newClient.channel } } : Consumer σ)
        (w2.emit (Call.notifyClose newClient.conn c.closeErr)) with
      | mk e w4 =>
        cases e with
        | some e => exact ⟨rfl, rfl, rfl⟩
        | none => exact ⟨rfl, rfl, rfl⟩

theorem reconnectLoop_cons {σ : Type} (n : Nat) (c : Consumer σ) (b : Int) (w : World σ) :
    reconnectLoop (n + 1) c b w =
      if (reconnectLoop 1 c b w).1 then reconnectLoop 1 c b w
      else reconnectLoop n (reconnectLoop 1 c b w).2.1 (reconnectLoop 1 c b w).2.2.1
        (reconnectLoop 1 c b w).2.2.2 := by
  simp only [reconnectLoop]
  cases hN : NewClient c.client.address (w.emit (Call.sleep b)) with
  | mk res w2 =>
    cases res with
    | error e => simp
    | ok newClient =>
      simp only
      cases hC : consume
        ({ c with client := { c.client with conn := newClient.conn,
                                            channel := newClient.channel } } : Consumer σ)
        (w2.emit (Call.notifyClose newClient.conn c.closeErr)) with
      | mk e w4 =>
        cases e with
        | some e => simp
        | none => simp

theorem reconnectLoop_failed {σ : Type} :
    ∀ (n : Nat) (c : Consumer σ) (b : Int) (w : World σ) (m : Nat) (c1 : Consumer σ)
      (b1 : Int) (w1 : World σ),
      b = min (2 ^ m) 300 * Second → reconnectLoop n c b w = (false, c1, b1, w1) →
      b1 = min (2 ^ (m + n)) 300 * Second ∧ c1.client.address = c.client.address ∧
      c1.reconnecting = c.reconnecting ∧
      ∃ calls, w1.trace = w.trace ++ calls ∧
        sleeps calls = (List.range n).map (fun i => min (2 ^ (m + i)) 300 * Second) := by
  intro n
  induction n with
  | zero =>
    intro c b w m c1 b1 w1 hb hf
    simp only [reconnectLoop, Prod.mk.injEq, true_and] at hf
    obtain ⟨rfl, rfl, rfl⟩ := hf
    exact ⟨by simpa using hb, rfl, rfl, [], by simp, rfl⟩
  | succ n ih =>
    intro c b w m c1 b1 w1 hb hf
    rw [reconnectLoop_cons] at hf
    obtain ⟨f1, f2, f3⟩ := reconnectLoop_one_facts c b w
    obtain ⟨rest, t1, t2⟩ := reconnectLoop_one_trace c b w
    by_cases h1 : (reconnectLoop 1 c b w).1 = true
    · rw [if_pos h1] at hf
      rw [hf] at h1
      simp at h1
    · rw [if_neg h1] at hf
      obtain ⟨g1, g2, g3, calls, g4, g5⟩ := ih _ _ _ (m + 1) c1 b1 w1
        (by rw [f1, hb, nextBackoff_delay]) hf
      refine ⟨?_, ?_, ?_, Call.sleep b :: Call.dial c.client.address :: (rest ++ calls), ?_, ?_⟩
      · rw [g1]; congr 3; omega
      · rw [g2, f2]
      · rw [g3, f3]
      · rw [g4, t1]; simp
      · rw [List.range_succ_eq_map]
        simp only [sleeps, sleeps_append, t2, g5, List.nil_append, List.map_cons,
          List.map_map, Nat.add_zero, hb]
        congr 1
        apply List.map_congr_left
        intro i _
        simp only [Function.comp, Nat.succ_eq_add_one]
        congr 3
        omega

theorem reconnect_eq_loop {σ : Type} (n : Nat) (c : Consumer σ) (w : World σ)
    (hc : c.reconnecting = false) :
    (reconnect n c w).returned =
      (reconnectLoop n { c with reconnecting := true } Second
        ((w.call (Call.connClose c.client.conn)).2.call
          (Call.channelClose c.client.channel)).2).1 ∧
    (reconnect n c w).world =
      (reconnectLoop n { c with reconnecting := true } Second
        ((w.call (Call.connClose c.client.conn)).2.call
          (Call.channelClose c.client.channel)).2).2.2.2 := by
  simp only [reconnect, hc, Bool.false_eq_true, if_false]
  cases hL : reconnectLoop n { c with reconnecting := true } Second
      ((w.call (Call.connClose c.client.conn)).2.call
        (Call.channelClose c.client.channel)).2 with
  | mk r rest =>
    obtain ⟨c2, b2, w3⟩ := rest
    cases r <;> exact ⟨rfl, rfl⟩

end rabbitmq

/-- C4: in `Consumer.reconnect` (entered with the reentrancy flag clear), for every
`k ≥ 1` such that the first `k - 1` attempts have failed, the call made immediately
before the `k`-th attempt (the `k`-th dial) is a sleep of `min(2^(k-1), 300)` seconds;
the sleeps made since the entry of `reconnect` are 1, 2, 4, ..., `min(2^(k-1), 300)`
seconds, one before each attempt; the delay does not exceed `MaxReconnectDelay`
and doubling it does not wrap around in 64 bits. -/
theorem reconnect_backoff_sequence {σ : Type} (c : rabbitmq.Consumer σ)
    (w : rabbitmq.World σ) (k : Nat) (hk : 1 ≤ k) (hc : c.reconnecting = false)
    (hfail : (rabbitmq.reconnect (k - 1) c w).returned = false) :
    (∃ rest, (rabbitmq.reconnect k c w).world.trace =
        (rabbitmq.reconnect (k - 1) c w).world.trace ++
          rabbitmq.Call.sleep (min (2 ^ (k - 1)) 300 * Second) ::
          rabbitmq.Call.dial c.client.address :: rest ∧
        rabbitmq.sleeps rest = []) ∧
    rabbitmq.sleeps ((rabbitmq.reconnect k c w).world.trace.drop w.trace.length) =
      (List.range k).map (fun i => min (2 ^ i) 300 * Second) ∧
    min (2 ^ (k - 1)) 300 * Second ≤ rabbitmq.MaxReconnectDelay ∧
    wrap64 (min (2 ^ (k - 1)) 300 * Second * 2) = min (2 ^ (k - 1)) 300 * Second * 2 := by
  obtain ⟨n, rfl⟩ : ∃ n, k = n + 1 := ⟨k - 1, by omega⟩
  simp only [Nat.add_sub_cancel] at hfail ⊢
  obtain ⟨r0, w0⟩ := rabbitmq.reconnect_eq_loop n c w hc
  obtain ⟨_, w1⟩ := rabbitmq.reconnect_eq_loop (n + 1) c w hc
  rw [r0] at hfail
  rw [w0, w1]
  generalize hw2 : ((w.call (rabbitmq.Call.connClose c.client.conn)).2.call
      (rabbitmq.Call.channelClose c.client.channel)).2 = w2 at hfail ⊢
  have hw2t : w2.trace = w.trace ++
      [rabbitmq.Call.connClose c.client.conn, rabbitmq.Call.channelClose c.client.channel] := by
    rw [← hw2]; simp [rabbitmq.World.call]
  cases hL : rabbitmq.reconnectLoop n { c with reconnecting := true } Second w2 with
  | mk r rest0 =>
    obtain ⟨c2, b2, w3⟩ := rest0
    rw [hL] at hfail
    simp only at hfail
    subst hfail
    obtain ⟨g1, g2, _, calls, g4, g5⟩ :=
      rabbitmq.reconnectLoop_failed n _ Second w2 0 c2 b2 w3 (by decide) hL
    rw [rabbitmq.reconnectLoop_snoc n _ _ _ _ _ _ hL]
    simp only [Nat.zero_add] at g1 g5
    simp only at g2
    subst g1
    obtain ⟨rest, t1, t2⟩ := rabbitmq.reconnectLoop_one_trace c2 (min (2 ^ n) 300 * Second) w3
    rw [g2] at t1
    dsimp only
    refine ⟨⟨rest, t1, t2⟩, ?_, ?_, ?_⟩
    · rw [t1, g4, hw2t]
      simp only [List.append_assoc, List.drop_left]
      rw [rabbitmq.sleeps_append, rabbitmq.sleeps_append, g5, List.range_succ]
      simp [rabbitmq.sleeps, t2]
    · have : min ((2 : Int) ^ n) 300 ≤ 300 := min_le_right _ _
      simp only [rabbitmq.MaxReconnectDelay, Second]
      omega
    · have h1 : min ((2 : Int) ^ n) 300 ≤ 300 := min_le_right _ _
      have h2 : (0 : Int) ≤ min ((2 : Int) ^ n) 300 := le_min (by positivity) (by norm_num)
      simp only [wrap64, Second]
      omega

theorem reconnect_backoff_sequence_witness :
    (∃ rest, (rabbitmq.reconnect 10 (rabbitmq.sampleConsumer 3 1 0) rabbitmq.downWorld).world.trace =
        (rabbitmq.reconnect (10 - 1) (rabbitmq.sampleConsumer 3 1 0)
          rabbitmq.downWorld).world.trace ++
          rabbitmq.Call.sleep (min (2 ^ (10 - 1)) 300 * Second) ::
          rabbitmq.Call.dial (rabbitmq.sampleConsumer 3 1 0).client.address :: rest ∧
        rabbitmq.sleeps rest = []) ∧
    rabbitmq.sleeps ((rabbitmq.reconnect 10 (rabbitmq.sampleConsumer 3 1 0)
        rabbitmq.downWorld).world.trace.drop rabbitmq.downWorld.trace.length) =
      (List.range 10).map (fun i => min (2 ^ i) 300 * Second) ∧
    min (2 ^ (10 - 1)) 300 * Second ≤ rabbitmq.MaxReconnectDelay ∧
    wrap64 (min (2 ^ (10 - 1)) 300 * Second * 2) = min (2 ^ (10 - 1)) 300 * Second * 2 :=
  reconnect_backoff_sequence (rabbitmq.sampleConsumer 3 1 0) rabbitmq.downWorld 10
    (by decide) rfl (by decide)

/-- C5 (the code departs from the claim): with producers and consumers keyed a, b, c
and every construction succeeding, `RegisterConnWithKeys(cfg, "a", "c")` returns nil
and leaves the slices of `cfg` filtered to a, c, yet the registration loops range over
the slices read before the filter: a Producer and a Consumer are constructed for "b"
and `GetProducer("b")`, `GetConsumer("b")` return them (RabbitMQ and Kafka). -/
theorem registerConnWithKeys_registers_unlisted_key :
    ((rabbitmq.RegisterConnWithKeys rabbitmq.sampleMQ ["a", "c"]
        (rabbitmq.Globals.init Nat) rabbitmq.calmWorld).err = none ∧
      (rabbitmq.RegisterConnWithKeys rabbitmq.sampleMQ ["a", "c"]
        (rabbitmq.Globals.init Nat) rabbitmq.calmWorld).mq.Producer.map (fun v => v.Key)
        = ["a", "c"] ∧
      (rabbitmq.RegisterConnWithKeys rabbitmq.sampleMQ ["a", "c"]
        (rabbitmq.Globals.init Nat) rabbitmq.calmWorld).mq.Consumer.map (fun v => v.Key)
        = ["a", "c"] ∧
      rabbitmq.GetProducer (rabbitmq.RegisterConnWithKeys rabbitmq.sampleMQ ["a", "c"]
        (rabbitmq.Globals.init Nat) rabbitmq.calmWorld).globals "b" =
        some { client := { address := "amqp://broker", conn := 3, channel := 4 },
               config := { rabbitmq.producerConf "b" with Address := "amqp://broker" } } ∧
      (rabbitmq.GetConsumer (rabbitmq.RegisterConnWithKeys rabbitmq.sampleMQ ["a", "c"]
        (rabbitmq.Globals.init Nat) rabbitmq.calmWorld).globals "b").isSome = true) ∧
    ((kafka.RegisterConnWithKeys kafka.sampleKafka ["a", "c"]
        (kafka.Globals.init Nat) kafka.calmWorld).err = none ∧
      (kafka.RegisterConnWithKeys kafka.sampleKafka ["a", "c"]
        (kafka.Globals.init Nat) kafka.calmWorld).k.Producer.map (fun v => v.Key)
        = ["a", "c"] ∧
      (kafka.RegisterConnWithKeys kafka.sampleKafka ["a", "c"]
        (kafka.Globals.init Nat) kafka.calmWorld).k.Consumer.map (fun v => v.Key)
        = ["a", "c"] ∧
      (kafka.GetProducer (kafka.RegisterConnWithKeys kafka.sampleKafka ["a", "c"]
        (kafka.Globals.init Nat) kafka.calmWorld).globals "b").isSome = true ∧
      (kafka.GetConsumer (kafka.RegisterConnWithKeys kafka.sampleKafka ["a", "c"]
        (kafka.Globals.init Nat) kafka.calmWorld).globals "b").isSome = true) := by
  decide

namespace rabbitmq

theorem registerProducers_append {σ : Type} (post : List ProducerConf) :
    ∀ (pre : List ProducerConf) (g : Globals σ) (w : World σ),
      registerProducers (pre ++ post) g w =
        match registerProducers pre g w with
        | (some err, g1, w1) => (some err, g1, w1)
        | (none, g1, w1) => registerProducers post g1 w1 := by
  intro pre
  induction pre with
  | nil => intro g w; rfl
  | cons conf rest ih =>
    intro g w
    simp only [List.cons_append, registerProducers]
    cases hI : InitProducer conf w with
    | mk res w1 =>
      cases res with
      | error e => rfl
      | ok producer => exact ih _ _

theorem registerProducers_frame {σ : Type} (x : String) :
    ∀ (l : List ProducerConf) (g : Globals σ) (w : World σ),
      (∀ c, c ∈ l → c.Key ≠ x) →
      (registerProducers l g w).2.1.producers x = g.producers x := by
  intro l
  induction l with
  | nil => intro g w _; rfl
  | cons conf rest ih =>
    intro g w hx
    simp only [registerProducers]
    cases hI : InitProducer conf w with
    | mk res w1 =>
      cases res with
      | error e => rfl
      | ok producer =>
        simp only
        rw [ih _ _ (fun c hc => hx c (List.mem_cons_of_mem _ hc))]
        have : x ≠ conf.Key := fun h => hx conf (List.mem_cons_self _ _) h.symm
        simp [setKey, this]

theorem registerProducers_others {σ : Type} :
    ∀ (l : List ProducerConf) (g : Globals σ) (w : World σ),
      (registerProducers l g w).2.1.consumers = g.consumers ∧
      (registerProducers l g w).2.1.initKeys = g.initKeys ∧
      (registerProducers l g w).2.1.initByKeysEnable = g.initByKeysEnable := by
  intro l
  induction l with
  | nil => intro g w; exact ⟨rfl, rfl, rfl⟩
  | cons conf rest ih =>
    intro g w
    simp only [registerProducers]
    cases hI : InitProducer conf w with
    | mk res w1 =>
      cases res with
      | error e => exact ⟨rfl, rfl, rfl⟩
      | ok producer => exact ih _ _

theorem registerProducers_keeps {σ : Type} (x : String) :
    ∀ (l : List ProducerConf) (g : Globals σ) (w : World σ),
      (g.producers x).isSome = true →
      ((registerProducers l g w).2.1.producers x).isSome = true := by
  intro l
  induction l with
  | nil => intro g w h; exact h
  | cons conf rest ih =>
    intro g w h
    simp only [registerProducers]
    cases hI : InitProducer conf w with
    | mk res w1 =>
      cases res with
      | error e => exact h
      | ok producer =>
        apply ih
        by_cases hx : x = conf.Key <;> simp [setKey, hx, h]

theorem registerProducers_registered {σ : Type} :
    ∀ (l : List ProducerConf) (g : Globals σ) (w : World σ),
      (registerProducers l g w).1 = none →
      ∀ c, c ∈ l → ((registerProducers l g w).2.1.producers c.Key).isSome = true := by
  intro l
  induction l with
  | nil => intro g w _ c hc; simp at hc
  | cons conf rest ih =>
    intro g w hn c hc
    simp only [registerProducers] at hn ⊢
    cases hI : InitProducer conf w with
    | mk res w1 =>
      rw [hI] at hn
      cases res with
      | error e => simp at hn
      | ok producer =>
        simp only at hn ⊢
        rcases List.mem_cons.mp hc with rfl | hc1
        · apply registerProducers_keeps
          simp [setKey]
        · exact ih _ _ hn c hc1

theorem registerProducers_split {σ : Type} (pre : List ProducerConf) (conf : ProducerConf)
    (post : List ProducerConf) (g gF : Globals σ) (w wF : World σ)
    (h : registerProducers (pre ++ conf :: post) g w = (none, gF, wF)) :
    ∃ g1 w1 p w2, registerProducers pre g w = (none, g1, w1) ∧
      InitProducer conf w1 = (Except.ok p, w2) ∧
      registerProducers post { g1 with producers := setKey g1.producers conf.Key p } w2 =
        (none, gF, wF) := by
  rw [registerProducers_append] at h
  cases hP : registerProducers pre g w with
  | mk e rest =>
    obtain ⟨g1, w1⟩ := rest
    rw [hP] at h
    cases e with
    | some e => simp at h
    | none =>
      simp only [registerProducers] at h
      cases hI : InitProducer conf w1 with
      | mk res w2 =>
        rw [hI] at h
        cases res with
        | error e => simp at h
        | ok p => exact ⟨g1, w1, p, w2, rfl, hI, h⟩

theorem registerProducers_fails {σ : Type} (pre : List ProducerConf) (conf : ProducerConf)
    (post : List ProducerConf) (g g1 : Globals σ) (w w1 w2 : World σ) (e : String)
    (hpre : registerProducers pre g w = (none, g1, w1))
    (hI : InitProducer conf w1 = (Except.error e, w2)) :
    registerProducers (pre ++ conf :: post) g w = (some e, g1, w2) := by
  rw [registerProducers_append, hpre]
  simp only [registerProducers, hI]

theorem InitConsumer_key {σ : Type} (conf : ConsumerConf) (w : World σ) :
    (InitConsumer conf w).2.1.Key = conf.Key := by
  unfold InitConsumer
  simp only
  repeat' split
  all_goals rfl

theorem registerConsumers_append {σ : Type} (post : List ConsumerConf) :
    ∀ (pre : List ConsumerConf) (g : Globals σ) (w : World σ),
      registerConsumers (pre ++ post) g w =
        match registerConsumers pre g w with
        | (some err, g1, w1) => (some err, g1, w1)
        | (none, g1, w1) => registerConsumers post g1 w1 := by
  intro pre
  induction pre with
  | nil => intro g w; rfl
  | cons conf rest ih =>
    intro g w
    simp only [List.cons_append, registerConsumers]
    cases hI : InitConsumer conf w with
    | mk res r =>
      obtain ⟨conf1, w1⟩ := r
      cases res with
      | error e => rfl
      | ok consumer => exact ih _ _

theorem registerConsumers_frame {σ : Type} (x : String) :
    ∀ (l : List ConsumerConf) (g : Globals σ) (w : World σ),
      (∀ c, c ∈ l → c.Key ≠ x) →
      (registerConsumers l g w).2.1.consumers x = g.consumers x := by
  intro l
  induction l with
  | nil => intro g w _; rfl
  | cons conf rest ih =>
    intro g w hx
    simp only [registerConsumers]
    have hk := InitConsumer_key conf w
    cases hI : InitConsumer conf w with
    | mk res r =>
      obtain ⟨conf1, w1⟩ := r
      rw [hI] at hk
      cases res with
      | error e => rfl
      | ok consumer =>
        simp only at hk ⊢
        rw [ih _ _ (fun c hc => hx c (List.mem_cons_of_mem _ hc))]
        have : x ≠ conf1.Key := fun h => hx conf (List.mem_cons_self _ _) (by rw [h, hk])
        simp [setKey, this]

theorem registerConsumers_others {σ : Type} :
    ∀ (l : List ConsumerConf) (g : Globals σ) (w : World σ),
      (registerConsumers l g w).2.1.producers = g.producers ∧
      (registerConsumers l g w).2.1.initKeys = g.initKeys ∧
      (registerConsumers l g w).2.1.initByKeysEnable = g.initByKeysEnable := by
  intro l
  induction l with
  | nil => intro g w; exact ⟨rfl, rfl, rfl⟩
  | cons conf rest ih =>
    intro g w
    simp only [registerConsumers]
    cases hI : InitConsumer conf w with
    | mk res r =>
      obtain ⟨conf1, w1⟩ := r
      cases res with
      | error e => exact ⟨rfl, rfl, rfl⟩
      | ok consumer => exact ih _ _

theorem registerConsumers_keeps {σ : Type} (x : String) :
    ∀ (l : List ConsumerConf) (g : Globals σ) (w : World σ),
      (g.consumers x).isSome = true →
      ((registerConsumers l g w).2.1.consumers x).isSome = true := by
  intro l
  induction l with
  | nil => intro g w h; exact h
  | cons conf rest ih =>
    intro g w h
    simp only [registerConsumers]
    cases hI : InitConsumer conf w with
    | mk res r =>
      obtain ⟨conf1, w1⟩ := r
      cases res with
      | error e => exact h
      | ok consumer =>
        apply ih
        by_cases hx : x = conf1.Key <;> simp [setKey, hx, h]

theorem registerConsumers_registered {σ : Type} :
    ∀ (l : List ConsumerConf) (g : Globals σ) (w : World σ),
      (registerConsumers l g w).1 = none →
      ∀ c, c ∈ l → ((registerConsumers l g w).2.1.consumers c.Key).isSome = true := by
  intro l
  induction l with
  | nil => intro g w _ c hc; simp at hc
  | cons conf rest ih =>
    intro g w hn c hc
    simp only [registerConsumers] at hn ⊢
    have hk := InitConsumer_key conf w
    cases hI : InitConsumer conf w with
    | mk res r =>
      obtain ⟨conf1, w1⟩ := r
      rw [hI] at hn hk
      cases res with
      | error e => simp at hn
      | ok consumer =>
        simp only at hn hk ⊢
        rcases List.mem_cons.mp hc with rfl | hc1
        · apply registerConsumers_keeps
          simp [setKey, hk]
        · exact ih _ _ hn c hc1

theorem registerConsumers_split {σ : Type} (pre : List ConsumerConf) (conf : ConsumerConf)
    (post : List ConsumerConf) (g gF : Globals σ) (w wF : World σ)
    (h : registerConsumers (pre ++ conf :: post) g w = (none, gF, wF)) :
    ∃ g1 w1 p conf1 w2, registerConsumers pre g w = (none, g1, w1) ∧
      InitConsumer conf w1 = (Except.ok p, conf1, w2) ∧
      registerConsumers post { g1 with consumers := setKey g1.consumers conf.Key p } w2 =
        (none, gF, wF) := by
  rw [registerConsumers_append] at h
  cases hP : registerConsumers pre g w with
  | mk e rest =>
    obtain ⟨g1, w1⟩ := rest
    rw [hP] at h
    cases e with
    | some e => simp at h
    | none =>
      simp only [registerConsumers] at h
      have hk := InitConsumer_key conf w1
      cases hI : InitConsumer conf w1 with
      | mk res r =>
        obtain ⟨conf1, w2⟩ := r
        rw [hI] at h hk
        cases res with
        | error e => simp at h
        | ok p =>
          simp only at h hk
          rw [hk] at h
          exact ⟨g1, w1, p, conf1, w2, rfl, hI, h⟩

theorem registerConsumers_fails {σ : Type} (pre : List ConsumerConf) (conf : ConsumerConf)
    (post : List ConsumerConf) (g g1 : Globals σ) (w w1 w2 : World σ) (e : String)
    (conf1 : ConsumerConf)
    (hpre : registerConsumers pre g w = (none, g1, w1))
    (hI : InitConsumer conf w1 = (Except.error e, conf1, w2)) :
    registerConsumers (pre ++ conf :: post) g w = (some e, g1, w2) := by
  rw [registerConsumers_append, hpre]
  simp only [registerConsumers, hI]

end rabbitmq

namespace kafka

theorem registerProducers_append_kafka {σ : Type} (post : List ProducerConf) :
    ∀ (pre : List ProducerConf) (g : Globals σ) (w : World σ),
      registerProducers (pre ++ post) g w =
        match registerProducers pre g w with
        | (some err, g1, w1) => (some err, g1, w1)
        | (none, g1, w1) => registerProducers post g1 w1 := by
  intro pre
  induction pre with
  | nil => intro g w; rfl
  | cons conf rest ih =>
    intro g w
    simp only [List.cons_append, registerProducers]
    cases hI : InitProducer conf w with
    | mk res w1 =>
      cases res with
      | error e => rfl
      | ok producer => exact ih _ _

theorem registerProducers_frame_kafka {σ : Type} (x : String) :
    ∀ (l : List ProducerConf) (g : Globals σ) (w : World σ),
      (∀ c, c ∈ l → c.Key ≠ x) →
      (registerProducers l g w).2.1.producers x = g.producers x := by
  intro l
  induction l with
  | nil => intro g w _; rfl
  | cons conf rest ih =>
    intro g w hx
    simp only [registerProducers]
    cases hI : InitProducer conf w with
    | mk res w1 =>
      cases res with
      | error e => rfl
      | ok producer =>
        simp only
        rw [ih _ _ (fun c hc => hx c (List.mem_cons_of_mem _ hc))]
        have : x ≠ conf.Key := fun h => hx conf (List.mem_cons_self _ _) h.symm
        simp [setKey, this]

theorem registerProducers_others_kafka {σ : Type} :
    ∀ (l : List ProducerConf) (g : Globals σ) (w : World σ),
      (registerProducers l g w).2.1.consumers = g.consumers ∧
      (registerProducers l g w).2.1.initKeys = g.initKeys ∧
      (registerProducers l g w).2.1.initByKeysEnable = g.initByKeysEnable := by
  intro l
  induction l with
  | nil => intro g w; exact ⟨rfl, rfl, rfl⟩
  | cons conf rest ih =>
    intro g w
    simp only [registerProducers]
    cases hI : InitProducer conf w with
    | mk res w1 =>
      cases res with
      | error e => exact ⟨rfl, rfl, rfl⟩
      | ok producer => exact ih _ _

theorem registerProducers_keeps_kafka {σ : Type} (x : String) :
    ∀ (l : List ProducerConf) (g : Globals σ) (w : World σ),
      (g.producers x).isSome = true →
      ((registerProducers l g w).2.1.producers x).isSome = true := by
  intro l
  induction l with
  | nil => intro g w h; exact h
  | cons conf rest ih =>
    intro g w h
    simp only [registerProducers]
    cases hI : InitProducer conf w with
    | mk res w1 =>
      cases res with
      | error e => exact h
      | ok producer =>
        apply ih
        by_cases hx : x = conf.Key <;> simp [setKey, hx, h]

theorem registerProducers_registered_kafka {σ : Type} :
    ∀ (l : List ProducerConf) (g : Globals σ) (w : World σ),
      (registerProducers l g w).1 = none →
      ∀ c, c ∈ l → ((registerProducers l g w).2.1.producers c.Key).isSome = true := by
  intro l
  induction l with
  | nil => intro g w _ c hc; simp at hc
  | cons conf rest ih =>
    intro g w hn c hc
    simp only [registerProducers] at hn ⊢
    cases hI : InitProducer conf w with
    | mk res w1 =>
      rw [hI] at hn
      cases res with
      | error e => simp at hn
      | ok producer =>
        simp only at hn ⊢
        rcases List.mem_cons.mp hc with rfl | hc1
        · apply registerProducers_keeps_kafka
          simp [setKey]
        · exact ih _ _ hn c hc1

theorem registerProducers_split_kafka {σ : Type} (pre : List ProducerConf) (conf : ProducerConf)
    (post : List ProducerConf) (g gF : Globals σ) (w wF : World σ)
    (h : registerProducers (pre ++ conf :: post) g w = (none, gF, wF)) :
    ∃ g1 w1 p w2, registerProducers pre g w = (none, g1, w1) ∧
      InitProducer conf w1 = (Except.ok p, w2) ∧
      registerProducers post { g1 with producers := setKey g1.producers conf.Key p } w2 =
        (none, gF, wF) := by
  rw [registerProducers_append_kafka] at h
  cases hP : registerProducers pre g w with
  | mk e rest =>
    obtain ⟨g1, w1⟩ := rest
    rw [hP] at h
    cases e with
    | some e => simp at h
    | none =>
      simp only [registerProducers] at h
      cases hI : InitProducer conf w1 with
      | mk res w2 =>
        rw [hI] at h
        cases res with
        | error e => simp at h
        | ok p => exact ⟨g1, w1, p, w2, rfl, hI, h⟩

theorem registerProducers_fails_kafka {σ : Type} (pre : List ProducerConf) (conf : ProducerConf)
    (post : List ProducerConf) (g g1 : Globals σ) (w w1 w2 : World σ) (e : String)
    (hpre : registerProducers pre g w = (none, g1, w1))
    (hI : InitProducer conf w1 = (Except.error e, w2)) :
    registerProducers (pre ++ conf :: post) g w = (some e, g1, w2) := by
  rw [registerProducers_append_kafka, hpre]
  simp only [registerProducers, hI]

theorem InitConsumer_key_kafka {σ : Type} (conf : ConsumerConf) (w : World σ) :
    (InitConsumer conf w).2.1.Key = conf.Key := by
  unfold InitConsumer
  simp only
  repeat' split
  all_goals rfl

theorem registerConsumers_append_kafka {σ : Type} (post : List ConsumerConf) :
    ∀ (pre : List ConsumerConf) (g : Globals σ) (w : World σ),
      registerConsumers (pre ++ post) g w =
        match registerConsumers pre g w with
        | (some err, g1, w1) => (some err, g1, w1)
        | (none, g1, w1) => registerConsumers post g1 w1 := by
  intro pre
  induction pre with
  | nil => intro g w; rfl
  | cons conf rest ih =>
    intro g w
    simp only [List.cons_append, registerConsumers]
    cases hI : InitConsumer conf w with
    | mk res r =>
      obtain ⟨conf1, w1⟩ := r
      cases res with
      | error e => rfl
      | ok consumer => exact ih _ _

theorem registerConsumers_frame_kafka {σ : Type} (x : String) :
    ∀ (l : List ConsumerConf) (g : Globals σ) (w : World σ),
      (∀ c, c ∈ l → c.Key ≠ x) →
      (registerConsumers l g w).2.1.consumers x = g.consumers x := by
  intro l
  induction l with
  | nil => intro g w _; rfl
  | cons conf rest ih =>
    intro g w hx
    simp only [registerConsumers]
    have hk := InitConsumer_key_kafka conf w
    cases hI : InitConsumer conf w with
    | mk res r =>
      obtain ⟨conf1, w1⟩ := r
      rw [hI] at hk
      cases res with
      | error e => rfl
      | ok consumer =>
        simp only at hk ⊢
        rw [ih _ _ (fun c hc => hx c (List.mem_cons_of_mem _ hc))]
        have : x ≠ conf1.Key := fun h => hx conf (List.mem_cons_self _ _) (by rw [h, hk])
        simp [setKey, this]

theorem registerConsumers_others_kafka {σ : Type} :
    ∀ (l : List ConsumerConf) (g : Globals σ) (w : World σ),
      (registerConsumers l g w).2.1.producers = g.producers ∧
      (registerConsumers l g w).2.1.initKeys = g.initKeys ∧
      (registerConsumers l g w).2.1.initByKeysEnable = g.initByKeysEnable := by
  intro l
  induction l with
  | nil => intro g w; exact ⟨rfl, rfl, rfl⟩
  | cons conf rest ih =>
    intro g w
    simp only [registerConsumers]
    cases hI : InitConsumer conf w with
    | mk res r =>
      obtain ⟨conf1, w1⟩ := r
      cases res with
      | error e => exact ⟨rfl, rfl, rfl⟩
      | ok consumer => exact ih _ _

theorem registerConsumers_keeps_kafka {σ : Type} (x : String) :
    ∀ (l : List ConsumerConf) (g : Globals σ) (w : World σ),
      (g.consumers x).isSome = true →
      ((registerConsumers l g w).2.1.consumers x).isSome = true := by
  intro l
  induction l with
  | nil => intro g w h; exact h
  | cons conf rest ih =>
    intro g w h
    simp only [registerConsumers]
    cases hI : InitConsumer conf w with
    | mk res r =>
      obtain ⟨conf1, w1⟩ := r
      cases res with
      | error e => exact h
      | ok consumer =>
        apply ih
        by_cases hx : x = conf1.Key <;> simp [setKey, hx, h]

theorem registerConsumers_registered_kafka {σ : Type} :
    ∀ (l : List ConsumerConf) (g : Globals σ) (w : World σ),
      (registerConsumers l g w).1 = none →
      ∀ c, c ∈ l → ((registerConsumers l g w).2.1.consumers c.Key).isSome = true := by
  intro l
  induction l with
  | nil => intro g w _ c hc; simp at hc
  | cons conf rest ih =>
    intro g w hn c hc
    simp only [registerConsumers] at hn ⊢
    have hk := InitConsumer_key_kafka conf w
    cases hI : InitConsumer conf w with
    | mk res r =>
      obtain ⟨conf1, w1⟩ := r
      rw [hI] at hn hk
      cases res with
      | error e => simp at hn
      | ok consumer =>
        simp only at hn hk ⊢
        rcases List.mem_cons.mp hc with rfl | hc1
        · apply registerConsumers_keeps_kafka
          simp [setKey, hk]
        · exact ih _ _ hn c hc1

theorem registerConsumers_split_kafka {σ : Type} (pre : List ConsumerConf) (conf : ConsumerConf)
    (post : List ConsumerConf) (g gF : Globals σ) (w wF : World σ)
    (h : registerConsumers (pre ++ conf :: post) g w = (none, gF, wF)) :
    ∃ g1 w1 p conf1 w2, registerConsumers pre g w = (none, g1, w1) ∧
      InitConsumer conf w1 = (Except.ok p, conf1, w2) ∧
      registerConsumers post { g1 with consumers := setKey g1.consumers conf.Key p } w2 =
        (none, gF, wF) := by
  rw [registerConsumers_append_kafka] at h
  cases hP : registerConsumers pre g w with
  | mk e rest =>
    obtain ⟨g1, w1⟩ := rest
    rw [hP] at h
    cases e with
    | some e => simp at h
    | none =>
      simp only [registerConsumers] at h
      have hk := InitConsumer_key_kafka conf w1
      cases hI : InitConsumer conf w1 with
      | mk res r =>
        obtain ⟨conf1, w2⟩ := r
        rw [hI] at h hk
        cases res with
        | error e => simp at h
        | ok p =>
          simp only at h hk
          rw [hk] at h
          exact ⟨g1, w1, p, conf1, w2, rfl, hI, h⟩

theorem registerConsumers_fails_kafka {σ : Type} (pre : List ConsumerConf) (conf : ConsumerConf)
    (post : List ConsumerConf) (g g1 : Globals σ) (w w1 w2 : World σ) (e : String)
    (conf1 : ConsumerConf)
    (hpre : registerConsumers pre g w = (none, g1, w1))
    (hI : InitConsumer conf w1 = (Except.error e, conf1, w2)) :
    registerConsumers (pre ++ conf :: post) g w = (some e, g1, w2) := by
  rw [registerConsumers_append_kafka, hpre]
  simp only [registerConsumers, hI]

end kafka

namespace rabbitmq

theorem RegisterConn_ok {σ : Type} (mq : RabbitMQ) (g : Globals σ) (w : World σ)
    (h : (RegisterConn mq g w).err = none) :
    ∃ g1 w1 g2 w2, registerProducers (producerConfs mq) g w = (none, g1, w1) ∧
      registerConsumers (consumerConfs mq) g1 w1 = (none, g2, w2) ∧
      (RegisterConn mq g w).globals = g2 ∧ (RegisterConn mq g w).world = w2 := by
  unfold RegisterConn at h ⊢
  cases hP : registerProducers (producerConfs mq) g w with
  | mk e r =>
    obtain ⟨g1, w1⟩ := r
    rw [hP] at h
    cases e with
    | some e => simp at h
    | none =>
      simp only at h ⊢
      cases hC : registerConsumers (consumerConfs mq) g1 w1 with
      | mk e2 r2 =>
        obtain ⟨g2, w2⟩ := r2
        rw [hC] at h
        cases e2 with
        | some e2 => simp at h
        | none => exact ⟨g1, w1, g2, w2, rfl, hC, rfl, rfl⟩

end rabbitmq

namespace kafka

theorem RegisterConn_ok_kafka {σ : Type} (k : Kafka) (g : Globals σ) (w : World σ)
    (h : (RegisterConn k g w).err = none) :
    ∃ g1 w1 g2 w2, registerProducers (producerConfs k) g w = (none, g1, w1) ∧
      registerConsumers (consumerConfs k) g1 w1 = (none, g2, w2) ∧
      (RegisterConn k g w).globals = g2 ∧ (RegisterConn k g w).world = w2 := by
  unfold RegisterConn at h ⊢
  cases hP : registerProducers (producerConfs k) g w with
  | mk e r =>
    obtain ⟨g1, w1⟩ := r
    rw [hP] at h
    cases e with
    | some e => simp at h
    | none =>
      simp only at h ⊢
      cases hC : registerConsumers (consumerConfs k) g1 w1 with
      | mk e2 r2 =>
        obtain ⟨g2, w2⟩ := r2
        rw [hC] at h
        cases e2 with
        | some e2 => simp at h
        | none => exact ⟨g1, w1, g2, w2, rfl, hC, rfl, rfl⟩

end kafka

/-- C6: when two producer configs (resp. two consumer configs) of the list carry the
same key, the second being the last config with that key, and `RegisterConn` returns
nil (every construction succeeded), then `GetProducer` (resp. `GetConsumer`) of that key
returns exactly the instance that `InitProducer` (resp. `InitConsumer`) built from the
later config, in the world left by the constructions before it: the last write wins
and nothing of the earlier instance is kept (RabbitMQ and Kafka). -/
theorem registerConn_last_write_wins :
    (∀ {σ : Type} (mq : rabbitmq.RabbitMQ) (g : rabbitmq.Globals σ) (w : rabbitmq.World σ)
        (l1 : List rabbitmq.ProducerConf) (c1 : rabbitmq.ProducerConf)
        (l2 : List rabbitmq.ProducerConf) (c2 : rabbitmq.ProducerConf)
        (l3 : List rabbitmq.ProducerConf),
        rabbitmq.producerConfs mq = (l1 ++ c1 :: l2) ++ c2 :: l3 → c1.Key = c2.Key →
        (∀ c, c ∈ l3 → c.Key ≠ c2.Key) → (rabbitmq.RegisterConn mq g w).err = none →
        ∃ g1 w1 p w2, rabbitmq.registerProducers (l1 ++ c1 :: l2) g w = (none, g1, w1) ∧
          rabbitmq.InitProducer c2 w1 = (Except.ok p, w2) ∧
          rabbitmq.GetProducer (rabbitmq.RegisterConn mq g w).globals c2.Key = some p) ∧
    (∀ {σ : Type} (mq : rabbitmq.RabbitMQ) (g : rabbitmq.Globals σ) (w : rabbitmq.World σ)
        (l1 : List rabbitmq.ConsumerConf) (c1 : rabbitmq.ConsumerConf)
        (l2 : List rabbitmq.ConsumerConf) (c2 : rabbitmq.ConsumerConf)
        (l3 : List rabbitmq.ConsumerConf),
        rabbitmq.consumerConfs mq = (l1 ++ c1 :: l2) ++ c2 :: l3 → c1.Key = c2.Key →
        (∀ c, c ∈ l3 → c.Key ≠ c2.Key) → (rabbitmq.RegisterConn mq g w).err = none →
        ∃ gP wP g1 w1 p conf1 w2,
          rabbitmq.registerProducers (rabbitmq.producerConfs mq) g w = (none, gP, wP) ∧
          rabbitmq.registerConsumers (l1 ++ c1 :: l2) gP wP = (none, g1, w1) ∧
          rabbitmq.InitConsumer c2 w1 = (Except.ok p, conf1, w2) ∧
          rabbitmq.GetConsumer (rabbitmq.RegisterConn mq g w).globals c2.Key = some p) ∧
    (∀ {σ : Type} (k : kafka.Kafka) (g : kafka.Globals σ) (w : kafka.World σ)
        (l1 : List kafka.ProducerConf) (c1 : kafka.ProducerConf)
        (l2 : List kafka.ProducerConf) (c2 : kafka.ProducerConf)
        (l3 : List kafka.ProducerConf),
        kafka.producerConfs k = (l1 ++ c1 :: l2) ++ c2 :: l3 → c1.Key = c2.Key →
        (∀ c, c ∈ l3 → c.Key ≠ c2.Key) → (kafka.RegisterConn k g w).err = none →
        ∃ g1 w1 p w2, kafka.registerProducers (l1 ++ c1 :: l2) g w = (none, g1, w1) ∧
          kafka.InitProducer c2 w1 = (Except.ok p, w2) ∧
          kafka.GetProducer (kafka.RegisterConn k g w).globals c2.Key = some p) ∧
    (∀ {σ : Type} (k : kafka.Kafka) (g : kafka.Globals σ) (w : kafka.World σ)
        (l1 : List kafka.ConsumerConf) (c1 : kafka.ConsumerConf)
        (l2 : List kafka.ConsumerConf) (c2 : kafka.ConsumerConf)
        (l3 : List kafka.ConsumerConf),
        kafka.consumerConfs k = (l1 ++ c1 :: l2) ++ c2 :: l3 → c1.Key = c2.Key →
        (∀ c, c ∈ l3 → c.Key ≠ c2.Key) → (kafka.RegisterConn k g w).err = none →
        ∃ gP wP g1 w1 p conf1 w2,
          kafka.registerProducers (kafka.producerConfs k) g w = (none, gP, wP) ∧
          kafka.registerConsumers (l1 ++ c1 :: l2) gP wP = (none, g1, w1) ∧
          kafka.InitConsumer c2 w1 = (Except.ok p, conf1, w2) ∧
          kafka.GetConsumer (kafka.RegisterConn k g w).globals c2.Key = some p) := by
  refine ⟨?_, ?_, ?_, ?_⟩
  · intro σ mq g w l1 c1 l2 c2 l3 hl _ hlast herr
    obtain ⟨gP, wP, gF, wF, hP, hC, hg, _⟩ := rabbitmq.RegisterConn_ok mq g w herr
    rw [hl] at hP
    obtain ⟨g1, w1, p, w2, h1, h2, h3⟩ := rabbitmq.registerProducers_split _ _ _ _ _ _ _ hP
    refine ⟨g1, w1, p, w2, h1, h2, ?_⟩
    have e1 := (rabbitmq.registerConsumers_others (rabbitmq.consumerConfs mq) gP wP).1
    have e2 := rabbitmq.registerProducers_frame c2.Key l3
      { g1 with producers := rabbitmq.setKey g1.producers c2.Key p } w2 hlast
    rw [hC] at e1
    rw [h3] at e2
    simp only at e1 e2
    simp [rabbitmq.GetProducer, hg, e1, e2, rabbitmq.setKey]
  · intro σ mq g w l1 c1 l2 c2 l3 hl _ hlast herr
    obtain ⟨gP, wP, gF, wF, hP, hC, hg, _⟩ := rabbitmq.RegisterConn_ok mq g w herr
    rw [hl] at hC
    obtain ⟨g1, w1, p, conf1, w2, h1, h2, h3⟩ :=
      rabbitmq.registerConsumers_split _ _ _ _ _ _ _ hC
    refine ⟨gP, wP, g1, w1, p, conf1, w2, hP, h1, h2, ?_⟩
    have e2 := rabbitmq.registerConsumers_frame c2.Key l3
      { g1 with consumers := rabbitmq.setKey g1.consumers c2.Key p } w2 hlast
    rw [h3] at e2
    simp only at e2
    simp [rabbitmq.GetConsumer, hg, e2, rabbitmq.setKey]
  · intro σ k g w l1 c1 l2 c2 l3 hl _ hlast herr
    obtain ⟨gP, wP, gF, wF, hP, hC, hg, _⟩ := kafka.RegisterConn_ok_kafka k g w herr
    rw [hl] at hP
    obtain ⟨g1, w1, p, w2, h1, h2, h3⟩ :=
      kafka.registerProducers_split_kafka _ _ _ _ _ _ _ hP
    refine ⟨g1, w1, p, w2, h1, h2, ?_⟩
    have e1 := (kafka.registerConsumers_others_kafka (kafka.consumerConfs k) gP wP).1
    have e2 := kafka.registerProducers_frame_kafka c2.Key l3
      { g1 with producers := kafka.setKey g1.producers c2.Key p } w2 hlast
    rw [hC] at e1
    rw [h3] at e2
    simp only at e1 e2
    simp [kafka.GetProducer, hg, e1, e2, kafka.setKey]
  · intro σ k g w l1 c1 l2 c2 l3 hl _ hlast herr
    obtain ⟨gP, wP, gF, wF, hP, hC, hg, _⟩ := kafka.RegisterConn_ok_kafka k g w herr
    rw [hl] at hC
    obtain ⟨g1, w1, p, conf1, w2, h1, h2, h3⟩ :=
      kafka.registerConsumers_split_kafka _ _ _ _ _ _ _ hC
    refine ⟨gP, wP, g1, w1, p, conf1, w2, hP, h1, h2, ?_⟩
    have e2 := kafka.registerConsumers_frame_kafka c2.Key l3
      { g1 with consumers := kafka.setKey g1.consumers c2.Key p } w2 hlast
    rw [h3] at e2
    simp only at e2
    simp [kafka.GetConsumer, hg, e2, kafka.setKey]

theorem registerConn_last_write_wins_witness :
    (∃ g1 w1 p w2,
        rabbitmq.registerProducers
          ([] ++ { rabbitmq.producerConf "x" with Exchange := "first",
                                                  Address := "amqp://broker" } :: [])
          (rabbitmq.Globals.init Nat) rabbitmq.calmWorld = (none, g1, w1) ∧
        rabbitmq.InitProducer
          { rabbitmq.producerConf "x" with Exchange := "second", Address := "amqp://broker" }
          w1 = (Except.ok p, w2) ∧
        rabbitmq.GetProducer (rabbitmq.RegisterConn rabbitmq.dupMQ (rabbitmq.Globals.init Nat)
          rabbitmq.calmWorld).globals
          ({ rabbitmq.producerConf "x" with Exchange := "second",
                                            Address := "amqp://broker" }).Key = some p) ∧
    (∃ gP wP g1 w1 p conf1 w2,
        rabbitmq.registerProducers (rabbitmq.producerConfs rabbitmq.dupMQ)
          (rabbitmq.Globals.init Nat) rabbitmq.calmWorld = (none, gP, wP) ∧
        rabbitmq.registerConsumers
          ([] ++ { rabbitmq.consumerConf "x" with Queue := "first",
                                                  Address := "amqp://broker" } :: [])
          gP wP = (none, g1, w1) ∧
        rabbitmq.InitConsumer
          { rabbitmq.consumerConf "x" with Queue := "second", Address := "amqp://broker" }
          w1 = (Except.ok p, conf1, w2) ∧
        rabbitmq.GetConsumer (rabbitmq.RegisterConn rabbitmq.dupMQ (rabbitmq.Globals.init Nat)
          rabbitmq.calmWorld).globals
          ({ rabbitmq.consumerConf "x" with Queue := "second",
                                            Address := "amqp://broker" }).Key = some p) ∧
    (∃ g1 w1 p w2,
        kafka.registerProducers
          ([] ++ { kafka.producerConf "x" with Topic := "first",
                                               Brokers := ["broker:9092"] } :: [])
          (kafka.Globals.init Nat) kafka.calmWorld = (none, g1, w1) ∧
        kafka.InitProducer
          { kafka.producerConf "x" with Topic := "second", Brokers := ["broker:9092"] }
          w1 = (Except.ok p, w2) ∧
        kafka.GetProducer (kafka.RegisterConn kafka.dupKafka (kafka.Globals.init Nat)
          kafka.calmWorld).globals
          ({ kafka.producerConf "x" with Topic := "second",
                                         Brokers := ["broker:9092"] }).Key = some p) ∧
    (∃ gP wP g1 w1 p conf1 w2,
        kafka.registerProducers (kafka.producerConfs kafka.dupKafka)
          (kafka.Globals.init Nat) kafka.calmWorld = (none, gP, wP) ∧
        kafka.registerConsumers
          ([] ++ { kafka.consumerConf "x" with Topic := "first",
                                               Brokers := ["broker:9092"] } :: [])
          gP wP = (none, g1, w1) ∧
        kafka.InitConsumer
          { kafka.consumerConf "x" with Topic := "second", Brokers := ["broker:9092"] }
          w1 = (Except.ok p, conf1, w2) ∧
        kafka.GetConsumer (kafka.RegisterConn kafka.dupKafka (kafka.Globals.init Nat)
          kafka.calmWorld).globals
          ({ kafka.consumerConf "x" with Topic := "second",
                                         Brokers := ["broker:9092"] }).Key = some p) :=
  ⟨registerConn_last_write_wins.1 rabbitmq.dupMQ (rabbitmq.Globals.init Nat)
      rabbitmq.calmWorld [] _ [] _ [] (by decide) rfl (by simp) (by decide),
   registerConn_last_write_wins.2.1 rabbitmq.dupMQ (rabbitmq.Globals.init Nat)
      rabbitmq.calmWorld [] _ [] _ [] (by decide) rfl (by simp) (by decide),
   registerConn_last_write_wins.2.2.1 kafka.dupKafka (kafka.Globals.init Nat)
      kafka.calmWorld [] _ [] _ [] (by decide) rfl (by simp) (by decide),
   registerConn_last_write_wins.2.2.2 kafka.dupKafka (kafka.Globals.init Nat)
      kafka.calmWorld [] _ [] _ [] (by decide) rfl (by simp) (by decide)⟩

namespace rabbitmq

theorem registerProducers_construct {σ : Type} :
    ∀ (l : List ProducerConf) (g : Globals σ) (w : World σ),
      ((registerProducers l g w).1 = none ↔ (producersConstruct l w).isSome = true) ∧
      ((registerProducers l g w).1 = none →
        producersConstruct l w = some (registerProducers l g w).2.2) := by
  intro l
  induction l with
  | nil => intro g w; simp [registerProducers, producersConstruct]
  | cons conf rest ih =>
    intro g w
    simp only [registerProducers, producersConstruct]
    cases hI : InitProducer conf w with
    | mk res w1 =>
      cases res with
      | error e => simp
      | ok p => exact ih _ _

theorem registerConsumers_construct {σ : Type} :
    ∀ (l : List ConsumerConf) (g : Globals σ) (w : World σ),
      ((registerConsumers l g w).1 = none ↔ (consumersConstruct l w).isSome = true) ∧
      ((registerConsumers l g w).1 = none →
        consumersConstruct l w = some (registerConsumers l g w).2.2) := by
  intro l
  induction l with
  | nil => intro g w; simp [registerConsumers, consumersConstruct]
  | cons conf rest ih =>
    intro g w
    simp only [registerConsumers, consumersConstruct]
    cases hI : InitConsumer conf w with
    | mk res r =>
      obtain ⟨conf1, w1⟩ := r
      cases res with
      | error e => simp
      | ok p => exact ih _ _

theorem RegisterConn_err_none_iff {σ : Type} (mq : RabbitMQ) (g : Globals σ) (w : World σ) :
    (RegisterConn mq g w).err = none ↔
      ∃ w1, producersConstruct (producerConfs mq) w = some w1 ∧
        (consumersConstruct (consumerConfs mq) w1).isSome = true := by
  obtain ⟨p1, p2⟩ := registerProducers_construct (producerConfs mq) g w
  unfold RegisterConn
  cases hP : registerProducers (producerConfs mq) g w with
  | mk e r =>
    obtain ⟨g1, w1⟩ := r
    rw [hP] at p1 p2
    obtain ⟨c1, _⟩ := registerConsumers_construct (consumerConfs mq) g1 w1
    cases e with
    | some e =>
      simp only at p1 ⊢
      constructor
      · intro h; simp at h
      · rintro ⟨w2, h2, _⟩
        rw [h2] at p1
        simp at p1
    | none =>
      have h2 := p2 rfl
      simp only at h2 c1 ⊢
      cases hC : registerConsumers (consumerConfs mq) g1 w1 with
      | mk e2 r2 =>
        obtain ⟨g2, w2⟩ := r2
        rw [hC] at c1
        simp only at c1
        cases e2 with
        | some e2 =>
          simp only
          constructor
          · intro h; simp at h
          · rintro ⟨w3, h3, h4⟩
            rw [h2] at h3
            cases h3
            have := c1.mpr h4
            simp at this
        | none =>
          simp only [true_iff]
          exact ⟨w1, h2, c1.mp rfl⟩

end rabbitmq

namespace kafka

theorem InitProducer_ok_kafka {σ : Type} (conf : ProducerConf) (w : World σ) :
    ∃ p, InitProducer conf w = (Except.ok p, w) := ⟨_, rfl⟩

theorem InitConsumer_error_kafka {σ : Type} (conf : ConsumerConf) (w : World σ)
    (e : String) (conf1 : ConsumerConf) (w1 : World σ)
    (h : InitConsumer conf w = (Except.error e, conf1, w1)) : w1.panicked = some e := by
  unfold InitConsumer at h
  simp only [NewClient] at h
  split at h
  · simp only [Prod.mk.injEq, Except.error.injEq] at h
    obtain ⟨rfl, _, rfl⟩ := h
    rfl
  · simp at h

theorem InitConsumer_ok_keeps_kafka {σ : Type} (conf : ConsumerConf) (w : World σ)
    (c : Consumer σ) (conf1 : ConsumerConf) (w1 : World σ)
    (h : InitConsumer conf w = (Except.ok c, conf1, w1)) :
    w1.panicked = w.panicked ∧ w1.env = w.env := by
  unfold InitConsumer at h
  simp only [NewClient] at h
  split at h
  · simp at h
  · rename_i w0 hcall
    simp only [Prod.mk.injEq] at h
    obtain ⟨_, _, rfl⟩ := h
    simp only [World.call, Prod.mk.injEq] at hcall
    obtain ⟨_, rfl⟩ := hcall
    exact ⟨rfl, rfl⟩

theorem InitConsumer_accepted_kafka {σ : Type} (conf : ConsumerConf) (w : World σ)
    (h : ∀ hist config, w.env hist (Call.newReader config) = none) :
    ∃ (c : Consumer σ) (conf1 : ConsumerConf) (w1 : World σ),
      InitConsumer conf w = (Except.ok c, conf1, w1) := by
  simp only [InitConsumer, NewClient, World.call, h]
  exact ⟨_, _, _, rfl⟩

theorem registerProducers_none_kafka {σ : Type} :
    ∀ (l : List ProducerConf) (g : Globals σ) (w : World σ),
      (registerProducers l g w).1 = none ∧ (registerProducers l g w).2.2 = w := by
  intro l
  induction l with
  | nil => intro g w; exact ⟨rfl, rfl⟩
  | cons conf rest ih =>
    intro g w
    obtain ⟨p, hp⟩ := InitProducer_ok_kafka conf w
    simp only [registerProducers, hp]
    exact ih _ _

theorem registerConsumers_error_kafka {σ : Type} :
    ∀ (l : List ConsumerConf) (g : Globals σ) (w : World σ) (e : String),
      (registerConsumers l g w).1 = some e →
      (registerConsumers l g w).2.2.panicked = some e := by
  intro l
  induction l with
  | nil => intro g w e h; simp [registerConsumers] at h
  | cons conf rest ih =>
    intro g w e h
    simp only [registerConsumers] at h ⊢
    cases hI : InitConsumer conf w with
    | mk res r =>
      obtain ⟨conf1, w1⟩ := r
      rw [hI] at h
      cases res with
      | error e1 =>
        simp only [Option.some.injEq] at h ⊢
        subst h
        exact InitConsumer_error_kafka conf w e1 conf1 w1 hI
      | ok c => exact ih _ _ e h

theorem registerConsumers_accepted_kafka {σ : Type} :
    ∀ (l : List ConsumerConf) (g : Globals σ) (w : World σ),
      (∀ hist config, w.env hist (Call.newReader config) = none) →
      (registerConsumers l g w).1 = none ∧
      (registerConsumers l g w).2.2.panicked = w.panicked := by
  intro l
  induction l with
  | nil => intro g w _; exact ⟨rfl, rfl⟩
  | cons conf rest ih =>
    intro g w h
    obtain ⟨c, conf1, w1, hI⟩ := @InitConsumer_accepted_kafka σ conf w h
    obtain ⟨hp, he⟩ := InitConsumer_ok_keeps_kafka conf w c conf1 w1 hI
    simp only [registerConsumers, hI]
    have hrec := ih { g with consumers := setKey g.consumers conf1.Key c } w1
      (by rw [he]; exact h)
    rw [hp] at hrec
    exact hrec

theorem RegisterConn_error_kafka {σ : Type} (k : Kafka) (g : Globals σ) (w : World σ)
    (e : String) (h : (RegisterConn k g w).err = some e) :
    (RegisterConn k g w).world.panicked = some e := by
  obtain ⟨h1, h1w⟩ := registerProducers_none_kafka (producerConfs k) g w
  unfold RegisterConn at h ⊢
  cases hP : registerProducers (producerConfs k) g w with
  | mk e1 r =>
    obtain ⟨g1, w1⟩ := r
    rw [hP] at h1 h
    simp only at h1
    subst h1
    simp only at h ⊢
    have h2 := registerConsumers_error_kafka (consumerConfs k) g1 w1 e
    cases hC : registerConsumers (consumerConfs k) g1 w1 with
    | mk e2 r2 =>
      obtain ⟨g2, w2⟩ := r2
      rw [hC] at h h2
      cases e2 with
      | none => simp at h
      | some e3 =>
        simp only [Option.some.injEq] at h h2 ⊢
        exact h2 h

theorem RegisterConn_accepted_kafka {σ : Type} (k : Kafka) (g : Globals σ) (w : World σ)
    (h : ∀ hist config, w.env hist (Call.newReader config) = none) :
    (RegisterConn k g w).err = none ∧ (RegisterConn k g w).world.panicked = w.panicked := by
  obtain ⟨h1, h1w⟩ := registerProducers_none_kafka (producerConfs k) g w
  unfold RegisterConn
  cases hP : registerProducers (producerConfs k) g w with
  | mk e1 r =>
    obtain ⟨g1, w1⟩ := r
    rw [hP] at h1 h1w
    simp only at h1 h1w
    subst h1 h1w
    obtain ⟨h2, h3⟩ := registerConsumers_accepted_kafka (consumerConfs k) g1 w1 h
    simp only
    cases hC : registerConsumers (consumerConfs k) g1 w1 with
    | mk e2 r2 =>
      obtain ⟨g2, w2⟩ := r2
      rw [hC] at h2 h3
      simp only at h2 h3
      subst h2
      exact ⟨rfl, h3⟩

theorem registerProducers_construct_kafka {σ : Type} :
    ∀ (l : List ProducerConf) (g : Globals σ) (w : World σ),
      ((registerProducers l g w).1 = none ↔ (producersConstruct l w).isSome = true) ∧
      ((registerProducers l g w).1 = none →
        producersConstruct l w = some (registerProducers l g w).2.2) := by
  intro l
  induction l with
  | nil => intro g w; simp [registerProducers, producersConstruct]
  | cons conf rest ih =>
    intro g w
    simp only [registerProducers, producersConstruct]
    cases hI : InitProducer conf w with
    | mk res w1 =>
      cases res with
      | error e => simp
      | ok p => exact ih _ _

theorem registerConsumers_construct_kafka {σ : Type} :
    ∀ (l : List ConsumerConf) (g : Globals σ) (w : World σ),
      ((registerConsumers l g w).1 = none ↔ (consumersConstruct l w).isSome = true) ∧
      ((registerConsumers l g w).1 = none →
        consumersConstruct l w = some (registerConsumers l g w).2.2) := by
  intro l
  induction l with
  | nil => intro g w; simp [registerConsumers, consumersConstruct]
  | cons conf rest ih =>
    intro g w
    simp only [registerConsumers, consumersConstruct]
    cases hI : InitConsumer conf w with
    | mk res r =>
      obtain ⟨conf1, w1⟩ := r
      cases res with
      | error e => simp
      | ok p => exact ih _ _

theorem RegisterConn_err_none_iff_kafka {σ : Type} (k : Kafka) (g : Globals σ)
    (w : World σ) :
    (RegisterConn k g w).err = none ↔
      ∃ w1, producersConstruct (producerConfs k) w = some w1 ∧
        (consumersConstruct (consumerConfs k) w1).isSome = true := by
  obtain ⟨p1, p2⟩ := registerProducers_construct_kafka (producerConfs k) g w
  unfold RegisterConn
  cases hP : registerProducers (producerConfs k) g w with
  | mk e r =>
    obtain ⟨g1, w1⟩ := r
    rw [hP] at p1 p2
    obtain ⟨c1, _⟩ := registerConsumers_construct_kafka (consumerConfs k) g1 w1
    cases e with
    | some e =>
      simp only at p1 ⊢
      constructor
      · intro h; simp at h
      · rintro ⟨w2, h2, _⟩
        rw [h2] at p1
        simp at p1
    | none =>
      have h2 := p2 rfl
      simp only at h2 c1 ⊢
      cases hC : registerConsumers (consumerConfs k) g1 w1 with
      | mk e2 r2 =>
        obtain ⟨g2, w2⟩ := r2
        rw [hC] at c1
        simp only at c1
        cases e2 with
        | some e2 =>
          simp only
          constructor
          · intro h; simp at h
          · rintro ⟨w3, h3, h4⟩
            rw [h2] at h3
            cases h3
            have := c1.mpr h4
            simp at this
        | none =>
          simp only [true_iff]
          exact ⟨w1, h2, c1.mp rfl⟩

end kafka

/-- C7 (the claim fails here): the Kafka `RegisterConn` on a config whose second
consumer has no broker address, with a client library that rejects such a reader
configuration.  The construction of that consumer fails, but no error is returned:
`kafka.NewReader` panics and `RegisterConn` panics with it.  The producer and the
first consumer, registered before, are retrievable; the failing consumer and the one
after it are not registered. -/
theorem kafka_registerConn_panics_on_rejected_reader :
    (kafka.RegisterConn kafka.noBrokerKafka (kafka.Globals.init Nat)
        kafka.strictWorld).world.panicked =
      some "cannot create a new kafka reader with an empty list of broker addresses" ∧
    (kafka.GetProducer (kafka.RegisterConn kafka.noBrokerKafka (kafka.Globals.init Nat)
        kafka.strictWorld).globals "a").isSome = true ∧
    (kafka.GetConsumer (kafka.RegisterConn kafka.noBrokerKafka (kafka.Globals.init Nat)
        kafka.strictWorld).globals "a").isSome = true ∧
    (kafka.GetConsumer (kafka.RegisterConn kafka.noBrokerKafka (kafka.Globals.init Nat)
        kafka.strictWorld).globals "b").isSome = false ∧
    (kafka.GetConsumer (kafka.RegisterConn kafka.noBrokerKafka (kafka.Globals.init Nat)
        kafka.strictWorld).globals "c").isSome = false ∧
    (kafka.RegisterConn kafka.noBrokerKafka (kafka.Globals.init Nat)
        kafka.strictWorld).world.trace.length = 3 := by
  decide

/-- C7 (amended): `RegisterConn` processes the producer configs, then the consumer
configs, in list order.  RabbitMQ: if the construction of a producer (resp. consumer)
config is the first to fail, `RegisterConn` returns exactly its error, makes no call
after the failed construction (nothing later is constructed or registered) and leaves
the registry as the earlier registrations made it, every earlier entry being
retrievable through `GetProducer` / `GetConsumer` (no rollback); it returns nil iff
every construction, made in that order, succeeds.  Kafka: no construction returns an
error; a producer construction always succeeds, and a consumer construction fails
only by the panic of `kafka.NewReader` on a rejected configuration.  `RegisterConn`
then panics with it instead of returning an error: nothing after the failing config is
constructed or registered, the registry is as the earlier registrations made it and
every earlier entry is retrievable.  The Kafka `RegisterConn` returns nil iff every
construction succeeds, and then every config is registered; it does so whenever the
library accepts every reader configuration. -/
theorem registerConn_first_error :
    (∀ {σ : Type} (mq : rabbitmq.RabbitMQ) (g : rabbitmq.Globals σ) (w : rabbitmq.World σ)
        (pre : List rabbitmq.ProducerConf) (conf : rabbitmq.ProducerConf)
        (post : List rabbitmq.ProducerConf) (g1 : rabbitmq.Globals σ)
        (w1 w2 : rabbitmq.World σ) (e : String),
        rabbitmq.producerConfs mq = pre ++ conf :: post →
        rabbitmq.registerProducers pre g w = (none, g1, w1) →
        rabbitmq.InitProducer conf w1 = (Except.error e, w2) →
        (rabbitmq.RegisterConn mq g w).err = some e ∧
        (rabbitmq.RegisterConn mq g w).world = w2 ∧
        (rabbitmq.RegisterConn mq g w).globals = g1 ∧
        (∀ c, c ∈ pre →
          (rabbitmq.GetProducer (rabbitmq.RegisterConn mq g w).globals c.Key).isSome = true)) ∧
    (∀ {σ : Type} (mq : rabbitmq.RabbitMQ) (g : rabbitmq.Globals σ) (w : rabbitmq.World σ)
        (gP : rabbitmq.Globals σ) (wP : rabbitmq.World σ)
        (pre : List rabbitmq.ConsumerConf) (conf : rabbitmq.ConsumerConf)
        (post : List rabbitmq.ConsumerConf) (g1 : rabbitmq.Globals σ)
        (w1 w2 : rabbitmq.World σ) (e : String) (conf1 : rabbitmq.ConsumerConf),
        rabbitmq.registerProducers (rabbitmq.producerConfs mq) g w = (none, gP, wP) →
        rabbitmq.consumerConfs mq = pre ++ conf :: post →
        rabbitmq.registerConsumers pre gP wP = (none, g1, w1) →
        rabbitmq.InitConsumer conf w1 = (Except.error e, conf1, w2) →
        (rabbitmq.RegisterConn mq g w).err = some e ∧
        (rabbitmq.RegisterConn mq g w).world = w2 ∧
        (rabbitmq.RegisterConn mq g w).globals = g1 ∧
        (∀ c, c ∈ rabbitmq.producerConfs mq →
          (rabbitmq.GetProducer (rabbitmq.RegisterConn mq g w).globals c.Key).isSome = true) ∧
        (∀ c, c ∈ pre →
          (rabbitmq.GetConsumer (rabbitmq.RegisterConn mq g w).globals c.Key).isSome = true)) ∧
    (∀ {σ : Type} (mq : rabbitmq.RabbitMQ) (g : rabbitmq.Globals σ) (w : rabbitmq.World σ),
        (rabbitmq.RegisterConn mq g w).err = none ↔
          ∃ w1, rabbitmq.producersConstruct (rabbitmq.producerConfs mq) w = some w1 ∧
            (rabbitmq.consumersConstruct (rabbitmq.consumerConfs mq) w1).isSome = true) ∧
    (∀ {σ : Type} (conf : kafka.ProducerConf) (w0 : kafka.World σ),
        ∃ p, kafka.InitProducer conf w0 = (Except.ok p, w0)) ∧
    (∀ {σ : Type} (conf : kafka.ConsumerConf) (w0 w1 : kafka.World σ) (e : String)
        (conf1 : kafka.ConsumerConf),
        kafka.InitConsumer conf w0 = (Except.error e, conf1, w1) → w1.panicked = some e) ∧
    (∀ {σ : Type} (k : kafka.Kafka) (g : kafka.Globals σ) (w : kafka.World σ) (e : String),
        (kafka.RegisterConn k g w).err = some e →
        (kafka.RegisterConn k g w).world.panicked = some e) ∧
    (∀ {σ : Type} (k : kafka.Kafka) (g : kafka.Globals σ) (w : kafka.World σ)
        (gP : kafka.Globals σ) (wP : kafka.World σ)
        (pre : List kafka.ConsumerConf) (conf : kafka.ConsumerConf)
        (post : List kafka.ConsumerConf) (g1 : kafka.Globals σ)
        (w1 w2 : kafka.World σ) (e : String) (conf1 : kafka.ConsumerConf),
        kafka.registerProducers (kafka.producerConfs k) g w = (none, gP, wP) →
        kafka.consumerConfs k = pre ++ conf :: post →
        kafka.registerConsumers pre gP wP = (none, g1, w1) →
        kafka.InitConsumer conf w1 = (Except.error e, conf1, w2) →
        (kafka.RegisterConn k g w).world = w2 ∧
        (kafka.RegisterConn k g w).world.panicked = some e ∧
        (kafka.RegisterConn k g w).globals = g1 ∧
        (∀ c, c ∈ kafka.producerConfs k →
          (kafka.GetProducer (kafka.RegisterConn k g w).globals c.Key).isSome = true) ∧
        (∀ c, c ∈ pre →
          (kafka.GetConsumer (kafka.RegisterConn k g w).globals c.Key).isSome = true)) ∧
    (∀ {σ : Type} (k : kafka.Kafka) (g : kafka.Globals σ) (w : kafka.World σ),
        (kafka.RegisterConn k g w).err = none ↔
          ∃ w1, kafka.producersConstruct (kafka.producerConfs k) w = some w1 ∧
            (kafka.consumersConstruct (kafka.consumerConfs k) w1).isSome = true) ∧
    (∀ {σ : Type} (k : kafka.Kafka) (g : kafka.Globals σ) (w : kafka.World σ),
        (kafka.RegisterConn k g w).err = none →
        (∀ c, c ∈ kafka.producerConfs k →
          (kafka.GetProducer (kafka.RegisterConn k g w).globals c.Key).isSome = true) ∧
        (∀ c, c ∈ kafka.consumerConfs k →
          (kafka.GetConsumer (kafka.RegisterConn k g w).globals c.Key).isSome = true)) ∧
    (∀ {σ : Type} (k : kafka.Kafka) (g : kafka.Globals σ) (w : kafka.World σ),
        (∀ hist config, w.env hist (kafka.Call.newReader config) = none) →
        (kafka.RegisterConn k g w).err = none ∧
        (kafka.RegisterConn k g w).world.panicked = w.panicked) := by
  refine ⟨?_, ?_, ?_, ?_, ?_, ?_, ?_, ?_, ?_, ?_⟩
  · intro σ mq g w pre conf post g1 w1 w2 e hl hpre hI
    have hf := rabbitmq.registerProducers_fails pre conf post g g1 w w1 w2 e hpre hI
    rw [← hl] at hf
    have hreg := rabbitmq.registerProducers_registered pre g w (by rw [hpre])
    rw [hpre] at hreg
    simp only [rabbitmq.RegisterConn, hf, rabbitmq.GetProducer]
    exact ⟨trivial, trivial, trivial, hreg⟩
  · intro σ mq g w gP wP pre conf post g1 w1 w2 e conf1 hP hl hpre hI
    have hf := rabbitmq.registerConsumers_fails pre conf post gP g1 wP w1 w2 e conf1 hpre hI
    rw [← hl] at hf
    have hregC := rabbitmq.registerConsumers_registered pre gP wP (by rw [hpre])
    have hregP := rabbitmq.registerProducers_registered (rabbitmq.producerConfs mq) g w
      (by rw [hP])
    have hoth := (rabbitmq.registerConsumers_others pre gP wP).1
    rw [hpre] at hregC hoth
    rw [hP] at hregP
    simp only at hregC hregP hoth
    simp only [rabbitmq.RegisterConn, hP, hf, rabbitmq.GetProducer, rabbitmq.GetConsumer]
    refine ⟨trivial, trivial, trivial, ?_, hregC⟩
    intro c hc
    rw [hoth]
    exact hregP c hc
  · intro σ mq g w
    exact rabbitmq.RegisterConn_err_none_iff mq g w
  · intro σ conf w0
    exact kafka.InitProducer_ok_kafka conf w0
  · intro σ conf w0 w1 e conf1 h
    exact kafka.InitConsumer_error_kafka conf w0 e conf1 w1 h
  · intro σ k g w e h
    exact kafka.RegisterConn_error_kafka k g w e h
  · intro σ k g w gP wP pre conf post g1 w1 w2 e conf1 hP hl hpre hI
    have hf := kafka.registerConsumers_fails_kafka pre conf post gP g1 wP w1 w2 e conf1 hpre hI
    rw [← hl] at hf
    have hregC := kafka.registerConsumers_registered_kafka pre gP wP (by rw [hpre])
    have hregP := kafka.registerProducers_registered_kafka (kafka.producerConfs k) g w
      (by rw [hP])
    have hoth := (kafka.registerConsumers_others_kafka pre gP wP).1
    have hpan := kafka.InitConsumer_error_kafka conf w1 e conf1 w2 hI
    rw [hpre] at hregC hoth
    rw [hP] at hregP
    simp only at hregC hregP hoth
    simp only [kafka.RegisterConn, hP, hf, kafka.GetProducer, kafka.GetConsumer]
    refine ⟨trivial, hpan, trivial, ?_, hregC⟩
    intro c hc
    rw [hoth]
    exact hregP c hc
  · intro σ k g w
    exact kafka.RegisterConn_err_none_iff_kafka k g w
  · intro σ k g w herr
    obtain ⟨gP, wP, gF, wF, hP, hC, hg, _⟩ := kafka.RegisterConn_ok_kafka k g w herr
    refine ⟨?_, ?_⟩
    · intro c hc
      have h1 := kafka.registerProducers_registered_kafka (kafka.producerConfs k) g w
        (by rw [hP]) c hc
      have h2 := (kafka.registerConsumers_others_kafka (kafka.consumerConfs k) gP wP).1
      rw [hP] at h1
      rw [hC] at h2
      simp only at h1 h2
      rw [kafka.GetProducer, hg, h2]
      exact h1
    · intro c hc
      have h1 := kafka.registerConsumers_registered_kafka (kafka.consumerConfs k) gP wP
        (by rw [hC]) c hc
      rw [hC] at h1
      simp only at h1
      rw [kafka.GetConsumer, hg]
      exact h1
  · intro σ k g w h
    exact kafka.RegisterConn_accepted_kafka k g w h

theorem registerConn_first_error_witness :
    ((rabbitmq.RegisterConn rabbitmq.sampleMQ (rabbitmq.Globals.init Nat)
        rabbitmq.secondDialFails).err = some "failed to connect to RabbitMQ: connection refused" ∧
      (rabbitmq.RegisterConn rabbitmq.sampleMQ (rabbitmq.Globals.init Nat)
        rabbitmq.secondDialFails).world =
        (rabbitmq.InitProducer (rabbitmq.producerConfAt "b")
          (rabbitmq.registerProducers [rabbitmq.producerConfAt "a"]
            (rabbitmq.Globals.init Nat) rabbitmq.secondDialFails).2.2).2 ∧
      (rabbitmq.RegisterConn rabbitmq.sampleMQ (rabbitmq.Globals.init Nat)
        rabbitmq.secondDialFails).globals =
        (rabbitmq.registerProducers [rabbitmq.producerConfAt "a"]
          (rabbitmq.Globals.init Nat) rabbitmq.secondDialFails).2.1 ∧
      (∀ c, c ∈ [rabbitmq.producerConfAt "a"] →
        (rabbitmq.GetProducer (rabbitmq.RegisterConn rabbitmq.sampleMQ
          (rabbitmq.Globals.init Nat) rabbitmq.secondDialFails).globals c.Key).isSome = true)) ∧
    ((rabbitmq.RegisterConn rabbitmq.sampleMQ (rabbitmq.Globals.init Nat)
        rabbitmq.qosFails).err = some "failed to set QoS: qos refused" ∧
      (rabbitmq.RegisterConn rabbitmq.sampleMQ (rabbitmq.Globals.init Nat)
        rabbitmq.qosFails).world =
        (rabbitmq.InitConsumer (rabbitmq.consumerConfAt "a")
          (rabbitmq.registerProducers (rabbitmq.producerConfs rabbitmq.sampleMQ)
            (rabbitmq.Globals.init Nat) rabbitmq.qosFails).2.2 :
          Except String (rabbitmq.Consumer Nat) × rabbitmq.ConsumerConf ×
            rabbitmq.World Nat).2.2 ∧
      (rabbitmq.RegisterConn rabbitmq.sampleMQ (rabbitmq.Globals.init Nat)
        rabbitmq.qosFails).globals =
        (rabbitmq.registerProducers (rabbitmq.producerConfs rabbitmq.sampleMQ)
          (rabbitmq.Globals.init Nat) rabbitmq.qosFails).2.1 ∧
      (∀ c, c ∈ rabbitmq.producerConfs rabbitmq.sampleMQ →
        (rabbitmq.GetProducer (rabbitmq.RegisterConn rabbitmq.sampleMQ
          (rabbitmq.Globals.init Nat) rabbitmq.qosFails).globals c.Key).isSome = true) ∧
      (∀ c, c ∈ ([] : List rabbitmq.ConsumerConf) →
        (rabbitmq.GetConsumer (rabbitmq.RegisterConn rabbitmq.sampleMQ
          (rabbitmq.Globals.init Nat) rabbitmq.qosFails).globals c.Key).isSome = true)) ∧
    (kafka.RegisterConn kafka.noBrokerKafka (kafka.Globals.init Nat)
        kafka.strictWorld).world.panicked =
      some "cannot create a new kafka reader with an empty list of broker addresses" ∧
    ((kafka.RegisterConn kafka.sampleKafka (kafka.Globals.init Nat) kafka.calmWorld).err = none ↔
      ∃ w1, kafka.producersConstruct (kafka.producerConfs kafka.sampleKafka)
          kafka.calmWorld = some w1 ∧
        (kafka.consumersConstruct (kafka.consumerConfs kafka.sampleKafka) w1).isSome = true) ∧
    ((∀ c, c ∈ kafka.producerConfs kafka.sampleKafka →
        (kafka.GetProducer (kafka.RegisterConn kafka.sampleKafka (kafka.Globals.init Nat)
          kafka.calmWorld).globals c.Key).isSome = true) ∧
      (∀ c, c ∈ kafka.consumerConfs kafka.sampleKafka →
        (kafka.GetConsumer (kafka.RegisterConn kafka.sampleKafka (kafka.Globals.init Nat)
          kafka.calmWorld).globals c.Key).isSome = true)) ∧
    ((kafka.RegisterConn kafka.sampleKafka (kafka.Globals.init Nat) kafka.calmWorld).err = none ∧
      (kafka.RegisterConn kafka.sampleKafka (kafka.Globals.init Nat)
        kafka.calmWorld).world.panicked = kafka.calmWorld.panicked) :=
  ⟨registerConn_first_error.1 rabbitmq.sampleMQ (rabbitmq.Globals.init Nat)
      rabbitmq.secondDialFails [rabbitmq.producerConfAt "a"] (rabbitmq.producerConfAt "b")
      [rabbitmq.producerConfAt "c"] _ _ _ _ (by decide) rfl rfl,
   registerConn_first_error.2.1 rabbitmq.sampleMQ (rabbitmq.Globals.init Nat)
      rabbitmq.qosFails _ _ [] (rabbitmq.consumerConfAt "a")
      [rabbitmq.consumerConfAt "b", rabbitmq.consumerConfAt "c"] _ _ _ _
      (rabbitmq.InitConsumer (rabbitmq.consumerConfAt "a")
          (rabbitmq.registerProducers (rabbitmq.producerConfs rabbitmq.sampleMQ)
            (rabbitmq.Globals.init Nat) rabbitmq.qosFails).2.2 :
          Except String (rabbitmq.Consumer Nat) × rabbitmq.ConsumerConf ×
            rabbitmq.World Nat).2.1
      rfl (by decide) rfl rfl,
   (registerConn_first_error.2.2.2.2.2.2.1 kafka.noBrokerKafka (kafka.Globals.init Nat)
      kafka.strictWorld _ _ [{ kafka.consumerConf "a" with Brokers := ["broker:9092"] }]
      (kafka.consumerConf "b") [{ kafka.consumerConf "c" with Brokers := ["broker:9092"] }]
      _ _ _ _ _ rfl (by decide) rfl rfl).2.1,
   registerConn_first_error.2.2.2.2.2.2.2.1 kafka.sampleKafka (kafka.Globals.init Nat)
      kafka.calmWorld,
   registerConn_first_error.2.2.2.2.2.2.2.2.1 kafka.sampleKafka (kafka.Globals.init Nat)
      kafka.calmWorld (by decide),
   registerConn_first_error.2.2.2.2.2.2.2.2.2 kafka.sampleKafka (kafka.Globals.init Nat)
      kafka.calmWorld (fun _ _ => rfl)⟩

namespace rabbitmq

theorem InitConsumer_retry {σ : Type} (conf : ConsumerConf) (w : World σ) :
    (InitConsumer conf w).2.1.RetryCount =
      (if conf.RetryCount ≤ 0 then DefaultRetryCount else conf.RetryCount) ∧
    ∀ c, (InitConsumer conf w).1 = Except.ok c → c.config = (InitConsumer conf w).2.1 := by
  unfold InitConsumer
  by_cases h1 : conf.PrefetchCount ≤ 0 <;> by_cases h2 : conf.RetryCount ≤ 0 <;>
    simp only [h1, h2, if_true, if_false] <;>
    (split <;> (try split) <;> simp)

end rabbitmq

namespace kafka

theorem InitConsumer_retry_kafka {σ : Type} (conf : ConsumerConf) (w : World σ) :
    (InitConsumer conf w).2.1.RetryCount =
      (if conf.RetryCount ≤ 0 then DefaultRetryCount else conf.RetryCount) ∧
    ∀ c, (InitConsumer conf w).1 = Except.ok c → c.config = (InitConsumer conf w).2.1 := by
  unfold InitConsumer
  by_cases h2 : conf.RetryCount ≤ 0 <;>
    simp only [NewClient, h2, if_true, if_false] <;>
    (split <;> simp)

end kafka

/-- C8: a consumer constructed by `InitConsumer` (RabbitMQ and Kafka) from a config with
`RetryCount ≤ 0` has `RetryCount = DefaultRetryCount = 3`; constructed from a config with
`RetryCount > 0` it keeps that `RetryCount`; the record behind the pointer `conf` holds
the same value; hence the retry count of every constructed consumer is at least 1. -/
theorem initConsumer_retryCount_default :
    (∀ {σ : Type} (conf : rabbitmq.ConsumerConf) (w : rabbitmq.World σ)
        (c : rabbitmq.Consumer σ) (conf1 : rabbitmq.ConsumerConf) (w1 : rabbitmq.World σ),
        rabbitmq.InitConsumer conf w = (Except.ok c, conf1, w1) →
        (conf.RetryCount ≤ 0 → c.config.RetryCount = rabbitmq.DefaultRetryCount) ∧
        (0 < conf.RetryCount → c.config.RetryCount = conf.RetryCount) ∧
        conf1.RetryCount = c.config.RetryCount ∧ 1 ≤ c.config.RetryCount) ∧
    rabbitmq.DefaultRetryCount = 3 ∧
    (∀ {σ : Type} (conf : kafka.ConsumerConf) (w : kafka.World σ)
        (c : kafka.Consumer σ) (conf1 : kafka.ConsumerConf) (w1 : kafka.World σ),
        kafka.InitConsumer conf w = (Except.ok c, conf1, w1) →
        (conf.RetryCount ≤ 0 → c.config.RetryCount = kafka.DefaultRetryCount) ∧
        (0 < conf.RetryCount → c.config.RetryCount = conf.RetryCount) ∧
        conf1.RetryCount = c.config.RetryCount ∧ 1 ≤ c.config.RetryCount) ∧
    kafka.DefaultRetryCount = 3 := by
  refine ⟨?_, rfl, ?_, rfl⟩
  · intro σ conf w c conf1 w1 h
    obtain ⟨h1, h2⟩ := rabbitmq.InitConsumer_retry conf w
    rw [h] at h1 h2
    simp only at h1
    have hc : c.config = conf1 := h2 c rfl
    rw [hc, h1]
    by_cases hle : conf.RetryCount ≤ 0
    · rw [if_pos hle]
      exact ⟨fun _ => rfl, fun hlt => absurd hle (not_le.mpr hlt), rfl, by decide⟩
    · rw [if_neg hle]
      exact ⟨fun h0 => absurd h0 hle, fun _ => rfl, rfl, by omega⟩
  · intro σ conf w c conf1 w1 h
    obtain ⟨h1, h2⟩ := kafka.InitConsumer_retry_kafka conf w
    rw [h] at h1 h2
    simp only at h1
    have hc : c.config = conf1 := h2 c rfl
    rw [hc, h1]
    by_cases hle : conf.RetryCount ≤ 0
    · rw [if_pos hle]
      exact ⟨fun _ => rfl, fun hlt => absurd hle (not_le.mpr hlt), rfl, by decide⟩
    · rw [if_neg hle]
      exact ⟨fun h0 => absurd h0 hle, fun _ => rfl, rfl, by omega⟩

theorem initConsumer_retryCount_default_witness :
    ((rabbitmq.unsetRetryConf.RetryCount ≤ 0 →
        rabbitmq.unsetRetryConsumer.config.RetryCount = rabbitmq.DefaultRetryCount) ∧
      (0 < rabbitmq.unsetRetryConf.RetryCount →
        rabbitmq.unsetRetryConsumer.config.RetryCount = rabbitmq.unsetRetryConf.RetryCount) ∧
      (rabbitmq.InitConsumer rabbitmq.unsetRetryConf rabbitmq.calmWorld :
        Except String (rabbitmq.Consumer Nat) × rabbitmq.ConsumerConf ×
          rabbitmq.World Nat).2.1.RetryCount =
        rabbitmq.unsetRetryConsumer.config.RetryCount ∧
      1 ≤ rabbitmq.unsetRetryConsumer.config.RetryCount) ∧
    ((kafka.unsetRetryConf.RetryCount ≤ 0 →
        kafka.unsetRetryConsumer.config.RetryCount = kafka.DefaultRetryCount) ∧
      (0 < kafka.unsetRetryConf.RetryCount →
        kafka.unsetRetryConsumer.config.RetryCount = kafka.unsetRetryConf.RetryCount) ∧
      (kafka.InitConsumer kafka.unsetRetryConf kafka.calmWorld :
        Except String (kafka.Consumer Nat) × kafka.ConsumerConf ×
          kafka.World Nat).2.1.RetryCount =
        kafka.unsetRetryConsumer.config.RetryCount ∧
      1 ≤ kafka.unsetRetryConsumer.config.RetryCount) :=
  ⟨initConsumer_retryCount_default.1 rabbitmq.unsetRetryConf rabbitmq.calmWorld
      rabbitmq.unsetRetryConsumer _ _ rfl,
   initConsumer_retryCount_default.2.2.1 kafka.unsetRetryConf kafka.calmWorld
      kafka.unsetRetryConsumer _ _ rfl⟩

/-- C9 (the code departs from the claim): `InitConsumer` leaves a `RetryDelay` of 0 as
it is, and `processMessage` of the constructed consumer, with a handler that fails on
every attempt, sleeps `0 * time.Second = 0` between the attempts, not
`DefaultRetryDelay` = 2 seconds (RabbitMQ and Kafka); the constant `DefaultRetryDelay`
is declared and never used. -/
theorem initConsumer_retryDelay_not_defaulted :
    ((rabbitmq.InitConsumer rabbitmq.unsetRetryConf rabbitmq.calmWorld :
        Except String (rabbitmq.Consumer Nat) × rabbitmq.ConsumerConf ×
          rabbitmq.World Nat).1.toOption.map (fun c => (c.config.RetryCount, c.config.RetryDelay))
        = some (3, 0) ∧
      (rabbitmq.processMessage
        { rabbitmq.unsetRetryConsumer with handler := some (failFirst 4) }
        rabbitmq.sampleDelivery rabbitmq.calmWorld).map (fun r => rabbitmq.sleeps r.2.trace)
        = some [0, 0, 0] ∧
      rabbitmq.DefaultRetryDelay = 2000000000) ∧
    ((kafka.InitConsumer kafka.unsetRetryConf kafka.calmWorld :
        Except String (kafka.Consumer Nat) × kafka.ConsumerConf ×
          kafka.World Nat).1.toOption.map (fun c => (c.config.RetryCount, c.config.RetryDelay))
        = some (3, 0) ∧
      (kafka.processMessage
        { kafka.unsetRetryConsumer with handler := some (failFirst 4) }
        kafka.sampleMessage kafka.calmWorld).map (fun r => kafka.sleeps r.2.trace)
        = some [0, 0, 0] ∧
      kafka.DefaultRetryDelay = 2000000000) := by
  decide

/-- C10: `NewClient(address)` dials, then opens a channel.  If the dial fails it returns
the connection error and no client, having made no other call; if the dial succeeds and
opening the channel fails it closes the dialed connection (exactly once, the last call
it makes) and returns the channel error and no client; if both succeed it returns the
client holding the dialed connection, the opened channel and the address, and closes
nothing.  Hence a client is returned iff both steps succeed. -/
theorem newClient_outcomes {σ : Type} (address : String) (w : rabbitmq.World σ) :
    (∀ err, w.env w.trace (rabbitmq.Call.dial address) = some err →
      rabbitmq.NewClient address w =
        (Except.error ("failed to connect to RabbitMQ: " ++ err),
         { w with trace := w.trace ++ [rabbitmq.Call.dial address] })) ∧
    (∀ err, w.env w.trace (rabbitmq.Call.dial address) = none →
      w.env (w.trace ++ [rabbitmq.Call.dial address])
        (rabbitmq.Call.channel w.trace.length) = some err →
      rabbitmq.NewClient address w =
        (Except.error ("failed to open channel: " ++ err),
         { w with trace := w.trace ++ [rabbitmq.Call.dial address,
             rabbitmq.Call.channel w.trace.length, rabbitmq.Call.connClose w.trace.length] })) ∧
    (w.env w.trace (rabbitmq.Call.dial address) = none →
      w.env (w.trace ++ [rabbitmq.Call.dial address])
        (rabbitmq.Call.channel w.trace.length) = none →
      rabbitmq.NewClient address w =
        (Except.ok { address := address, conn := w.trace.length,
                     channel := w.trace.length + 1 },
         { w with trace := w.trace ++ [rabbitmq.Call.dial address,
             rabbitmq.Call.channel w.trace.length] })) ∧
    ((∃ client, (rabbitmq.NewClient address w).1 = Except.ok client) ↔
      (w.env w.trace (rabbitmq.Call.dial address) = none ∧
       w.env (w.trace ++ [rabbitmq.Call.dial address])
         (rabbitmq.Call.channel w.trace.length) = none)) := by
  refine ⟨?_, ?_, ?_, ?_⟩
  · intro err h
    simp [rabbitmq.NewClient, rabbitmq.World.call, h]
  · intro err h1 h2
    simp [rabbitmq.NewClient, rabbitmq.World.call, h1, h2]
  · intro h1 h2
    simp [rabbitmq.NewClient, rabbitmq.World.call, h1, h2]
  · cases h1 : w.env w.trace (rabbitmq.Call.dial address) with
    | some e => simp [rabbitmq.NewClient, rabbitmq.World.call, h1]
    | none =>
      cases h2 : w.env (w.trace ++ [rabbitmq.Call.dial address])
          (rabbitmq.Call.channel w.trace.length) with
      | some e => simp [rabbitmq.NewClient, rabbitmq.World.call, h1, h2]
      | none => simp [rabbitmq.NewClient, rabbitmq.World.call, h1, h2]

theorem newClient_outcomes_witness :
    rabbitmq.NewClient "amqp://broker" rabbitmq.downWorld =
      (Except.error ("failed to connect to RabbitMQ: " ++ "connection refused"),
       { rabbitmq.downWorld with
           trace := rabbitmq.downWorld.trace ++ [rabbitmq.Call.dial "amqp://broker"] }) ∧
    rabbitmq.NewClient "amqp://broker" rabbitmq.channelFails =
      (Except.error ("failed to open channel: " ++ "channel limit reached"),
       { rabbitmq.channelFails with
           trace := rabbitmq.channelFails.trace ++ [rabbitmq.Call.dial "amqp://broker",
             rabbitmq.Call.channel rabbitmq.channelFails.trace.length,
             rabbitmq.Call.connClose rabbitmq.channelFails.trace.length] }) ∧
    rabbitmq.NewClient "amqp://broker" rabbitmq.calmWorld =
      (Except.ok { address := "amqp://broker", conn := rabbitmq.calmWorld.trace.length,
                   channel := rabbitmq.calmWorld.trace.length + 1 },
       { rabbitmq.calmWorld with
           trace := rabbitmq.calmWorld.trace ++ [rabbitmq.Call.dial "amqp://broker",
             rabbitmq.Call.channel rabbitmq.calmWorld.trace.length] }) :=
  ⟨(newClient_outcomes "amqp://broker" rabbitmq.downWorld).1 "connection refused" rfl,
   (newClient_outcomes "amqp://broker" rabbitmq.channelFails).2.1 "channel limit reached"
     rfl rfl,
   (newClient_outcomes "amqp://broker" rabbitmq.calmWorld).2.2.1 rfl rfl⟩

/-- C11 (the code departs from the claim): when `InitProducer` fails at the exchange
declaration or at putting the channel in confirm mode, and when `InitConsumer` fails at
setting QoS, the error is returned after the dial and the opening of the channel with
no `Close` of the dialed connection (connection 0) among the calls made: the
connection stays open. -/
theorem init_failure_leaves_connection_open :
    (errorOf (rabbitmq.InitProducer (rabbitmq.producerConfAt "a") rabbitmq.exchangeFails).1 =
        some "failed to declare exchange: access refused" ∧
      (rabbitmq.InitProducer (rabbitmq.producerConfAt "a") rabbitmq.exchangeFails).2.trace =
        [rabbitmq.Call.dial "amqp://broker", rabbitmq.Call.channel 0,
         rabbitmq.Call.exchangeDeclare 1 "ex-a" "direct" true false false false] ∧
      (rabbitmq.InitProducer (rabbitmq.producerConfAt "a")
        rabbitmq.exchangeFails).2.trace.count (rabbitmq.Call.connClose 0) = 0) ∧
    (errorOf (rabbitmq.InitProducer { rabbitmq.producerConfAt "a" with Confirm := true }
        rabbitmq.confirmFails).1 =
        some "failed to put channel in confirm mode: not supported" ∧
      (rabbitmq.InitProducer { rabbitmq.producerConfAt "a" with Confirm := true }
        rabbitmq.confirmFails).2.trace =
        [rabbitmq.Call.dial "amqp://broker", rabbitmq.Call.channel 0,
         rabbitmq.Call.exchangeDeclare 1 "ex-a" "direct" true false false false,
         rabbitmq.Call.confirm 1 false] ∧
      (rabbitmq.InitProducer { rabbitmq.producerConfAt "a" with Confirm := true }
        rabbitmq.confirmFails).2.trace.count (rabbitmq.Call.connClose 0) = 0) ∧
    (errorOf (rabbitmq.InitConsumer (rabbitmq.consumerConfAt "a") rabbitmq.qosFails :
        Except String (rabbitmq.Consumer Nat) × rabbitmq.ConsumerConf ×
          rabbitmq.World Nat).1 = some "failed to set QoS: qos refused" ∧
      (rabbitmq.InitConsumer (rabbitmq.consumerConfAt "a") rabbitmq.qosFails :
        Except String (rabbitmq.Consumer Nat) × rabbitmq.ConsumerConf ×
          rabbitmq.World Nat).2.2.trace =
        [rabbitmq.Call.dial "amqp://broker", rabbitmq.Call.channel 0,
         rabbitmq.Call.qos 1 1 0 false] ∧
      (rabbitmq.InitConsumer (rabbitmq.consumerConfAt "a") rabbitmq.qosFails :
        Except String (rabbitmq.Consumer Nat) × rabbitmq.ConsumerConf ×
          rabbitmq.World Nat).2.2.trace.count (rabbitmq.Call.connClose 0) = 0) := by
  decide

/-- C12 (the claim fails here): every call of `PublishWithConfirm` registers one more
listener with a buffer of one confirmation and never removes it, and the client
library sends every confirmation to all listeners in order of registration.  On a
channel without listeners the call does what the claim says: the confirm-mode error or
the publish error without waiting, else nil for an `Ack = true`, the not-confirmed
error for an `Ack = false`, the timeout error for no answer.  But of three calls in a
row whose sends succeed and which the broker acknowledges in time, the third returns
"confirmation timeout": its confirmation is stuck behind the listener of the first
call, whose buffer still holds the confirmation of the second. -/
theorem publishWithConfirm_third_ack_times_out :
    (∀ {σ : Type} (c : rabbitmq.Producer) (message : Bytes) (reply : Option Bool)
        (w : rabbitmq.World σ),
      (rabbitmq.PublishWithConfirm c message reply rabbitmq.Confirms.init w).1 =
        (match w.env w.trace (rabbitmq.Call.confirm c.client.channel false) with
         | some err => some ("failed to set confirm mode: " ++ err)
         | none =>
           match w.env (w.trace ++ [rabbitmq.Call.confirm c.client.channel false,
               rabbitmq.Call.notifyPublish c.client.channel 1])
             (rabbitmq.Call.publish c.client.channel c.config.Exchange c.config.RoutingKey
               true false "text/plain" rabbitmq.Persistent message) with
           | some err => some ("failed to publish message: " ++ err)
           | none =>
             match reply with
             | some true => none
             | some false => some "message publish was not confirmed"
             | none => some "confirmation timeout")) ∧
    (∀ (c : rabbitmq.Producer) (m1 m2 m3 : Bytes),
      (rabbitmq.publishAll c [(m1, some true), (m2, some true), (m3, some true)]
        rabbitmq.Confirms.init rabbitmq.calmWorld).1 =
        [none, none, some "confirmation timeout"] ∧
      (rabbitmq.publishAll c [(m1, some true), (m2, some true), (m3, some true)]
        rabbitmq.Confirms.init rabbitmq.calmWorld).2.1 =
        { listeners := [some true, none, none], blocked := true }) ∧
    (rabbitmq.publishAll rabbitmq.sampleProducer
        [([104, 105], some true), ([104, 105], some true)]
        rabbitmq.Confirms.init rabbitmq.calmWorld).2.1 =
      { listeners := [some true, none], blocked := false } := by
  refine ⟨?_, ?_, by decide⟩
  · intro σ c message reply w
    cases h1 : w.env w.trace (rabbitmq.Call.confirm c.client.channel false) with
    | some e => simp [rabbitmq.PublishWithConfirm, rabbitmq.World.call, h1]
    | none =>
      cases h2 : w.env (w.trace ++ [rabbitmq.Call.confirm c.client.channel false,
          rabbitmq.Call.notifyPublish c.client.channel 1])
        (rabbitmq.Call.publish c.client.channel c.config.Exchange c.config.RoutingKey
          true false "text/plain" rabbitmq.Persistent message) with
      | some e =>
        simp [rabbitmq.PublishWithConfirm, rabbitmq.World.call, rabbitmq.World.emit, h1, h2]
      | none =>
        rcases reply with _ | ack
        · simp [rabbitmq.PublishWithConfirm, rabbitmq.World.call, rabbitmq.World.emit, h1, h2,
            rabbitmq.Confirms.init, rabbitmq.Confirms.Listen, rabbitmq.Confirms.receive]
        · cases ack <;>
            simp [rabbitmq.PublishWithConfirm, rabbitmq.World.call, rabbitmq.World.emit,
              h1, h2, rabbitmq.Confirms.init, rabbitmq.Confirms.Listen,
              rabbitmq.Confirms.receive, rabbitmq.Confirms.confirm, rabbitmq.Confirms.send]
  · intro c m1 m2 m3
    exact ⟨rfl, rfl⟩

/-- C13 (the claim fails here): the writer that the Kafka `InitProducer` builds has
`MaxAttempts = DefaultRetryCount`, a limit of 3 delivery attempts per message, not of
a single one. -/
theorem kafka_writer_allows_three_attempts :
    (kafka.InitProducer (kafka.producerConf "a") kafka.calmWorld).1.toOption.map
        (fun p => p.writer.attemptLimit) = some 3 ∧
    (kafka.InitProducer (kafka.producerConf "a") kafka.calmWorld).1.toOption.map
        (fun p => decide (p.writer.attemptLimit ≤ 1)) = some false := by
  decide

/-- C13 (amended): every `Producer.Publish` call makes exactly one call of the client
library with exactly the given payload and returns the outcome of that call: the
RabbitMQ producer calls `channel.Publish` once, the Kafka producer calls
`writer.WriteMessages` once with one message; neither function retries.  The writer
that the Kafka `InitProducer` builds is configured with
`MaxAttempts = DefaultRetryCount = 3`. -/
theorem publish_makes_one_library_call :
    (∀ {σ : Type} (c : rabbitmq.Producer) (message : Bytes) (w : rabbitmq.World σ),
      rabbitmq.Publish c message w =
        (w.env w.trace (rabbitmq.Call.publish c.client.channel c.config.Exchange
            c.config.RoutingKey false false "text/plain" rabbitmq.Persistent message),
         { w with trace := w.trace ++ [rabbitmq.Call.publish c.client.channel
             c.config.Exchange c.config.RoutingKey false false "text/plain"
             rabbitmq.Persistent message] })) ∧
    (∀ {σ : Type} (p : kafka.Producer) (message : Bytes) (w : kafka.World σ),
      kafka.Publish p message w =
        (w.env w.trace (kafka.Call.writeMessages p.writer.Addr p.writer.Topic message),
         { w with trace := w.trace ++
             [kafka.Call.writeMessages p.writer.Addr p.writer.Topic message] })) ∧
    (∀ {σ : Type} (conf : kafka.ProducerConf) (w w1 : kafka.World σ) (p : kafka.Producer),
      kafka.InitProducer conf w = (Except.ok p, w1) →
        p.writer.MaxAttempts = kafka.DefaultRetryCount ∧ p.writer.attemptLimit = 3 ∧
        p.writer.Addr = conf.Brokers ∧ p.writer.Topic = conf.Topic) := by
  refine ⟨fun c message w => rfl, fun p message w => rfl, ?_⟩
  intro σ conf w w1 p h
  simp only [kafka.InitProducer, kafka.NewClient, Prod.mk.injEq, Except.ok.injEq] at h
  obtain ⟨rfl, _⟩ := h
  exact ⟨rfl, rfl, rfl, rfl⟩

theorem publish_makes_one_library_call_witness :
    ({ client := { brokers := [] }, config := kafka.producerConf "a",
       writer := { Addr := [], Topic := "t-a", Async := false,
                   RequiredAcks := kafka.RequireAll,
                   MaxAttempts := kafka.DefaultRetryCount } } : kafka.Producer).writer.MaxAttempts
        = kafka.DefaultRetryCount ∧
    ({ client := { brokers := [] }, config := kafka.producerConf "a",
       writer := { Addr := [], Topic := "t-a", Async := false,
                   RequiredAcks := kafka.RequireAll,
                   MaxAttempts := kafka.DefaultRetryCount } } : kafka.Producer).writer.attemptLimit
        = 3 ∧
    ({ client := { brokers := [] }, config := kafka.producerConf "a",
       writer := { Addr := [], Topic := "t-a", Async := false,
                   RequiredAcks := kafka.RequireAll,
                   MaxAttempts := kafka.DefaultRetryCount } } : kafka.Producer).writer.Addr
        = (kafka.producerConf "a").Brokers ∧
    ({ client := { brokers := [] }, config := kafka.producerConf "a",
       writer := { Addr := [], Topic := "t-a", Async := false,
                   RequiredAcks := kafka.RequireAll,
                   MaxAttempts := kafka.DefaultRetryCount } } : kafka.Producer).writer.Topic
        = (kafka.producerConf "a").Topic :=
  publish_makes_one_library_call.2.2 (kafka.producerConf "a") kafka.calmWorld
    kafka.calmWorld _ rfl

/-- C14 (the code departs from the claim): the RabbitMQ `Consumer.Stop` only closes the
channel `done`; it makes no call at all, so the connection and the AMQP channel of
the consumer are not closed when it returns.  The Kafka `Consumer.Stop` cancels the
context, closes `done` and closes the reader. -/
theorem rabbitmq_stop_leaves_connection_open :
    (∀ {σ : Type} (c : rabbitmq.Consumer σ) (w : rabbitmq.World σ),
      (rabbitmq.Stop c w).world = w) ∧
    ((rabbitmq.Stop (rabbitmq.sampleConsumer 3 2 0) rabbitmq.calmWorld).panicked = false ∧
      (rabbitmq.Stop (rabbitmq.sampleConsumer 3 2 0) rabbitmq.calmWorld).consumer.done = true ∧
      (rabbitmq.Stop (rabbitmq.sampleConsumer 3 2 0) rabbitmq.calmWorld).world.trace = [] ∧
      (rabbitmq.Stop (rabbitmq.sampleConsumer 3 2 0) rabbitmq.calmWorld).world.trace.count
        (rabbitmq.Call.connClose 0) = 0 ∧
      (rabbitmq.Stop (rabbitmq.sampleConsumer 3 2 0) rabbitmq.calmWorld).world.trace.count
        (rabbitmq.Call.channelClose 1) = 0) ∧
    ((kafka.Stop (kafka.sampleConsumer 3 2 0) kafka.calmWorld).panicked = false ∧
      (kafka.Stop (kafka.sampleConsumer 3 2 0) kafka.calmWorld).consumer.done = true ∧
      (kafka.Stop (kafka.sampleConsumer 3 2 0) kafka.calmWorld).world.trace =
        [kafka.Call.cancel 1, kafka.Call.readerClose 0]) := by
  refine ⟨?_, by decide, by decide⟩
  intro σ c w
  unfold rabbitmq.Stop
  split <;> rfl

theorem wrap64_seconds (d : Int) (h1 : -9223372036 ≤ d) (h2 : d ≤ 9223372036) :
    wrap64 (d * Second) = d * Second := by
  simp only [wrap64, Second]
  omega

theorem attempts_eq_range' (N : Nat) :
    attempts (N : Int) = (List.range' 0 (N + 1)).map Int.ofNat := by
  have h : ((N : Int) + 1).toNat = N + 1 := by omega
  simp only [attempts, h, List.range_eq_range']

theorem intersperse_replicate_succ {α : Type} (sep x : α) (m : Nat) :
    List.intersperse sep (List.replicate (m + 2) x) =
      x :: sep :: List.intersperse sep (List.replicate (m + 1) x) := by
  simp [List.replicate_succ, List.intersperse]

namespace rabbitmq

theorem attemptsAndSleeps_handler (body : Bytes) (l : List Call) :
    attemptsAndSleeps (Call.handler body :: l) = Call.handler body :: attemptsAndSleeps l :=
  rfl

theorem attemptsAndSleeps_sleep (d : Int) (l : List Call) :
    attemptsAndSleeps (Call.sleep d :: l) = Call.sleep d :: attemptsAndSleeps l :=
  rfl

theorem processAttempts_failing_trace {σ : Type} (c : Consumer σ) (h : Handler σ)
    (msg : Delivery) (N : Nat) (hN : c.config.RetryCount = (N : Int)) :
    ∀ (m a : Nat) (e0 : Option String) (w : World σ), a + m = N + 1 →
      (∀ i, i < m → (h msg.Body (handlerState h msg.Body i w.hstate)).1 ≠ none) →
      ∃ calls, (processAttempts c h msg ((List.range' a m).map Int.ofNat) e0 w).2.trace =
          w.trace ++ calls ∧
        sleeps calls =
          List.replicate (m - 1) (wrap64 (c.config.RetryDelay * Second)) ∧
        attemptsAndSleeps calls =
          List.intersperse (Call.sleep (wrap64 (c.config.RetryDelay * Second)))
            (List.replicate m (Call.handler msg.Body)) := by
  intro m
  induction m with
  | zero =>
    intro a e0 w _ _
    by_cases hA : c.config.AutoAck = true
    · exact ⟨[], by simp [processAttempts, hA], rfl, rfl⟩
    · exact ⟨[Call.nack msg.DeliveryTag false true],
        by simp [processAttempts, World.call, hA], rfl, rfl⟩
  | succ m ih =>
    intro a e0 w ha hfail
    have h0 := hfail 0 (Nat.succ_pos m)
    simp only [handlerState] at h0
    obtain ⟨e, he⟩ : ∃ e, (h msg.Body w.hstate).1 = some e := by
      cases hh : (h msg.Body w.hstate).1 with
      | none => exact absurd hh h0
      | some e => exact ⟨e, rfl⟩
    simp only [List.range'_succ, List.map_cons]
    by_cases hm : m = 0
    · subst hm
      have hlt : ¬ ((a : Int) < c.config.RetryCount) := by
        rw [hN]; omega
      by_cases hA : c.config.AutoAck = true
      · refine ⟨[Call.handler msg.Body], ?_, rfl, rfl⟩
        simp [processAttempts, World.invoke, he, hlt, hA]
      · refine ⟨[Call.handler msg.Body, Call.nack msg.DeliveryTag false true], ?_, rfl, rfl⟩
        simp [processAttempts, World.invoke, World.call, he, hlt, hA]
    · have hlt : (a : Int) < c.config.RetryCount := by
        rw [hN]; omega
      obtain ⟨calls, htr, hs, hf⟩ := ih (a + 1) (some e)
        (({ w with hstate := (h msg.Body w.hstate).2,
                   trace := w.trace ++ [Call.handler msg.Body] } : World σ).emit
          (Call.sleep (wrap64 (c.config.RetryDelay * Second)))) (by omega)
        (fun i hi => hfail (i + 1) (Nat.succ_lt_succ hi))
      refine ⟨Call.handler msg.Body :: Call.sleep (wrap64 (c.config.RetryDelay * Second)) ::
        calls, ?_, ?_, ?_⟩
      · simp only [World.emit, List.append_assoc, List.singleton_append] at htr
        simp only [processAttempts, World.invoke, he, World.emit,
          List.append_assoc, List.singleton_append, List.cons_append, List.nil_append]
        rw [if_pos (show Int.ofNat a < c.config.RetryCount from hlt)]
        exact htr
      · obtain ⟨m1, rfl⟩ : ∃ m1, m = m1 + 1 := ⟨m - 1, by omega⟩
        simp only [sleeps, hs, Nat.add_sub_cancel]
        rfl
      · obtain ⟨m1, rfl⟩ : ∃ m1, m = m1 + 1 := ⟨m - 1, by omega⟩
        rw [intersperse_replicate_succ, attemptsAndSleeps_handler, attemptsAndSleeps_sleep, hf]

theorem processAttempts_succeeding_trace {σ : Type} (c : Consumer σ) (h : Handler σ)
    (msg : Delivery) (N : Nat) (hN : c.config.RetryCount = (N : Int)) :
    ∀ (k m a : Nat) (e0 : Option String) (w : World σ), a + m = N + 1 → k < m →
      (∀ i, i < k → (h msg.Body (handlerState h msg.Body i w.hstate)).1 ≠ none) →
      (h msg.Body (handlerState h msg.Body k w.hstate)).1 = none →
      ∃ calls, (processAttempts c h msg ((List.range' a m).map Int.ofNat) e0 w).2.trace =
          w.trace ++ calls ∧
        sleeps calls = List.replicate k (wrap64 (c.config.RetryDelay * Second)) ∧
        attemptsAndSleeps calls =
          List.intersperse (Call.sleep (wrap64 (c.config.RetryDelay * Second)))
            (List.replicate (k + 1) (Call.handler msg.Body)) := by
  intro k
  induction k with
  | zero =>
    intro m a e0 w _ hm _ hok
    obtain ⟨m1, rfl⟩ : ∃ m1, m = m1 + 1 := ⟨m - 1, by omega⟩
    simp only [handlerState] at hok
    simp only [List.range'_succ, List.map_cons]
    by_cases hA : c.config.AutoAck = true
    · refine ⟨[Call.handler msg.Body], ?_, rfl, rfl⟩
      simp [processAttempts, World.invoke, hok, hA]
    · refine ⟨[Call.handler msg.Body, Call.ack msg.DeliveryTag false], ?_, rfl, rfl⟩
      simp [processAttempts, World.invoke, World.call, hok, hA]
  | succ k ih =>
    intro m a e0 w ha hm hfail hok
    obtain ⟨m1, rfl⟩ : ∃ m1, m = m1 + 1 := ⟨m - 1, by omega⟩
    have h0 := hfail 0 (Nat.succ_pos k)
    simp only [handlerState] at h0
    obtain ⟨e, he⟩ : ∃ e, (h msg.Body w.hstate).1 = some e := by
      cases hh : (h msg.Body w.hstate).1 with
      | none => exact absurd hh h0
      | some e => exact ⟨e, rfl⟩
    have hlt : (a : Int) < c.config.RetryCount := by
      rw [hN]; omega
    obtain ⟨calls, htr, hs, hf⟩ := ih m1 (a + 1) (some e)
      (({ w with hstate := (h msg.Body w.hstate).2,
                 trace := w.trace ++ [Call.handler msg.Body] } : World σ).emit
        (Call.sleep (wrap64 (c.config.RetryDelay * Second)))) (by omega) (by omega)
      (fun i hi => hfail (i + 1) (Nat.succ_lt_succ hi)) hok
    refine ⟨Call.handler msg.Body :: Call.sleep (wrap64 (c.config.RetryDelay * Second)) ::
      calls, ?_, ?_, ?_⟩
    · simp only [World.emit, List.append_assoc, List.singleton_append] at htr
      simp only [List.range'_succ, List.map_cons, processAttempts, World.invoke, he, World.emit,
        List.append_assoc, List.singleton_append, List.cons_append, List.nil_append]
      rw [if_pos (show Int.ofNat a < c.config.RetryCount from hlt)]
      exact htr
    · simp only [sleeps, hs]
      rfl
    · rw [intersperse_replicate_succ, attemptsAndSleeps_handler, attemptsAndSleeps_sleep, hf]

end rabbitmq

namespace kafka

theorem attemptsAndSleeps_handler_kafka (body : Bytes) (l : List Call) :
    attemptsAndSleeps (Call.handler body :: l) = Call.handler body :: attemptsAndSleeps l :=
  rfl

theorem attemptsAndSleeps_sleep_kafka (d : Int) (l : List Call) :
    attemptsAndSleeps (Call.sleep d :: l) = Call.sleep d :: attemptsAndSleeps l :=
  rfl

theorem processAttempts_failing_trace_kafka {σ : Type} (c : Consumer σ) (h : Handler σ)
    (msg : Message) (N : Nat) (hN : c.config.RetryCount = (N : Int)) :
    ∀ (m a : Nat) (e0 : Option String) (w : World σ), a + m = N + 1 →
      (∀ i, i < m → (h msg.Value (handlerState h msg.Value i w.hstate)).1 ≠ none) →
      ∃ calls, (processAttempts c h msg ((List.range' a m).map Int.ofNat) e0 w).2.trace =
          w.trace ++ calls ∧
        sleeps calls =
          List.replicate (m - 1) (wrap64 (c.config.RetryDelay * Second)) ∧
        attemptsAndSleeps calls =
          List.intersperse (Call.sleep (wrap64 (c.config.RetryDelay * Second)))
            (List.replicate m (Call.handler msg.Value)) := by
  intro m
  induction m with
  | zero =>
    intro a e0 w _ _
    exact ⟨[], by simp [processAttempts], rfl, rfl⟩
  | succ m ih =>
    intro a e0 w ha hfail
    have h0 := hfail 0 (Nat.succ_pos m)
    simp only [handlerState] at h0
    obtain ⟨e, he⟩ : ∃ e, (h msg.Value w.hstate).1 = some e := by
      cases hh : (h msg.Value w.hstate).1 with
      | none => exact absurd hh h0
      | some e => exact ⟨e, rfl⟩
    simp only [List.range'_succ, List.map_cons]
    by_cases hm : m = 0
    · subst hm
      have hlt : ¬ ((a : Int) < c.config.RetryCount) := by
        rw [hN]; omega
      refine ⟨[Call.handler msg.Value], ?_, rfl, rfl⟩
      simp [processAttempts, World.invoke, he, hlt]
    · have hlt : (a : Int) < c.config.RetryCount := by
        rw [hN]; omega
      obtain ⟨calls, htr, hs, hf⟩ := ih (a + 1) (some e)
        (({ w with hstate := (h msg.Value w.hstate).2,
                   trace := w.trace ++ [Call.handler msg.Value] } : World σ).emit
          (Call.sleep (wrap64 (c.config.RetryDelay * Second)))) (by omega)
        (fun i hi => hfail (i + 1) (Nat.succ_lt_succ hi))
      refine ⟨Call.handler msg.Value :: Call.sleep (wrap64 (c.config.RetryDelay * Second)) ::
        calls, ?_, ?_, ?_⟩
      · simp only [World.emit, List.append_assoc, List.singleton_append] at htr
        simp only [processAttempts, World.invoke, he, World.emit,
          List.append_assoc, List.singleton_append, List.cons_append, List.nil_append]
        rw [if_pos (show Int.ofNat a < c.config.RetryCount from hlt)]
        exact htr
      · obtain ⟨m1, rfl⟩ : ∃ m1, m = m1 + 1 := ⟨m - 1, by omega⟩
        simp only [sleeps, hs, Nat.add_sub_cancel]
        rfl
      · obtain ⟨m1, rfl⟩ : ∃ m1, m = m1 + 1 := ⟨m - 1, by omega⟩
        rw [intersperse_replicate_succ, attemptsAndSleeps_handler_kafka,
          attemptsAndSleeps_sleep_kafka, hf]

theorem processAttempts_succeeding_trace_kafka {σ : Type} (c : Consumer σ) (h : Handler σ)
    (msg : Message) (N : Nat) (hN : c.config.RetryCount = (N : Int)) :
    ∀ (k m a : Nat) (e0 : Option String) (w : World σ), a + m = N + 1 → k < m →
      (∀ i, i < k → (h msg.Value (handlerState h msg.Value i w.hstate)).1 ≠ none) →
      (h msg.Value (handlerState h msg.Value k w.hstate)).1 = none →
      ∃ calls, (processAttempts c h msg ((List.range' a m).map Int.ofNat) e0 w).2.trace =
          w.trace ++ calls ∧
        sleeps calls = List.replicate k (wrap64 (c.config.RetryDelay * Second)) ∧
        attemptsAndSleeps calls =
          List.intersperse (Call.sleep (wrap64 (c.config.RetryDelay * Second)))
            (List.replicate (k + 1) (Call.handler msg.Value)) := by
  intro k
  induction k with
  | zero =>
    intro m a e0 w _ hm _ hok
    obtain ⟨m1, rfl⟩ : ∃ m1, m = m1 + 1 := ⟨m - 1, by omega⟩
    simp only [handlerState] at hok
    simp only [List.range'_succ, List.map_cons]
    by_cases hA : c.config.AutoCommit = true
    · refine ⟨[Call.handler msg.Value], ?_, rfl, rfl⟩
      simp [processAttempts, World.invoke, hok, hA]
    · refine ⟨[Call.handler msg.Value, Call.commitMessages c.reader c.ctx msg], ?_, rfl, rfl⟩
      simp only [processAttempts, World.invoke, World.call, hok, hA]
      cases w.env (w.trace ++ [Call.handler msg.Value])
        (Call.commitMessages c.reader c.ctx msg) <;> simp
  | succ k ih =>
    intro m a e0 w ha hm hfail hok
    obtain ⟨m1, rfl⟩ : ∃ m1, m = m1 + 1 := ⟨m - 1, by omega⟩
    have h0 := hfail 0 (Nat.succ_pos k)
    simp only [handlerState] at h0
    obtain ⟨e, he⟩ : ∃ e, (h msg.Value w.hstate).1 = some e := by
      cases hh : (h msg.Value w.hstate).1 with
      | none => exact absurd hh h0
      | some e => exact ⟨e, rfl⟩
    have hlt : (a : Int) < c.config.RetryCount := by
      rw [hN]; omega
    obtain ⟨calls, htr, hs, hf⟩ := ih m1 (a + 1) (some e)
      (({ w with hstate := (h msg.Value w.hstate).2,
                 trace := w.trace ++ [Call.handler msg.Value] } : World σ).emit
        (Call.sleep (wrap64 (c.config.RetryDelay * Second)))) (by omega) (by omega)
      (fun i hi => hfail (i + 1) (Nat.succ_lt_succ hi)) hok
    refine ⟨Call.handler msg.Value :: Call.sleep (wrap64 (c.config.RetryDelay * Second)) ::
      calls, ?_, ?_, ?_⟩
    · simp only [World.emit, List.append_assoc, List.singleton_append] at htr
      simp only [List.range'_succ, List.map_cons, processAttempts, World.invoke, he, World.emit,
        List.append_assoc, List.singleton_append, List.cons_append, List.nil_append]
      rw [if_pos (show Int.ofNat a < c.config.RetryCount from hlt)]
      exact htr
    · simp only [sleeps, hs]
      rfl
    · rw [intersperse_replicate_succ, attemptsAndSleeps_handler_kafka,
        attemptsAndSleeps_sleep_kafka, hf]

end kafka

/-- C15 (the claim fails here): with `RetryDelay = 9223372037` the product
`time.Duration(RetryDelay) * time.Second` wraps around in 64 bits, and the sleep
between two attempts is made with a negative duration, not with 9223372037 seconds
(RabbitMQ and Kafka). -/
theorem retry_sleep_wraps_for_large_delay :
    (rabbitmq.processMessage (rabbitmq.sampleConsumer 1 9223372037 2)
        rabbitmq.sampleDelivery rabbitmq.calmWorld).map (fun r => rabbitmq.sleeps r.2.trace) =
      some [-9223372036709551616] ∧
    (kafka.processMessage (kafka.sampleConsumer 1 9223372037 2)
        kafka.sampleMessage kafka.calmWorld).map (fun r => kafka.sleeps r.2.trace) =
      some [-9223372036709551616] ∧
    (-9223372036709551616 : Int) ≠ 9223372037 * Second := by
  decide

/-- C15 (amended): for every retry count `N` and every `RetryDelay` `d` whose seconds
fit a `time.Duration` (`|d| ≤ 9223372036`): with a handler that fails on every
invocation `processMessage` makes exactly `N` sleep calls, each of exactly `d` seconds,
one between each pair of consecutive handler attempts and none after the last; when
the handler succeeds on attempt `k + 1` (`k ≤ N`) it makes exactly `k` such sleep
calls, again one between consecutive attempts (RabbitMQ and Kafka). -/
theorem retry_sleeps_are_constant (N : Nat) (d : Int) (hlo : -9223372036 ≤ d)
    (hhi : d ≤ 9223372036) :
    (∀ {σ : Type} (c : rabbitmq.Consumer σ) (h : Handler σ) (msg : rabbitmq.Delivery)
        (w : rabbitmq.World σ),
        c.handler = some h → c.config.RetryCount = (N : Int) → c.config.RetryDelay = d →
        ((∀ i, i ≤ N → (h msg.Body (handlerState h msg.Body i w.hstate)).1 ≠ none) →
          ∃ err w1 calls, rabbitmq.processMessage c msg w = some (err, w1) ∧
            w1.trace = w.trace ++ calls ∧
            rabbitmq.sleeps calls = List.replicate N (d * Second) ∧
            rabbitmq.attemptsAndSleeps calls =
              List.intersperse (rabbitmq.Call.sleep (d * Second))
                (List.replicate (N + 1) (rabbitmq.Call.handler msg.Body))) ∧
        (∀ k, k ≤ N →
          (∀ i, i < k → (h msg.Body (handlerState h msg.Body i w.hstate)).1 ≠ none) →
          (h msg.Body (handlerState h msg.Body k w.hstate)).1 = none →
          ∃ err w1 calls, rabbitmq.processMessage c msg w = some (err, w1) ∧
            w1.trace = w.trace ++ calls ∧
            rabbitmq.sleeps calls = List.replicate k (d * Second) ∧
            rabbitmq.attemptsAndSleeps calls =
              List.intersperse (rabbitmq.Call.sleep (d * Second))
                (List.replicate (k + 1) (rabbitmq.Call.handler msg.Body)))) ∧
    (∀ {σ : Type} (c : kafka.Consumer σ) (h : Handler σ) (msg : kafka.Message)
        (w : kafka.World σ),
        c.handler = some h → c.config.RetryCount = (N : Int) → c.config.RetryDelay = d →
        ((∀ i, i ≤ N → (h msg.Value (handlerState h msg.Value i w.hstate)).1 ≠ none) →
          ∃ err w1 calls, kafka.processMessage c msg w = some (err, w1) ∧
            w1.trace = w.trace ++ calls ∧
            kafka.sleeps calls = List.replicate N (d * Second) ∧
            kafka.attemptsAndSleeps calls =
              List.intersperse (kafka.Call.sleep (d * Second))
                (List.replicate (N + 1) (kafka.Call.handler msg.Value))) ∧
        (∀ k, k ≤ N →
          (∀ i, i < k → (h msg.Value (handlerState h msg.Value i w.hstate)).1 ≠ none) →
          (h msg.Value (handlerState h msg.Value k w.hstate)).1 = none →
          ∃ err w1 calls, kafka.processMessage c msg w = some (err, w1) ∧
            w1.trace = w.trace ++ calls ∧
            kafka.sleeps calls = List.replicate k (d * Second) ∧
            kafka.attemptsAndSleeps calls =
              List.intersperse (kafka.Call.sleep (d * Second))
                (List.replicate (k + 1) (kafka.Call.handler msg.Value)))) := by
  constructor
  · intro σ c h msg w hh hN hd
    have hD : wrap64 (c.config.RetryDelay * Second) = d * Second := by
      rw [hd]; exact wrap64_seconds d hlo hhi
    constructor
    · intro hfail
      obtain ⟨calls, htr, hs, hf⟩ :=
        rabbitmq.processAttempts_failing_trace c h msg N hN (N + 1) 0 none w (by omega)
          (fun i hi => hfail i (by omega))
      rw [hD] at hs hf
      refine ⟨(rabbitmq.processAttempts c h msg ((List.range' 0 (N + 1)).map Int.ofNat) none w).1,
        (rabbitmq.processAttempts c h msg ((List.range' 0 (N + 1)).map Int.ofNat) none w).2,
        calls, ?_, htr, hs, hf⟩
      simp only [rabbitmq.processMessage, hh, hN, attempts_eq_range']
    · intro k hk hfail hok
      obtain ⟨calls, htr, hs, hf⟩ :=
        rabbitmq.processAttempts_succeeding_trace c h msg N hN k (N + 1) 0 none w
          (by omega) (by omega) hfail hok
      rw [hD] at hs hf
      refine ⟨(rabbitmq.processAttempts c h msg ((List.range' 0 (N + 1)).map Int.ofNat) none w).1,
        (rabbitmq.processAttempts c h msg ((List.range' 0 (N + 1)).map Int.ofNat) none w).2,
        calls, ?_, htr, hs, hf⟩
      simp only [rabbitmq.processMessage, hh, hN, attempts_eq_range']
  · intro σ c h msg w hh hN hd
    have hD : wrap64 (c.config.RetryDelay * Second) = d * Second := by
      rw [hd]; exact wrap64_seconds d hlo hhi
    constructor
    · intro hfail
      obtain ⟨calls, htr, hs, hf⟩ :=
        kafka.processAttempts_failing_trace_kafka c h msg N hN (N + 1) 0 none w (by omega)
          (fun i hi => hfail i (by omega))
      rw [hD] at hs hf
      refine ⟨(kafka.processAttempts c h msg ((List.range' 0 (N + 1)).map Int.ofNat) none w).1,
        (kafka.processAttempts c h msg ((List.range' 0 (N + 1)).map Int.ofNat) none w).2,
        calls, ?_, htr, hs, hf⟩
      simp only [kafka.processMessage, hh, hN, attempts_eq_range']
    · intro k hk hfail hok
      obtain ⟨calls, htr, hs, hf⟩ :=
        kafka.processAttempts_succeeding_trace_kafka c h msg N hN k (N + 1) 0 none w
          (by omega) (by omega) hfail hok
      rw [hD] at hs hf
      refine ⟨(kafka.processAttempts c h msg ((List.range' 0 (N + 1)).map Int.ofNat) none w).1,
        (kafka.processAttempts c h msg ((List.range' 0 (N + 1)).map Int.ofNat) none w).2,
        calls, ?_, htr, hs, hf⟩
      simp only [kafka.processMessage, hh, hN, attempts_eq_range']

theorem retry_sleeps_are_constant_witness :
    (∃ err w1 calls,
        rabbitmq.processMessage (rabbitmq.sampleConsumer 2 1 3) rabbitmq.sampleDelivery rabbitmq.calmWorld = some (err, w1) ∧
        w1.trace = rabbitmq.calmWorld.trace ++ calls ∧
        rabbitmq.sleeps calls = List.replicate 2 (1 * Second) ∧
        rabbitmq.attemptsAndSleeps calls =
          List.intersperse (rabbitmq.Call.sleep (1 * Second))
            (List.replicate (2 + 1) (rabbitmq.Call.handler rabbitmq.sampleDelivery.Body))) ∧
    (∃ err w1 calls,
        rabbitmq.processMessage (rabbitmq.sampleConsumer 2 1 1) rabbitmq.sampleDelivery rabbitmq.calmWorld = some (err, w1) ∧
        w1.trace = rabbitmq.calmWorld.trace ++ calls ∧
        rabbitmq.sleeps calls = List.replicate 1 (1 * Second) ∧
        rabbitmq.attemptsAndSleeps calls =
          List.intersperse (rabbitmq.Call.sleep (1 * Second))
            (List.replicate (1 + 1) (rabbitmq.Call.handler rabbitmq.sampleDelivery.Body))) ∧
    (∃ err w1 calls,
        kafka.processMessage (kafka.sampleConsumer 2 1 3) kafka.sampleMessage kafka.calmWorld = some (err, w1) ∧
        w1.trace = kafka.calmWorld.trace ++ calls ∧
        kafka.sleeps calls = List.replicate 2 (1 * Second) ∧
        kafka.attemptsAndSleeps calls =
          List.intersperse (kafka.Call.sleep (1 * Second))
            (List.replicate (2 + 1) (kafka.Call.handler kafka.sampleMessage.Value))) ∧
    (∃ err w1 calls,
        kafka.processMessage (kafka.sampleConsumer 2 1 1) kafka.sampleMessage kafka.calmWorld = some (err, w1) ∧
        w1.trace = kafka.calmWorld.trace ++ calls ∧
        kafka.sleeps calls = List.replicate 1 (1 * Second) ∧
        kafka.attemptsAndSleeps calls =
          List.intersperse (kafka.Call.sleep (1 * Second))
            (List.replicate (1 + 1) (kafka.Call.handler kafka.sampleMessage.Value))) :=
  ⟨((retry_sleeps_are_constant 2 1 (by decide) (by decide)).1
      (rabbitmq.sampleConsumer 2 1 3) (failFirst 3) rabbitmq.sampleDelivery
      rabbitmq.calmWorld rfl rfl rfl).1 (by decide),
   ((retry_sleeps_are_constant 2 1 (by decide) (by decide)).1
      (rabbitmq.sampleConsumer 2 1 1) (failFirst 1) rabbitmq.sampleDelivery
      rabbitmq.calmWorld rfl rfl rfl).2 1 (by decide) (by decide) (by decide),
   ((retry_sleeps_are_constant 2 1 (by decide) (by decide)).2
      (kafka.sampleConsumer 2 1 3) (failFirst 3) kafka.sampleMessage
      kafka.calmWorld rfl rfl rfl).1 (by decide),
   ((retry_sleeps_are_constant 2 1 (by decide) (by decide)).2
      (kafka.sampleConsumer 2 1 1) (failFirst 1) kafka.sampleMessage
      kafka.calmWorld rfl rfl rfl).2 1 (by decide) (by decide) (by decide)⟩

namespace rabbitmq

theorem reconnectLoop_keeps {σ : Type} :
    ∀ (n : Nat) (c : Consumer σ) (b : Int) (w : World σ),
      (reconnectLoop n c b w).2.1.closeErr = c.closeErr ∧
      (reconnectLoop n c b w).2.1.config = c.config ∧
      (reconnectLoop n c b w).2.1.client.address = c.client.address ∧
      (reconnectLoop n c b w).2.1.reconnecting = c.reconnecting := by
  intro n
  induction n with
  | zero => intro c b w; exact ⟨rfl, rfl, rfl, rfl⟩
  | succ n ih =>
    intro c b w
    simp only [reconnectLoop]
    cases hN : NewClient c.client.address (w.emit (Call.sleep b)) with
    | mk res w2 =>
      cases res with
      | error e => exact ih _ _ _
      | ok newClient =>
        simp only
        cases hC : consume
          ({ c with client := { c.client with conn := newClient.conn,
                                              channel := newClient.channel } } : Consumer σ)
          (w2.emit (Call.notifyClose newClient.conn c.closeErr)) with
        | mk e w4 =>
          cases e with
          | some e => exact ih _ _ _
          | none => exact ⟨rfl, rfl, rfl, rfl⟩

theorem reconnectLoop_done_split {σ : Type} :
    ∀ (fuel : Nat) (c : Consumer σ) (b : Int) (w : World σ) (c2 : Consumer σ) (b2 : Int)
      (w2 : World σ), reconnectLoop fuel c b w = (true, c2, b2, w2) →
      ∃ n c1 b1 w1, n < fuel ∧ reconnectLoop n c b w = (false, c1, b1, w1) ∧
        reconnectLoop 1 c1 b1 w1 = (true, c2, b2, w2) := by
  intro fuel
  induction fuel with
  | zero => intro c b w c2 b2 w2 h; simp [reconnectLoop] at h
  | succ fuel ih =>
    intro c b w c2 b2 w2 h
    rw [reconnectLoop_cons] at h
    by_cases h1 : (reconnectLoop 1 c b w).1 = true
    · rw [if_pos h1] at h
      exact ⟨0, c, b, w, Nat.succ_pos _, rfl, h⟩
    · rw [if_neg h1] at h
      obtain ⟨n, c1, b1, w1, hn, hf, hs⟩ := ih _ _ _ _ _ _ h
      refine ⟨n + 1, c1, b1, w1, Nat.succ_lt_succ hn, ?_, hs⟩
      rw [reconnectLoop_cons, if_neg h1]
      exact hf

theorem reconnectLoop_stable {σ : Type} :
    ∀ (n m : Nat) (c : Consumer σ) (b : Int) (w : World σ),
      (reconnectLoop n c b w).1 = true →
      reconnectLoop (n + m) c b w = reconnectLoop n c b w := by
  intro n
  induction n with
  | zero => intro m c b w h; simp [reconnectLoop] at h
  | succ n ih =>
    intro m c b w h
    have e : n + 1 + m = (n + m) + 1 := by omega
    rw [e, reconnectLoop_cons (n + m) c b w, reconnectLoop_cons n c b w]
    rw [reconnectLoop_cons n c b w] at h
    by_cases h1 : (reconnectLoop 1 c b w).1 = true
    · rw [if_pos h1, if_pos h1]
    · rw [if_neg h1] at h
      rw [if_neg h1, if_neg h1]
      exact ih m _ _ _ h

theorem consume_success {σ : Type} (c : Consumer σ) (w w2 : World σ)
    (h : consume c w = (none, w2)) :
    w.env w.trace (Call.consume c.client.channel c.config.Queue "" c.config.AutoAck
      false false false) = none ∧
    w2.trace = w.trace ++
      [Call.consume c.client.channel c.config.Queue "" c.config.AutoAck false false false,
       Call.goReceive c.client.channel] := by
  unfold consume at h
  simp only [World.call, World.emit] at h
  cases hE : w.env w.trace
      (Call.consume c.client.channel c.config.Queue "" c.config.AutoAck false false false) with
  | some err => rw [hE] at h; simp at h
  | none =>
    rw [hE] at h
    simp only [Prod.mk.injEq, true_and] at h
    subst h
    exact ⟨rfl, by simp⟩

theorem reconnectLoop_one_success {σ : Type} (c1 c2 : Consumer σ) (b1 b2 : Int)
    (w1 w2 : World σ) (h : reconnectLoop 1 c1 b1 w1 = (true, c2, b2, w2)) :
    ∃ nc w3, NewClient c1.client.address (w1.emit (Call.sleep b1)) = (Except.ok nc, w3) ∧
      c2 = { c1 with client := { c1.client with conn := nc.conn, channel := nc.channel } } ∧
      consume c2 (w3.emit (Call.notifyClose nc.conn c1.closeErr)) = (none, w2) := by
  simp only [reconnectLoop] at h
  cases hN : NewClient c1.client.address (w1.emit (Call.sleep b1)) with
  | mk res w3 =>
    rw [hN] at h
    cases res with
    | error e => simp at h
    | ok nc =>
      simp only at h
      cases hC : consume
        ({ c1 with client := { c1.client with conn := nc.conn,
                                              channel := nc.channel } } : Consumer σ)
        (w3.emit (Call.notifyClose nc.conn c1.closeErr)) with
      | mk e w4 =>
        rw [hC] at h
        cases e with
        | some e => simp at h
        | none =>
          simp only [Prod.mk.injEq, true_and] at h
          obtain ⟨rfl, _, rfl⟩ := h
          exact ⟨nc, w3, rfl, rfl, hC⟩

end rabbitmq

namespace rabbitmq

theorem reconnect_of_loop_true {σ : Type} (fuel : Nat) (c c2 : Consumer σ) (b2 : Int)
    (w w3 : World σ) (hc : c.reconnecting = false)
    (h : reconnectLoop fuel { c with reconnecting := true } Second
        ((w.call (Call.connClose c.client.conn)).2.call
          (Call.channelClose c.client.channel)).2 = (true, c2, b2, w3)) :
    reconnect fuel c w =
      { returned := true, consumer := { c2 with reconnecting := false }, world := w3 } := by
  simp only [reconnect, hc, Bool.false_eq_true, if_false, h]

end rabbitmq

/-- C16: `Consumer.reconnect`, entered with the reentrancy flag clear, never gives up:
after any number `k` of failed iterations it sleeps and dials again (a `(k+1)`-th
attempt); it returns only in an iteration in which `NewClient` succeeded and the
re-subscription `consume` succeeded; then the calls it made after that `NewClient`
are the registration of the close notification on the new connection, the `Consume`
on the new channel and the start of the receive loop, the connection and channel of
the consumer are those of the new client, and the flag `reconnecting` is false.
Once it has returned, more iterations change nothing; and an iteration in which
`NewClient` and `consume` succeed does make it return. -/
theorem reconnect_never_gives_up {σ : Type} (c : rabbitmq.Consumer σ)
    (w : rabbitmq.World σ) (hc : c.reconnecting = false) :
    (∀ k, (rabbitmq.reconnect k c w).returned = false →
      ∃ d rest, (rabbitmq.reconnect (k + 1) c w).world.trace =
        (rabbitmq.reconnect k c w).world.trace ++
          rabbitmq.Call.sleep d :: rabbitmq.Call.dial c.client.address :: rest) ∧
    (∀ fuel, (rabbitmq.reconnect fuel c w).returned = true →
      ∃ k d nc w3, k < fuel ∧ (rabbitmq.reconnect k c w).returned = false ∧
        rabbitmq.NewClient c.client.address
          ((rabbitmq.reconnect k c w).world.emit (rabbitmq.Call.sleep d)) = (Except.ok nc, w3) ∧
        w3.env (w3.trace ++ [rabbitmq.Call.notifyClose nc.conn c.closeErr])
          (rabbitmq.Call.consume nc.channel c.config.Queue "" c.config.AutoAck
            false false false) = none ∧
        (rabbitmq.reconnect fuel c w).world.trace = w3.trace ++
          [rabbitmq.Call.notifyClose nc.conn c.closeErr,
           rabbitmq.Call.consume nc.channel c.config.Queue "" c.config.AutoAck
             false false false,
           rabbitmq.Call.goReceive nc.channel] ∧
        (rabbitmq.reconnect fuel c w).consumer.client =
          { address := c.client.address, conn := nc.conn, channel := nc.channel } ∧
        (rabbitmq.reconnect fuel c w).consumer.reconnecting = false) ∧
    (∀ fuel m, (rabbitmq.reconnect fuel c w).returned = true →
      rabbitmq.reconnect (fuel + m) c w = rabbitmq.reconnect fuel c w) ∧
    (∀ k nc w3, (rabbitmq.reconnect k c w).returned = false →
      rabbitmq.NewClient c.client.address
        ((rabbitmq.reconnect k c w).world.emit
          (rabbitmq.Call.sleep (min (2 ^ k) 300 * Second))) = (Except.ok nc, w3) →
      w3.env (w3.trace ++ [rabbitmq.Call.notifyClose nc.conn c.closeErr])
        (rabbitmq.Call.consume nc.channel c.config.Queue "" c.config.AutoAck
          false false false) = none →
      (rabbitmq.reconnect (k + 1) c w).returned = true) := by
  refine ⟨?_, ?_, ?_, ?_⟩
  · intro k hk
    obtain ⟨r0, w0⟩ := rabbitmq.reconnect_eq_loop k c w hc
    obtain ⟨_, w1⟩ := rabbitmq.reconnect_eq_loop (k + 1) c w hc
    rw [r0] at hk
    rw [w0, w1]
    cases hL : rabbitmq.reconnectLoop k { c with reconnecting := true } Second
        ((w.call (rabbitmq.Call.connClose c.client.conn)).2.call
          (rabbitmq.Call.channelClose c.client.channel)).2 with
    | mk r rest0 =>
      obtain ⟨c2, b2, w3⟩ := rest0
      rw [hL] at hk
      simp only at hk
      subst hk
      have hk2 := (rabbitmq.reconnectLoop_keeps k { c with reconnecting := true } Second
        ((w.call (rabbitmq.Call.connClose c.client.conn)).2.call
          (rabbitmq.Call.channelClose c.client.channel)).2).2.2.1
      rw [hL] at hk2
      simp only at hk2
      rw [rabbitmq.reconnectLoop_snoc k _ _ _ _ _ _ hL]
      obtain ⟨rest, t1, _⟩ := rabbitmq.reconnectLoop_one_trace c2 b2 w3
      rw [hk2] at t1
      exact ⟨b2, rest, t1⟩
  · intro fuel hret
    obtain ⟨r0, _⟩ := rabbitmq.reconnect_eq_loop fuel c w hc
    rw [r0] at hret
    cases hL : rabbitmq.reconnectLoop fuel { c with reconnecting := true } Second
        ((w.call (rabbitmq.Call.connClose c.client.conn)).2.call
          (rabbitmq.Call.channelClose c.client.channel)).2 with
    | mk r rest0 =>
      obtain ⟨c2, b2, wF⟩ := rest0
      rw [hL] at hret
      simp only at hret
      subst hret
      obtain ⟨k, c1, b1, w1, hk, hf, hs⟩ := rabbitmq.reconnectLoop_done_split _ _ _ _ _ _ _ hL
      obtain ⟨nc, w3, hNew, hc2, hcons⟩ := rabbitmq.reconnectLoop_one_success _ _ _ _ _ _ hs
      obtain ⟨k1, k2, k3, _⟩ := rabbitmq.reconnectLoop_keeps k { c with reconnecting := true }
        Second ((w.call (rabbitmq.Call.connClose c.client.conn)).2.call
          (rabbitmq.Call.channelClose c.client.channel)).2
      rw [hf] at k1 k2 k3
      simp only at k1 k2 k3
      obtain ⟨rk, wk⟩ := rabbitmq.reconnect_eq_loop k c w hc
      rw [hf] at rk wk
      simp only at rk wk
      obtain ⟨e1, e2⟩ := rabbitmq.consume_success _ _ _ hcons
      rw [rabbitmq.reconnect_of_loop_true fuel c c2 b2 w wF hc hL]
      subst hc2
      simp only [rabbitmq.World.emit] at e1 e2
      refine ⟨k, b1, nc, w3, hk, rk, ?_, ?_, ?_, ?_, rfl⟩
      · rw [wk, ← k3]; exact hNew
      · rw [← k1, ← k2]; exact e1
      · rw [← k1, ← k2]
        simp only [e2, List.append_assoc, List.singleton_append]
      · simp only [k3]
  · intro fuel m hret
    obtain ⟨r0, _⟩ := rabbitmq.reconnect_eq_loop fuel c w hc
    rw [r0] at hret
    simp only [rabbitmq.reconnect, hc, Bool.false_eq_true, if_false]
    rw [rabbitmq.reconnectLoop_stable fuel m _ _ _ hret]
  · intro k nc w3 hk hNew hCons
    obtain ⟨r0, w0⟩ := rabbitmq.reconnect_eq_loop k c w hc
    obtain ⟨r1, _⟩ := rabbitmq.reconnect_eq_loop (k + 1) c w hc
    rw [r0] at hk
    rw [w0] at hNew
    rw [r1]
    cases hL : rabbitmq.reconnectLoop k { c with reconnecting := true } Second
        ((w.call (rabbitmq.Call.connClose c.client.conn)).2.call
          (rabbitmq.Call.channelClose c.client.channel)).2 with
    | mk r rest0 =>
      obtain ⟨c1, b1, w1⟩ := rest0
      rw [hL] at hk hNew
      simp only at hk hNew
      subst hk
      obtain ⟨g1, _, _, _⟩ := rabbitmq.reconnectLoop_failed k _ Second _ 0 c1 b1 w1
        (by decide) hL
      obtain ⟨k1, k2, k3, _⟩ := rabbitmq.reconnectLoop_keeps k { c with reconnecting := true }
        Second ((w.call (rabbitmq.Call.connClose c.client.conn)).2.call
          (rabbitmq.Call.channelClose c.client.channel)).2
      rw [hL] at k1 k2 k3
      simp only [Nat.zero_add] at k1 k2 k3 g1
      subst g1
      rw [rabbitmq.reconnectLoop_snoc k _ _ _ _ _ _ hL]
      simp only [rabbitmq.World.emit] at hNew
      simp only [rabbitmq.reconnectLoop, rabbitmq.World.emit, k3, hNew, k1, rabbitmq.consume, k2,
        rabbitmq.World.call, hCons]

theorem reconnect_never_gives_up_witness :
    (∃ d rest, (rabbitmq.reconnect (1 + 1) (rabbitmq.sampleConsumer 3 1 0) rabbitmq.firstDialFails).world.trace =
        (rabbitmq.reconnect 1 (rabbitmq.sampleConsumer 3 1 0) rabbitmq.firstDialFails).world.trace ++
          rabbitmq.Call.sleep d :: rabbitmq.Call.dial (rabbitmq.sampleConsumer 3 1 0).client.address :: rest) ∧
    (∃ k d nc w3, k < 2 ∧ (rabbitmq.reconnect k (rabbitmq.sampleConsumer 3 1 0) rabbitmq.firstDialFails).returned = false ∧
        rabbitmq.NewClient (rabbitmq.sampleConsumer 3 1 0).client.address
          ((rabbitmq.reconnect k (rabbitmq.sampleConsumer 3 1 0) rabbitmq.firstDialFails).world.emit (rabbitmq.Call.sleep d)) =
            (Except.ok nc, w3) ∧
        w3.env (w3.trace ++ [rabbitmq.Call.notifyClose nc.conn (rabbitmq.sampleConsumer 3 1 0).closeErr])
          (rabbitmq.Call.consume nc.channel (rabbitmq.sampleConsumer 3 1 0).config.Queue "" (rabbitmq.sampleConsumer 3 1 0).config.AutoAck
            false false false) = none ∧
        (rabbitmq.reconnect 2 (rabbitmq.sampleConsumer 3 1 0) rabbitmq.firstDialFails).world.trace = w3.trace ++
          [rabbitmq.Call.notifyClose nc.conn (rabbitmq.sampleConsumer 3 1 0).closeErr,
           rabbitmq.Call.consume nc.channel (rabbitmq.sampleConsumer 3 1 0).config.Queue "" (rabbitmq.sampleConsumer 3 1 0).config.AutoAck
             false false false,
           rabbitmq.Call.goReceive nc.channel] ∧
        (rabbitmq.reconnect 2 (rabbitmq.sampleConsumer 3 1 0) rabbitmq.firstDialFails).consumer.client =
          { address := (rabbitmq.sampleConsumer 3 1 0).client.address, conn := nc.conn, channel := nc.channel } ∧
        (rabbitmq.reconnect 2 (rabbitmq.sampleConsumer 3 1 0) rabbitmq.firstDialFails).consumer.reconnecting = false) ∧
    rabbitmq.reconnect (2 + 3) (rabbitmq.sampleConsumer 3 1 0) rabbitmq.firstDialFails = rabbitmq.reconnect 2 (rabbitmq.sampleConsumer 3 1 0) rabbitmq.firstDialFails ∧
    (rabbitmq.reconnect (1 + 1) (rabbitmq.sampleConsumer 3 1 0) rabbitmq.firstDialFails).returned = true :=
  ⟨(reconnect_never_gives_up (rabbitmq.sampleConsumer 3 1 0) rabbitmq.firstDialFails rfl).1 1 (by decide),
   (reconnect_never_gives_up (rabbitmq.sampleConsumer 3 1 0) rabbitmq.firstDialFails rfl).2.1 2 (by decide),
   (reconnect_never_gives_up (rabbitmq.sampleConsumer 3 1 0) rabbitmq.firstDialFails rfl).2.2.1 2 3 (by decide),
   (reconnect_never_gives_up (rabbitmq.sampleConsumer 3 1 0) rabbitmq.firstDialFails rfl).2.2.2 1
     { address := "amqp://broker", conn := 5, channel := 6 }
     (rabbitmq.NewClient "amqp://broker"
       ((rabbitmq.reconnect 1 (rabbitmq.sampleConsumer 3 1 0) rabbitmq.firstDialFails).world.emit
         (rabbitmq.Call.sleep (min (2 ^ 1) 300 * Second)))).2
     (by decide) (by rfl) (by rfl)⟩

namespace rabbitmq

theorem handled_append (xs ys : List Call) :
    handled (xs ++ ys) = handled xs ++ handled ys := by
  induction xs with
  | nil => rfl
  | cons x xs ih => cases x <;> simp [handled, ih]

theorem processAttempts_handled {σ : Type} (c : Consumer σ) (h : Handler σ)
    (msg : Delivery) :
    ∀ (as : List Int) (e0 : Option String) (w : World σ),
      ∃ k calls, (processAttempts c h msg as e0 w).2.trace = w.trace ++ calls ∧
        handled calls = List.replicate k msg.Body ∧ k ≤ as.length ∧
        (as ≠ [] → 1 ≤ k) := by
  intro as
  induction as with
  | nil =>
    intro e0 w
    by_cases hA : c.config.AutoAck = true
    · exact ⟨0, [], by simp [processAttempts, hA], rfl, le_refl _, fun hne => absurd rfl hne⟩
    · exact ⟨0, [Call.nack msg.DeliveryTag false true],
        by simp [processAttempts, World.call, hA], rfl, le_refl _,
        fun hne => absurd rfl hne⟩
  | cons a rest ih =>
    intro e0 w
    cases hh : (h msg.Body w.hstate).1 with
    | none =>
      by_cases hA : c.config.AutoAck = true
      · exact ⟨1, [Call.handler msg.Body],
          by simp [processAttempts, World.invoke, hh, hA], rfl, by simp, fun _ => le_refl _⟩
      · exact ⟨1, [Call.handler msg.Body, Call.ack msg.DeliveryTag false],
          by simp [processAttempts, World.invoke, World.call, hh, hA], rfl, by simp,
          fun _ => le_refl _⟩
    | some e =>
      by_cases hlt : a < c.config.RetryCount
      · obtain ⟨k, calls, htr, hk, hle, _⟩ := ih (some e)
          (({ w with hstate := (h msg.Body w.hstate).2,
                     trace := w.trace ++ [Call.handler msg.Body] } : World σ).emit
            (Call.sleep (wrap64 (c.config.RetryDelay * Second))))
        refine ⟨k + 1, Call.handler msg.Body ::
          Call.sleep (wrap64 (c.config.RetryDelay * Second)) :: calls, ?_, ?_,
          by simpa using hle, fun _ => Nat.succ_pos k⟩
        · simp only [World.emit, List.append_assoc, List.singleton_append] at htr
          simp [processAttempts, World.invoke, hh, hlt, World.emit, htr]
        · simp [handled, hk, List.replicate_succ]
      · obtain ⟨k, calls, htr, hk, hle, _⟩ := ih (some e)
          ({ w with hstate := (h msg.Body w.hstate).2,
                    trace := w.trace ++ [Call.handler msg.Body] } : World σ)
        refine ⟨k + 1, Call.handler msg.Body :: calls, ?_, ?_, by simpa using hle,
          fun _ => Nat.succ_pos k⟩
        · simp [processAttempts, World.invoke, hh, hlt, htr]
        · simp [handled, hk, List.replicate_succ]

end rabbitmq

namespace kafka

theorem handled_append_kafka (xs ys : List Call) :
    handled (xs ++ ys) = handled xs ++ handled ys := by
  induction xs with
  | nil => rfl
  | cons x xs ih => cases x <;> simp [handled, ih]

theorem processAttempts_handled_kafka {σ : Type} (c : Consumer σ) (h : Handler σ)
    (msg : Message) :
    ∀ (as : List Int) (e0 : Option String) (w : World σ),
      ∃ k calls, (processAttempts c h msg as e0 w).2.trace = w.trace ++ calls ∧
        handled calls = List.replicate k msg.Value ∧ k ≤ as.length ∧
        (as ≠ [] → 1 ≤ k) := by
  intro as
  induction as with
  | nil =>
    intro e0 w
    exact ⟨0, [], by simp [processAttempts], rfl, le_refl _, fun hne => absurd rfl hne⟩
  | cons a rest ih =>
    intro e0 w
    cases hh : (h msg.Value w.hstate).1 with
    | none =>
      by_cases hA : c.config.AutoCommit = true
      · exact ⟨1, [Call.handler msg.Value],
          by simp [processAttempts, World.invoke, hh, hA], rfl, by simp, fun _ => le_refl _⟩
      · refine ⟨1, [Call.handler msg.Value, Call.commitMessages c.reader c.ctx msg],
          ?_, rfl, by simp, fun _ => le_refl _⟩
        simp only [processAttempts, World.invoke, World.call, hh, hA]
        cases w.env (w.trace ++ [Call.handler msg.Value])
          (Call.commitMessages c.reader c.ctx msg) <;> simp
    | some e =>
      by_cases hlt : a < c.config.RetryCount
      · obtain ⟨k, calls, htr, hk, hle, _⟩ := ih (some e)
          (({ w with hstate := (h msg.Value w.hstate).2,
                     trace := w.trace ++ [Call.handler msg.Value] } : World σ).emit
            (Call.sleep (wrap64 (c.config.RetryDelay * Second))))
        refine ⟨k + 1, Call.handler msg.Value ::
          Call.sleep (wrap64 (c.config.RetryDelay * Second)) :: calls, ?_, ?_,
          by simpa using hle, fun _ => Nat.succ_pos k⟩
        · simp only [World.emit, List.append_assoc, List.singleton_append] at htr
          simp [processAttempts, World.invoke, hh, hlt, World.emit, htr]
        · simp [handled, hk, List.replicate_succ]
      · obtain ⟨k, calls, htr, hk, hle, _⟩ := ih (some e)
          ({ w with hstate := (h msg.Value w.hstate).2,
                    trace := w.trace ++ [Call.handler msg.Value] } : World σ)
        refine ⟨k + 1, Call.handler msg.Value :: calls, ?_, ?_, by simpa using hle,
          fun _ => Nat.succ_pos k⟩
        · simp [processAttempts, World.invoke, hh, hlt, htr]
        · simp [handled, hk, List.replicate_succ]

end kafka

namespace rabbitmq

theorem receiveLoop_fold {σ : Type} (c : Consumer σ) (h : Handler σ)
    (hh : c.handler = some h) :
    ∀ (ms : List Delivery) (w : World σ),
      receiveLoop c (ms.map Recv.delivery) w =
        some (false, ms.foldl (fun w0 m =>
          (processAttempts c h m (attempts c.config.RetryCount) none w0).2) w) := by
  intro ms
  induction ms with
  | nil => intro w; rfl
  | cons m rest ih =>
    intro w
    simp only [List.map_cons, receiveLoop, processMessage, hh, List.foldl_cons]
    exact ih _

theorem fold_handled {σ : Type} (c : Consumer σ) (h : Handler σ) (N : Nat)
    (hN : c.config.RetryCount = (N : Int)) :
    ∀ (ms : List Delivery) (w : World σ),
      ∃ ks calls, ks.length = ms.length ∧ (∀ k, k ∈ ks → 1 ≤ k ∧ k ≤ N + 1) ∧
        (ms.foldl (fun w0 m =>
          (processAttempts c h m (attempts c.config.RetryCount) none w0).2) w).trace =
          w.trace ++ calls ∧
        handled calls = (List.zipWith (fun m k => List.replicate k m.Body) ms ks).flatten := by
  intro ms
  induction ms with
  | nil => intro w; exact ⟨[], [], rfl, by simp, by simp, rfl⟩
  | cons m rest ih =>
    intro w
    obtain ⟨k0, calls0, ht0, hh0, hle0, hpos0⟩ :=
      processAttempts_handled c h m (attempts c.config.RetryCount) none w
    have hlen : (attempts c.config.RetryCount).length = N + 1 := by
      rw [hN, attempts_length]
    have hne : attempts c.config.RetryCount ≠ [] := by
      intro h0; rw [h0] at hlen; simp at hlen
    obtain ⟨ks, calls, hl, hks, ht, hhd⟩ := ih
      (processAttempts c h m (attempts c.config.RetryCount) none w).2
    refine ⟨k0 :: ks, [] ++ calls0 ++ calls, by simp [hl], ?_, ?_, ?_⟩
    · intro k hk
      rcases List.mem_cons.mp hk with rfl | hk1
      · exact ⟨hpos0 hne, by omega⟩
      · exact hks k hk1
    · simp only [List.foldl_cons]
      rw [ht, ht0]
      simp [World.emit]
    · simp [handled_append, hh0, hhd, handled]

end rabbitmq

namespace kafka

theorem receiveLoop_fold_kafka {σ : Type} (c : Consumer σ) (h : Handler σ)
    (hh : c.handler = some h) :
    ∀ (ms : List Message) (w : World σ),
      receiveLoop c (ms.map Poll.message) w =
        some (false, ms.foldl (fun w0 m =>
          (processAttempts c h m (attempts c.config.RetryCount) none (w0.emit (Call.readMessage c.reader c.ctx))).2) w) := by
  intro ms
  induction ms with
  | nil => intro w; rfl
  | cons m rest ih =>
    intro w
    simp only [List.map_cons, receiveLoop, processMessage, hh, List.foldl_cons]
    exact ih _

theorem fold_handled_kafka {σ : Type} (c : Consumer σ) (h : Handler σ) (N : Nat)
    (hN : c.config.RetryCount = (N : Int)) :
    ∀ (ms : List Message) (w : World σ),
      ∃ ks calls, ks.length = ms.length ∧ (∀ k, k ∈ ks → 1 ≤ k ∧ k ≤ N + 1) ∧
        (ms.foldl (fun w0 m =>
          (processAttempts c h m (attempts c.config.RetryCount) none (w0.emit (Call.readMessage c.reader c.ctx))).2) w).trace =
          w.trace ++ calls ∧
        handled calls = (List.zipWith (fun m k => List.replicate k m.Value) ms ks).flatten := by
  intro ms
  induction ms with
  | nil => intro w; exact ⟨[], [], rfl, by simp, by simp, rfl⟩
  | cons m rest ih =>
    intro w
    obtain ⟨k0, calls0, ht0, hh0, hle0, hpos0⟩ :=
      processAttempts_handled_kafka c h m (attempts c.config.RetryCount) none (w.emit (Call.readMessage c.reader c.ctx))
    have hlen : (attempts c.config.RetryCount).length = N + 1 := by
      rw [hN, attempts_length]
    have hne : attempts c.config.RetryCount ≠ [] := by
      intro h0; rw [h0] at hlen; simp at hlen
    obtain ⟨ks, calls, hl, hks, ht, hhd⟩ := ih
      (processAttempts c h m (attempts c.config.RetryCount) none (w.emit (Call.readMessage c.reader c.ctx))).2
    refine ⟨k0 :: ks, [Call.readMessage c.reader c.ctx] ++ calls0 ++ calls, by simp [hl], ?_, ?_, ?_⟩
    · intro k hk
      rcases List.mem_cons.mp hk with rfl | hk1
      · exact ⟨hpos0 hne, by omega⟩
      · exact hks k hk1
    · simp only [List.foldl_cons]
      rw [ht, ht0]
      simp [World.emit]
    · simp [handled_append_kafka, hh0, hhd, handled]

end kafka

/-- C17: on a sequence of deliveries `m1..mn` with no stop signal, the receive loop
(RabbitMQ: the goroutine of `consume`; Kafka: the goroutine of `Start`) is the
left-to-right composition of `processMessage` on `m1`, ..., `mn`: each message is
processed exactly once, the next one only in the world left by the one before, in
delivery order, whatever each `processMessage` returns (an error is only logged);
the loop has not returned afterwards.  In the calls made, the handler invocations form one block per message,
in delivery order, each block holding between 1 and `N + 1` invocations on that
message's payload. -/
theorem receiveLoop_processes_every_delivery (N : Nat) :
    (∀ {σ : Type} (c : rabbitmq.Consumer σ) (h : Handler σ) (ms : List rabbitmq.Delivery)
        (w : rabbitmq.World σ), c.handler = some h → c.config.RetryCount = (N : Int) →
        rabbitmq.receiveLoop c (ms.map rabbitmq.Recv.delivery) w =
          some (false, ms.foldl (fun w0 m =>
            (rabbitmq.processAttempts c h m (attempts c.config.RetryCount) none w0).2) w) ∧
        ∃ ks calls, ks.length = ms.length ∧ (∀ k, k ∈ ks → 1 ≤ k ∧ k ≤ N + 1) ∧
          (ms.foldl (fun w0 m =>
            (rabbitmq.processAttempts c h m (attempts c.config.RetryCount) none w0).2)
              w).trace = w.trace ++ calls ∧
          rabbitmq.handled calls =
            (List.zipWith (fun m k => List.replicate k m.Body) ms ks).flatten) ∧
    (∀ {σ : Type} (c : kafka.Consumer σ) (h : Handler σ) (ms : List kafka.Message)
        (w : kafka.World σ), c.handler = some h → c.config.RetryCount = (N : Int) →
        kafka.receiveLoop c (ms.map kafka.Poll.message) w =
          some (false, ms.foldl (fun w0 m =>
            (kafka.processAttempts c h m (attempts c.config.RetryCount) none (w0.emit (kafka.Call.readMessage c.reader c.ctx))).2) w) ∧
        ∃ ks calls, ks.length = ms.length ∧ (∀ k, k ∈ ks → 1 ≤ k ∧ k ≤ N + 1) ∧
          (ms.foldl (fun w0 m =>
            (kafka.processAttempts c h m (attempts c.config.RetryCount) none (w0.emit (kafka.Call.readMessage c.reader c.ctx))).2)
              w).trace = w.trace ++ calls ∧
          kafka.handled calls =
            (List.zipWith (fun m k => List.replicate k m.Value) ms ks).flatten) := by
  constructor
  · intro σ c h ms w hh hN
    exact ⟨rabbitmq.receiveLoop_fold c h hh ms w, rabbitmq.fold_handled c h N hN ms w⟩
  · intro σ c h ms w hh hN
    exact ⟨kafka.receiveLoop_fold_kafka c h hh ms w, kafka.fold_handled_kafka c h N hN ms w⟩

theorem receiveLoop_processes_every_delivery_witness :
    (rabbitmq.receiveLoop (rabbitmq.sampleConsumer 1 1 1) ([rabbitmq.sampleDelivery, rabbitmq.otherDelivery].map rabbitmq.Recv.delivery) rabbitmq.calmWorld =
          some (false, [rabbitmq.sampleDelivery, rabbitmq.otherDelivery].foldl (fun w0 m =>
            (rabbitmq.processAttempts (rabbitmq.sampleConsumer 1 1 1) (failFirst 1) m (attempts (rabbitmq.sampleConsumer 1 1 1).config.RetryCount)
              none w0).2) rabbitmq.calmWorld) ∧
        ∃ ks calls, ks.length = [rabbitmq.sampleDelivery, rabbitmq.otherDelivery].length ∧ (∀ k, k ∈ ks → 1 ≤ k ∧ k ≤ 1 + 1) ∧
          ([rabbitmq.sampleDelivery, rabbitmq.otherDelivery].foldl (fun w0 m =>
            (rabbitmq.processAttempts (rabbitmq.sampleConsumer 1 1 1) (failFirst 1) m (attempts (rabbitmq.sampleConsumer 1 1 1).config.RetryCount)
              none w0).2) rabbitmq.calmWorld).trace = rabbitmq.calmWorld.trace ++ calls ∧
          rabbitmq.handled calls =
            (List.zipWith (fun m k => List.replicate k m.Body) [rabbitmq.sampleDelivery, rabbitmq.otherDelivery] ks).flatten) ∧
    (kafka.receiveLoop (kafka.sampleConsumer 1 1 1) ([kafka.sampleMessage, kafka.otherMessage].map kafka.Poll.message) kafka.calmWorld =
          some (false, [kafka.sampleMessage, kafka.otherMessage].foldl (fun w0 m =>
            (kafka.processAttempts (kafka.sampleConsumer 1 1 1) (failFirst 1) m (attempts (kafka.sampleConsumer 1 1 1).config.RetryCount)
              none (w0.emit (kafka.Call.readMessage (kafka.sampleConsumer 1 1 1).reader (kafka.sampleConsumer 1 1 1).ctx))).2) kafka.calmWorld) ∧
        ∃ ks calls, ks.length = [kafka.sampleMessage, kafka.otherMessage].length ∧ (∀ k, k ∈ ks → 1 ≤ k ∧ k ≤ 1 + 1) ∧
          ([kafka.sampleMessage, kafka.otherMessage].foldl (fun w0 m =>
            (kafka.processAttempts (kafka.sampleConsumer 1 1 1) (failFirst 1) m (attempts (kafka.sampleConsumer 1 1 1).config.RetryCount)
              none (w0.emit (kafka.Call.readMessage (kafka.sampleConsumer 1 1 1).reader (kafka.sampleConsumer 1 1 1).ctx))).2) kafka.calmWorld).trace = kafka.calmWorld.trace ++ calls ∧
          kafka.handled calls =
            (List.zipWith (fun m k => List.replicate k m.Value) [kafka.sampleMessage, kafka.otherMessage] ks).flatten) :=
  ⟨(receiveLoop_processes_every_delivery 1).1 (rabbitmq.sampleConsumer 1 1 1) (failFirst 1)
      [rabbitmq.sampleDelivery, rabbitmq.otherDelivery] rabbitmq.calmWorld rfl rfl,
   (receiveLoop_processes_every_delivery 1).2 (kafka.sampleConsumer 1 1 1) (failFirst 1)
      [kafka.sampleMessage, kafka.otherMessage] kafka.calmWorld rfl rfl⟩

namespace rabbitmq

theorem processAttempts_env_free {σ : Type} (c : Consumer σ) (h : Handler σ)
    (msg : Delivery) :
    ∀ (as : List Int) (e0 e1 : Option String) (w w1 : World σ),
      w1.trace = w.trace → w1.hstate = w.hstate →
      (processAttempts c h msg as e1 w1).2.trace = (processAttempts c h msg as e0 w).2.trace ∧
      (processAttempts c h msg as e1 w1).2.hstate =
        (processAttempts c h msg as e0 w).2.hstate := by
  intro as
  induction as with
  | nil =>
    intro e0 e1 w w1 ht hs
    simp only [processAttempts]
    split <;> simp [World.call, ht, hs]
  | cons a rest ih =>
    intro e0 e1 w w1 ht hs
    simp only [processAttempts, World.invoke, hs, ht]
    cases hh : (h msg.Body w.hstate).1 with
    | none =>
      simp only
      split <;> simp [World.call]
    | some e =>
      simp only
      apply ih
      · split <;> simp [World.emit]
      · split <;> simp [World.emit]

end rabbitmq

namespace kafka

theorem processAttempts_env_free_kafka {σ : Type} (c : Consumer σ) (h : Handler σ)
    (msg : Message) :
    ∀ (as : List Int) (e0 e1 : Option String) (w w1 : World σ),
      w1.trace = w.trace → w1.hstate = w.hstate →
      (processAttempts c h msg as e1 w1).2.trace = (processAttempts c h msg as e0 w).2.trace ∧
      (processAttempts c h msg as e1 w1).2.hstate =
        (processAttempts c h msg as e0 w).2.hstate := by
  intro as
  induction as with
  | nil =>
    intro e0 e1 w w1 ht hs
    simp only [processAttempts]
    exact ⟨ht, hs⟩
  | cons a rest ih =>
    intro e0 e1 w w1 ht hs
    simp only [processAttempts, World.invoke, hs, ht]
    cases hh : (h msg.Value w.hstate).1 with
    | none =>
      simp only
      split
      · simp only [World.call]
        cases w1.env (w.trace ++ [Call.handler msg.Value])
          (Call.commitMessages c.reader c.ctx msg) <;>
        cases w.env (w.trace ++ [Call.handler msg.Value])
          (Call.commitMessages c.reader c.ctx msg) <;> simp
      · simp
    | some e =>
      simp only
      apply ih
      · split <;> simp [World.emit]
      · split <;> simp [World.emit]

end kafka

namespace rabbitmq

theorem processAttempts_done {σ : Type} (c : Consumer σ) (h : Handler σ) (msg : Delivery) :
    ∀ (as : List Int) (e0 : Option String) (w : World σ),
      processAttempts { c with done := true } h msg as e0 w =
        processAttempts c h msg as e0 w := by
  intro as
  induction as with
  | nil => intro e0 w; rfl
  | cons a rest ih =>
    intro e0 w
    simp only [processAttempts]
    cases hI : w.invoke h msg.Body with
    | mk r w1 =>
      cases r with
      | none => rfl
      | some e => exact ih _ _

end rabbitmq

namespace kafka

theorem processAttempts_done_kafka {σ : Type} (c : Consumer σ) (h : Handler σ) (msg : Message) :
    ∀ (as : List Int) (e0 : Option String) (w : World σ),
      processAttempts { c with done := true } h msg as e0 w =
        processAttempts c h msg as e0 w := by
  intro as
  induction as with
  | nil => intro e0 w; rfl
  | cons a rest ih =>
    intro e0 w
    simp only [processAttempts]
    cases hI : w.invoke h msg.Value with
    | mk r w1 =>
      cases r with
      | none => rfl
      | some e => exact ih _ _

end kafka

/-- C18 (the claim fails here): a Kafka consumer with manual commit and a handler that
succeeds.  Without a `Stop()`, `processMessage` returns nil, the commit being accepted.
With a `Stop()` issued by another goroutine while the handler invocation runs, the
`CommitMessages` call that follows is made on the cancelled context and
`processMessage` returns a commit error: the call's behaviour has changed. -/
theorem kafka_stop_during_handler_fails_commit :
    (kafka.processMessage (kafka.sampleConsumer 1 1 0) kafka.sampleMessage
        kafka.calmWorld).map (fun r => r.1) = some none ∧
    (kafka.processMessage (kafka.sampleConsumer 1 1 0) kafka.sampleMessage
        { kafka.calmWorld with
            env := kafka.stoppedAfter (kafka.sampleConsumer 1 1 0) 1 kafka.calmWorld.env }).map
        (fun r => r.1) = some (some "failed to commit message: context canceled") := by
  decide

/-- C18 (amended): the stop signal is observed only between messages.  `processMessage`
does not read the stop signal (it behaves the same on a consumer whose `done` is closed),
and the calls it makes (handler invocations, retry sleeps, the Ack / Nack /
`CommitMessages` call) and the handler's state do not depend on what the environment
answers, hence not on a `Stop()` issued meanwhile; in the receive loop a stop signal
that follows a delivery is acted upon only after `processMessage` has returned for that
delivery (RabbitMQ and Kafka). -/
theorem stop_observed_between_messages :
    ((∀ {σ : Type} (c : rabbitmq.Consumer σ) (msg : rabbitmq.Delivery) (w : rabbitmq.World σ),
      rabbitmq.processMessage { c with done := true } msg w = rabbitmq.processMessage c msg w) ∧
    (∀ {σ : Type} (c : rabbitmq.Consumer σ) (msg : rabbitmq.Delivery) (w : rabbitmq.World σ)
        (env1 : List rabbitmq.Call → rabbitmq.Call → Option String),
      (rabbitmq.processMessage c msg { w with env := env1 }).map
          (fun r => (r.2.trace, r.2.hstate)) =
        (rabbitmq.processMessage c msg w).map (fun r => (r.2.trace, r.2.hstate))) ∧
    (∀ {σ : Type} (c : rabbitmq.Consumer σ) (msg : rabbitmq.Delivery) (rest : List rabbitmq.Recv)
        (w : rabbitmq.World σ),
      rabbitmq.receiveLoop c (rabbitmq.Recv.delivery msg :: rabbitmq.Recv.done :: rest) w =
        (rabbitmq.processMessage c msg w).map (fun r => (true, r.2)))) ∧
    ((∀ {σ : Type} (c : kafka.Consumer σ) (msg : kafka.Message) (w : kafka.World σ),
      kafka.processMessage { c with done := true } msg w = kafka.processMessage c msg w) ∧
    (∀ {σ : Type} (c : kafka.Consumer σ) (msg : kafka.Message) (w : kafka.World σ)
        (env1 : List kafka.Call → kafka.Call → Option String),
      (kafka.processMessage c msg { w with env := env1 }).map
          (fun r => (r.2.trace, r.2.hstate)) =
        (kafka.processMessage c msg w).map (fun r => (r.2.trace, r.2.hstate))) ∧
    (∀ {σ : Type} (c : kafka.Consumer σ) (msg : kafka.Message) (rest : List kafka.Poll)
        (w : kafka.World σ),
      kafka.receiveLoop c (kafka.Poll.message msg :: kafka.Poll.done :: rest) w =
        (kafka.processMessage c msg (w.emit (kafka.Call.readMessage c.reader c.ctx))).map (fun r => (true, r.2)))) := by
  refine ⟨⟨?_, ?_, ?_⟩, ⟨?_, ?_, ?_⟩⟩
  · intro σ c msg w
    simp only [rabbitmq.processMessage, rabbitmq.processAttempts_done]
  · intro σ c msg w env1
    simp only [rabbitmq.processMessage]
    cases c.handler with
    | none =>
      simp only
      split
      · rfl
      · obtain ⟨h1, h2⟩ := rabbitmq.processAttempts_env_free c (fun _ s => (none, s)) msg []
          none none w { w with env := env1 } rfl rfl
        simp only [Option.map_some', h1, h2]
    | some h =>
      obtain ⟨h1, h2⟩ := rabbitmq.processAttempts_env_free c h msg
        (attempts c.config.RetryCount) none none w { w with env := env1 } rfl rfl
      simp only [Option.map_some', h1, h2]
  · intro σ c msg rest w
    simp only [rabbitmq.receiveLoop]
    cases rabbitmq.processMessage c msg w with
    | none => rfl
    | some r => rfl
  · intro σ c msg w
    simp only [kafka.processMessage, kafka.processAttempts_done_kafka]
  · intro σ c msg w env1
    simp only [kafka.processMessage]
    cases c.handler with
    | none =>
      simp only
      split
      · rfl
      · obtain ⟨h1, h2⟩ := kafka.processAttempts_env_free_kafka c (fun _ s => (none, s)) msg []
          none none w { w with env := env1 } rfl rfl
        simp only [Option.map_some', h1, h2]
    | some h =>
      obtain ⟨h1, h2⟩ := kafka.processAttempts_env_free_kafka c h msg
        (attempts c.config.RetryCount) none none w { w with env := env1 } rfl rfl
      simp only [Option.map_some', h1, h2]
  · intro σ c msg rest w
    simp only [kafka.receiveLoop]
    cases kafka.processMessage c msg (w.emit (kafka.Call.readMessage c.reader c.ctx)) with
    | none => rfl
    | some r => rfl

namespace jwt

theorem InitJWT_after_first (c1 : JWTConfig) (g : Globals) (h : g.once = true) :
    InitJWT c1 g = g := by
  simp [InitJWT, h]

theorem InitJWT_foldl (cs : List JWTConfig) :
    ∀ (g : Globals), g.once = true → cs.foldl (fun g0 c1 => InitJWT c1 g0) g = g := by
  induction cs with
  | nil => intro g _; rfl
  | cons c1 rest ih =>
    intro g h
    simp only [List.foldl_cons, InitJWT_after_first c1 g h]
    exact ih g h

end jwt

/-- C19: `InitJWT` takes effect at most once.  The first call (the `sync.Once` has
not run yet) sets the global configuration to its argument; a call made after that,
with any argument, leaves the global configuration (`SecretKey` and `ExpireMinute`)
and the `sync.Once` unchanged; so after `InitJWT(c)` followed by any sequence of
further calls the global configuration is still `c`. -/
theorem initJWT_takes_effect_once :
    (∀ (c : jwt.JWTConfig) (g : jwt.Globals), g.once = false →
      (jwt.InitJWT c g).gConfig = c ∧ (jwt.InitJWT c g).once = true) ∧
    (∀ (c1 : jwt.JWTConfig) (g : jwt.Globals), g.once = true →
      jwt.InitJWT c1 g = g ∧
      (jwt.InitJWT c1 g).gConfig.SecretKey = g.gConfig.SecretKey ∧
      (jwt.InitJWT c1 g).gConfig.ExpireMinute = g.gConfig.ExpireMinute) ∧
    (∀ (c : jwt.JWTConfig) (cs : List jwt.JWTConfig),
      (cs.foldl (fun g0 c1 => jwt.InitJWT c1 g0) (jwt.InitJWT c jwt.Globals.init)).gConfig
        = c) := by
  refine ⟨?_, ?_, ?_⟩
  · intro c g h
    simp [jwt.InitJWT, h]
  · intro c1 g h
    rw [jwt.InitJWT_after_first c1 g h]
    exact ⟨rfl, rfl, rfl⟩
  · intro c cs
    rw [jwt.InitJWT_foldl cs _ (by simp [jwt.InitJWT, jwt.Globals.init])]
    simp [jwt.InitJWT, jwt.Globals.init]

theorem initJWT_takes_effect_once_witness :
    ((jwt.InitJWT { SecretKey := "test-secret-key", ExpireMinute := 1 }
        jwt.Globals.init).gConfig = { SecretKey := "test-secret-key", ExpireMinute := 1 } ∧
      (jwt.InitJWT { SecretKey := "test-secret-key", ExpireMinute := 1 }
        jwt.Globals.init).once = true) ∧
    (jwt.InitJWT { SecretKey := "another-secret", ExpireMinute := 5 }
        (jwt.InitJWT { SecretKey := "test-secret-key", ExpireMinute := 1 } jwt.Globals.init) =
        jwt.InitJWT { SecretKey := "test-secret-key", ExpireMinute := 1 } jwt.Globals.init ∧
      (jwt.InitJWT { SecretKey := "another-secret", ExpireMinute := 5 }
        (jwt.InitJWT { SecretKey := "test-secret-key", ExpireMinute := 1 }
          jwt.Globals.init)).gConfig.SecretKey =
        (jwt.InitJWT { SecretKey := "test-secret-key", ExpireMinute := 1 }
          jwt.Globals.init).gConfig.SecretKey ∧
      (jwt.InitJWT { SecretKey := "another-secret", ExpireMinute := 5 }
        (jwt.InitJWT { SecretKey := "test-secret-key", ExpireMinute := 1 }
          jwt.Globals.init)).gConfig.ExpireMinute =
        (jwt.InitJWT { SecretKey := "test-secret-key", ExpireMinute := 1 }
          jwt.Globals.init).gConfig.ExpireMinute) :=
  ⟨initJWT_takes_effect_once.1 { SecretKey := "test-secret-key", ExpireMinute := 1 }
      jwt.Globals.init rfl,
   initJWT_takes_effect_once.2.1 { SecretKey := "another-secret", ExpireMinute := 5 }
      (jwt.InitJWT { SecretKey := "test-secret-key", ExpireMinute := 1 } jwt.Globals.init)
      rfl⟩

namespace rabbitmq

theorem reconnectLoop_down {σ : Type} :
    ∀ (n : Nat) (c : Consumer σ) (b : Int) (w : World σ),
      (∀ hist, (w.env hist (Call.dial c.client.address)).isSome = true) →
      (reconnectLoop n c b w).1 = false ∧ (reconnectLoop n c b w).2.1 = c := by
  intro n
  induction n with
  | zero => intro c b w _; exact ⟨rfl, rfl⟩
  | succ n ih =>
    intro c b w h
    cases henv : w.env (w.trace ++ [Call.sleep b]) (Call.dial c.client.address) with
    | none =>
      have := h (w.trace ++ [Call.sleep b])
      rw [henv] at this
      simp at this
    | some e =>
      simp only [reconnectLoop, NewClient, World.call, World.emit, henv]
      exact ih c (nextBackoff b) _ h

end rabbitmq

/-- C23: the reentrancy guard of the RabbitMQ `Consumer.reconnect`.  Entered while the
flag `reconnecting` is set, the call returns at once: it makes no call at all (no close
of the connection or channel, no sleep, no dial, no re-subscription), and the consumer,
with its flag and its connection, is as before.  Entered with the flag clear, the
call sets the flag and closes the connection and the channel before the loop (it has
not returned then); the loop runs on the consumer with the flag set; in every state
in which the call has not returned the flag is set, and when it has returned the flag
is clear.  While the broker refuses every dial the call never returns and the flag
stays set; a `reconnect` entered in any state in which the first has not returned is
the ignored one of the first part. -/
theorem reconnect_reentrancy_guard :
    (∀ {σ : Type} (fuel : Nat) (c : rabbitmq.Consumer σ) (w : rabbitmq.World σ),
      c.reconnecting = true →
      rabbitmq.reconnect fuel c w = { returned := true, consumer := c, world := w }) ∧
    (∀ {σ : Type} (c : rabbitmq.Consumer σ) (w : rabbitmq.World σ),
      c.reconnecting = false →
      rabbitmq.reconnect 0 c w =
        { returned := false, consumer := { c with reconnecting := true },
          world := { w with trace := w.trace ++
            [rabbitmq.Call.connClose c.client.conn,
             rabbitmq.Call.channelClose c.client.channel] } }) ∧
    (∀ {σ : Type} (fuel : Nat) (c : rabbitmq.Consumer σ) (w : rabbitmq.World σ),
      c.reconnecting = false →
      (rabbitmq.reconnect fuel c w).returned =
        (rabbitmq.reconnectLoop fuel { c with reconnecting := true } Second
          ((w.call (rabbitmq.Call.connClose c.client.conn)).2.call
            (rabbitmq.Call.channelClose c.client.channel)).2).1 ∧
      (rabbitmq.reconnect fuel c w).world =
        (rabbitmq.reconnectLoop fuel { c with reconnecting := true } Second
          ((w.call (rabbitmq.Call.connClose c.client.conn)).2.call
            (rabbitmq.Call.channelClose c.client.channel)).2).2.2.2) ∧
    (∀ {σ : Type} (fuel : Nat) (c : rabbitmq.Consumer σ) (w : rabbitmq.World σ),
      c.reconnecting = false → (rabbitmq.reconnect fuel c w).returned = false →
      (rabbitmq.reconnect fuel c w).consumer.reconnecting = true) ∧
    (∀ {σ : Type} (fuel : Nat) (c : rabbitmq.Consumer σ) (w : rabbitmq.World σ),
      c.reconnecting = false → (rabbitmq.reconnect fuel c w).returned = true →
      (rabbitmq.reconnect fuel c w).consumer.reconnecting = false) ∧
    (∀ {σ : Type} (fuel : Nat) (c : rabbitmq.Consumer σ) (w : rabbitmq.World σ),
      c.reconnecting = false →
      (∀ hist, (w.env hist (rabbitmq.Call.dial c.client.address)).isSome = true) →
      (rabbitmq.reconnect fuel c w).returned = false ∧
      (rabbitmq.reconnect fuel c w).consumer = { c with reconnecting := true }) ∧
    (∀ {σ : Type} (fuel fuel2 : Nat) (c : rabbitmq.Consumer σ) (w : rabbitmq.World σ),
      c.reconnecting = false → (rabbitmq.reconnect fuel c w).returned = false →
      rabbitmq.reconnect fuel2 (rabbitmq.reconnect fuel c w).consumer
          (rabbitmq.reconnect fuel c w).world =
        { returned := true, consumer := (rabbitmq.reconnect fuel c w).consumer,
          world := (rabbitmq.reconnect fuel c w).world }) := by
  have hflag : ∀ {σ : Type} (fuel : Nat) (c : rabbitmq.Consumer σ) (w : rabbitmq.World σ),
      c.reconnecting = false →
      (rabbitmq.reconnect fuel c w).consumer.reconnecting =
        !(rabbitmq.reconnect fuel c w).returned := by
    intro σ fuel c w hc
    have hk := (rabbitmq.reconnectLoop_keeps fuel { c with reconnecting := true } Second
      ((w.call (rabbitmq.Call.connClose c.client.conn)).2.call
        (rabbitmq.Call.channelClose c.client.channel)).2).2.2.2
    simp only [rabbitmq.reconnect, hc, Bool.false_eq_true, if_false]
    cases hL : rabbitmq.reconnectLoop fuel { c with reconnecting := true } Second
        ((w.call (rabbitmq.Call.connClose c.client.conn)).2.call
          (rabbitmq.Call.channelClose c.client.channel)).2 with
    | mk r rest =>
      obtain ⟨c2, b2, w3⟩ := rest
      rw [hL] at hk
      cases r with
      | true => rfl
      | false => simpa using hk
  have hbusy : ∀ {σ : Type} (fuel : Nat) (c : rabbitmq.Consumer σ) (w : rabbitmq.World σ),
      c.reconnecting = true →
      rabbitmq.reconnect fuel c w = { returned := true, consumer := c, world := w } := by
    intro σ fuel c w h
    simp [rabbitmq.reconnect, h]
  refine ⟨hbusy, ?_, ?_, ?_, ?_, ?_, ?_⟩
  · intro σ c w hc
    simp [rabbitmq.reconnect, hc, rabbitmq.reconnectLoop, rabbitmq.World.call]
  · intro σ fuel c w hc
    exact rabbitmq.reconnect_eq_loop fuel c w hc
  · intro σ fuel c w hc hr
    rw [hflag fuel c w hc, hr]
    rfl
  · intro σ fuel c w hc hr
    rw [hflag fuel c w hc, hr]
    rfl
  · intro σ fuel c w hc hdown
    obtain ⟨h1, h2⟩ := rabbitmq.reconnectLoop_down fuel { c with reconnecting := true } Second
      ((w.call (rabbitmq.Call.connClose c.client.conn)).2.call
        (rabbitmq.Call.channelClose c.client.channel)).2 hdown
    simp only [rabbitmq.reconnect, hc, Bool.false_eq_true, if_false]
    cases hL : rabbitmq.reconnectLoop fuel { c with reconnecting := true } Second
        ((w.call (rabbitmq.Call.connClose c.client.conn)).2.call
          (rabbitmq.Call.channelClose c.client.channel)).2 with
    | mk r rest =>
      obtain ⟨c2, b2, w3⟩ := rest
      rw [hL] at h1 h2
      simp only at h1 h2
      subst h1 h2
      exact ⟨rfl, rfl⟩
  · intro σ fuel fuel2 c w hc hr
    apply hbusy
    rw [hflag fuel c w hc, hr]
    rfl

theorem reconnect_reentrancy_guard_witness :
    rabbitmq.reconnect 4 rabbitmq.busyConsumer rabbitmq.downWorld =
      { returned := true, consumer := rabbitmq.busyConsumer, world := rabbitmq.downWorld } ∧
    rabbitmq.reconnect 0 (rabbitmq.sampleConsumer 3 2 0) rabbitmq.calmWorld =
      { returned := false,
        consumer := { rabbitmq.sampleConsumer 3 2 0 with reconnecting := true },
        world := { rabbitmq.calmWorld with trace := rabbitmq.calmWorld.trace ++
          [rabbitmq.Call.connClose (rabbitmq.sampleConsumer 3 2 0).client.conn,
           rabbitmq.Call.channelClose (rabbitmq.sampleConsumer 3 2 0).client.channel] } } ∧
    (rabbitmq.reconnect 2 (rabbitmq.sampleConsumer 3 2 0)
        rabbitmq.firstDialFails).consumer.reconnecting = false ∧
    (rabbitmq.reconnect 1 (rabbitmq.sampleConsumer 3 2 0)
        rabbitmq.firstDialFails).consumer.reconnecting = true ∧
    ((rabbitmq.reconnect 4 (rabbitmq.sampleConsumer 3 2 0) rabbitmq.downWorld).returned = false ∧
      (rabbitmq.reconnect 4 (rabbitmq.sampleConsumer 3 2 0) rabbitmq.downWorld).consumer =
        { rabbitmq.sampleConsumer 3 2 0 with reconnecting := true }) ∧
    rabbitmq.reconnect 3
        (rabbitmq.reconnect 1 (rabbitmq.sampleConsumer 3 2 0) rabbitmq.firstDialFails).consumer
        (rabbitmq.reconnect 1 (rabbitmq.sampleConsumer 3 2 0) rabbitmq.firstDialFails).world =
      { returned := true,
        consumer :=
          (rabbitmq.reconnect 1 (rabbitmq.sampleConsumer 3 2 0) rabbitmq.firstDialFails).consumer,
        world :=
          (rabbitmq.reconnect 1 (rabbitmq.sampleConsumer 3 2 0) rabbitmq.firstDialFails).world } :=
  ⟨reconnect_reentrancy_guard.1 4 rabbitmq.busyConsumer rabbitmq.downWorld rfl,
   reconnect_reentrancy_guard.2.1 (rabbitmq.sampleConsumer 3 2 0) rabbitmq.calmWorld rfl,
   reconnect_reentrancy_guard.2.2.2.2.1 2 (rabbitmq.sampleConsumer 3 2 0)
     rabbitmq.firstDialFails rfl (by decide),
   reconnect_reentrancy_guard.2.2.2.1 1 (rabbitmq.sampleConsumer 3 2 0)
     rabbitmq.firstDialFails rfl (by decide),
   reconnect_reentrancy_guard.2.2.2.2.2.1 4 (rabbitmq.sampleConsumer 3 2 0)
     rabbitmq.downWorld rfl (fun _ => rfl),
   reconnect_reentrancy_guard.2.2.2.2.2.2 1 3 (rabbitmq.sampleConsumer 3 2 0)
     rabbitmq.firstDialFails rfl (by decide)⟩

/-- C24 (the claim fails here): a consumer is stopped, and `Stop()` is called a second
time.  The first call completes; the second closes the channel `done` that is closed
already and panics (RabbitMQ and Kafka; the Kafka `Stop` has then called `cancel` once
more). -/
theorem second_stop_panics :
    (rabbitmq.Stop (rabbitmq.sampleConsumer 3 2 0) rabbitmq.calmWorld).panicked = false ∧
    (rabbitmq.Stop (rabbitmq.Stop (rabbitmq.sampleConsumer 3 2 0) rabbitmq.calmWorld).consumer
      (rabbitmq.Stop (rabbitmq.sampleConsumer 3 2 0) rabbitmq.calmWorld).world).panicked = true ∧
    (kafka.Stop (kafka.sampleConsumer 3 2 0) kafka.calmWorld).panicked = false ∧
    (kafka.Stop (kafka.Stop (kafka.sampleConsumer 3 2 0) kafka.calmWorld).consumer
      (kafka.Stop (kafka.sampleConsumer 3 2 0) kafka.calmWorld).world).panicked = true ∧
    (kafka.Stop (kafka.Stop (kafka.sampleConsumer 3 2 0) kafka.calmWorld).consumer
      (kafka.Stop (kafka.sampleConsumer 3 2 0) kafka.calmWorld).world).world.trace =
      [kafka.Call.cancel 1, kafka.Call.readerClose 0, kafka.Call.cancel 1] := by
  decide

/-- C24 (amended): `Consumer.Stop` is `close(c.done)` without a guard, so a call
panics exactly when `done` is closed already.  The first `Stop()` on a consumer that
was not stopped completes and leaves `done` closed (the RabbitMQ `Stop` makes no
call; the Kafka `Stop` calls `cancel` and then `reader.Close()`).  A second `Stop()`
panics, whatever the consumer and the world of the first call; it leaves the
consumer as the first call left it, and the Kafka `Stop` has called `cancel` once
more and does not reach `reader.Close()`. -/
theorem stop_completes_only_once :
    (∀ {σ : Type} (c : rabbitmq.Consumer σ) (w : rabbitmq.World σ),
      (rabbitmq.Stop c w).panicked = c.done ∧
      (rabbitmq.Stop c w).consumer.done = true ∧
      (rabbitmq.Stop c w).world = w ∧
      (rabbitmq.Stop (rabbitmq.Stop c w).consumer (rabbitmq.Stop c w).world).panicked = true ∧
      (rabbitmq.Stop (rabbitmq.Stop c w).consumer (rabbitmq.Stop c w).world).consumer =
        (rabbitmq.Stop c w).consumer ∧
      (rabbitmq.Stop (rabbitmq.Stop c w).consumer (rabbitmq.Stop c w).world).world =
        (rabbitmq.Stop c w).world) ∧
    (∀ {σ : Type} (c : kafka.Consumer σ) (w : kafka.World σ),
      (kafka.Stop c w).panicked = c.done ∧
      (kafka.Stop c w).consumer.done = true ∧
      (kafka.Stop c w).world.trace =
        w.trace ++ kafka.Call.cancel c.ctx ::
          (if c.done then [] else [kafka.Call.readerClose c.reader]) ∧
      (kafka.Stop (kafka.Stop c w).consumer (kafka.Stop c w).world).panicked = true ∧
      (kafka.Stop (kafka.Stop c w).consumer (kafka.Stop c w).world).consumer =
        (kafka.Stop c w).consumer ∧
      (kafka.Stop (kafka.Stop c w).consumer (kafka.Stop c w).world).world.trace =
        (kafka.Stop c w).world.trace ++ [kafka.Call.cancel c.ctx]) := by
  refine ⟨?_, ?_⟩
  · intro σ c w
    cases hd : c.done <;> simp [rabbitmq.Stop, hd]
  · intro σ c w
    cases hd : c.done <;> simp [kafka.Stop, kafka.World.emit, kafka.World.call, hd]

namespace kafka

theorem processAttempts_commit_failure {σ : Type} (c : Consumer σ) (h : Handler σ)
    (msg : Message) (err : String) (N : Nat) (hN : c.config.RetryCount = (N : Int))
    (hA : c.config.AutoCommit = false) :
    ∀ (k m a : Nat) (e0 : Option String) (w : World σ), a + m = N + 1 → k < m →
      (∀ hist, w.env hist (Call.commitMessages c.reader c.ctx msg) = some err) →
      (∀ i, i < k → (h msg.Value (handlerState h msg.Value i w.hstate)).1 ≠ none) →
      (h msg.Value (handlerState h msg.Value k w.hstate)).1 = none →
      ∃ calls,
        (processAttempts c h msg ((List.range' a m).map Int.ofNat) e0 w).1 =
          some ("failed to commit message: " ++ err) ∧
        (processAttempts c h msg ((List.range' a m).map Int.ofNat) e0 w).2.trace =
          w.trace ++ calls ++ [Call.commitMessages c.reader c.ctx msg] ∧
        calls.countP Call.isHandler = k + 1 ∧
        calls.countP Call.isCommit = 0 ∧
        sleeps calls = List.replicate k (wrap64 (c.config.RetryDelay * Second)) := by
  intro k
  induction k with
  | zero =>
    intro m a e0 w _ hm henv _ hok
    obtain ⟨m1, rfl⟩ : ∃ m1, m = m1 + 1 := ⟨m - 1, by omega⟩
    simp only [handlerState] at hok
    simp only [List.range'_succ, List.map_cons]
    refine ⟨[Call.handler msg.Value], ?_, ?_, rfl, rfl, rfl⟩
    · simp [processAttempts, World.invoke, World.call, hok, hA, henv]
    · simp [processAttempts, World.invoke, World.call, hok, hA, henv]
  | succ k ih =>
    intro m a e0 w ha hm henv hfail hok
    obtain ⟨m1, rfl⟩ : ∃ m1, m = m1 + 1 := ⟨m - 1, by omega⟩
    have h0 := hfail 0 (Nat.succ_pos k)
    simp only [handlerState] at h0
    obtain ⟨e, he⟩ : ∃ e, (h msg.Value w.hstate).1 = some e := by
      cases hh : (h msg.Value w.hstate).1 with
      | none => exact absurd hh h0
      | some e => exact ⟨e, rfl⟩
    have hlt : (a : Int) < c.config.RetryCount := by
      rw [hN]; omega
    obtain ⟨calls, hr, htr, h1, h2, hs⟩ := ih m1 (a + 1) (some e)
      (({ w with hstate := (h msg.Value w.hstate).2,
                 trace := w.trace ++ [Call.handler msg.Value] } : World σ).emit
        (Call.sleep (wrap64 (c.config.RetryDelay * Second)))) (by omega) (by omega)
      henv (fun i hi => hfail (i + 1) (Nat.succ_lt_succ hi)) hok
    refine ⟨Call.handler msg.Value :: Call.sleep (wrap64 (c.config.RetryDelay * Second)) ::
      calls, ?_, ?_, ?_, ?_, ?_⟩
    · simp only [List.range'_succ, List.map_cons, processAttempts, World.invoke, he]
      rw [if_pos (show Int.ofNat a < c.config.RetryCount from hlt)]
      exact hr
    · simp only [World.emit, List.append_assoc, List.singleton_append] at htr
      simp only [List.range'_succ, List.map_cons, processAttempts, World.invoke, he, World.emit,
        List.append_assoc, List.singleton_append, List.cons_append, List.nil_append]
      rw [if_pos (show Int.ofNat a < c.config.RetryCount from hlt)]
      exact htr
    · simp [Call.isHandler, h1]
    · simp [Call.isCommit, h2]
    · simp only [sleeps, hs]
      rfl

end kafka

/-- C25: the Kafka `Consumer.processMessage` with `AutoCommit` false, a handler that
fails on its first `k ≤ RetryCount` invocations and succeeds on the next one, and a
`CommitMessages` that fails with `err`: the call returns the error
"failed to commit message: err" and the commit is the last thing it does.  Before
it the handler ran exactly `k + 1` times with the `k` retry delays of the failed
attempts in between; after it the handler is not invoked again, no further commit is
made and no retry delay is slept. -/
theorem kafka_commit_failure_returns_at_once (N k : Nat) (hk : k ≤ N) :
    ∀ {σ : Type} (c : kafka.Consumer σ) (h : Handler σ) (msg : kafka.Message)
      (w : kafka.World σ) (err : String),
      c.handler = some h → c.config.RetryCount = (N : Int) → c.config.AutoCommit = false →
      (∀ i, i < k → (h msg.Value (handlerState h msg.Value i w.hstate)).1 ≠ none) →
      (h msg.Value (handlerState h msg.Value k w.hstate)).1 = none →
      (∀ hist, w.env hist (kafka.Call.commitMessages c.reader c.ctx msg) = some err) →
      ∃ w1 calls,
        kafka.processMessage c msg w = some (some ("failed to commit message: " ++ err), w1) ∧
        w1.trace = w.trace ++ calls ++ [kafka.Call.commitMessages c.reader c.ctx msg] ∧
        calls.countP kafka.Call.isHandler = k + 1 ∧
        calls.countP kafka.Call.isCommit = 0 ∧
        kafka.sleeps calls = List.replicate k (wrap64 (c.config.RetryDelay * Second)) := by
  intro σ c h msg w err hh hN hA hfail hok henv
  obtain ⟨calls, hr, htr, h1, h2, hs⟩ :=
    kafka.processAttempts_commit_failure c h msg err N hN hA k (N + 1) 0 none w (by omega)
      (by omega) henv hfail hok
  rw [← attempts_eq_range', ← hN] at hr htr
  refine ⟨(kafka.processAttempts c h msg (attempts c.config.RetryCount) none w).2, calls,
    ?_, htr, h1, h2, hs⟩
  simp only [kafka.processMessage, hh]
  rw [← hr]

theorem kafka_commit_failure_returns_at_once_witness :
    ∃ w1 calls,
      kafka.processMessage (kafka.sampleConsumer 3 2 1) kafka.sampleMessage kafka.commitFails =
        some (some ("failed to commit message: " ++ "broker down"), w1) ∧
      w1.trace = kafka.commitFails.trace ++ calls ++
        [kafka.Call.commitMessages (kafka.sampleConsumer 3 2 1).reader
          (kafka.sampleConsumer 3 2 1).ctx kafka.sampleMessage] ∧
      calls.countP kafka.Call.isHandler = 1 + 1 ∧
      calls.countP kafka.Call.isCommit = 0 ∧
      kafka.sleeps calls =
        List.replicate 1 (wrap64 ((kafka.sampleConsumer 3 2 1).config.RetryDelay * Second)) :=
  kafka_commit_failure_returns_at_once 3 1 (by decide) (kafka.sampleConsumer 3 2 1)
    (failFirst 1) kafka.sampleMessage kafka.commitFails "broker down" rfl rfl rfl
    (by decide) (by decide) (fun _ => rfl)

theorem keyLoop_inner {α : Type} (key : α → String) (v : α) :
    ∀ (keys : List String) (tmp : List α),
      keys.foldl (fun tmp k => if key v = k then tmp ++ [v] else tmp) tmp =
        tmp ++ List.replicate (keys.count (key v)) v := by
  intro keys
  induction keys with
  | nil => intro tmp; simp
  | cons k ks ih =>
    intro tmp
    simp only [List.foldl_cons]
    by_cases hk : key v = k
    · subst hk
      rw [if_pos rfl, ih, List.count_cons_self, List.replicate_succ]
      simp
    · rw [if_neg hk, ih, List.count_cons_of_ne hk]

theorem keyLoop_outer {α : Type} (key : α → String) (keys : List String) :
    ∀ (l acc : List α),
      l.foldl (fun tmp v =>
          keys.foldl (fun tmp k => if key v = k then tmp ++ [v] else tmp) tmp) acc =
        acc ++ l.flatMap (fun v => List.replicate (keys.count (key v)) v) := by
  intro l
  induction l with
  | nil => intro acc; simp
  | cons v rest ih =>
    intro acc
    simp only [List.foldl_cons, List.flatMap_cons]
    rw [keyLoop_inner, ih, List.append_assoc]

theorem keyLoop_nodup {α : Type} (key : α → String) (keys : List String) (hn : keys.Nodup) :
    ∀ (l : List α),
      l.flatMap (fun v => List.replicate (keys.count (key v)) v) =
        l.filter (fun v => decide (key v ∈ keys)) := by
  intro l
  induction l with
  | nil => rfl
  | cons v rest ih =>
    simp only [List.flatMap_cons, ih]
    by_cases hm : key v ∈ keys
    · rw [List.count_eq_one_of_mem hn hm, List.filter_cons_of_pos (by simpa using hm)]
      rfl
    · rw [List.count_eq_zero_of_not_mem hm, List.filter_cons_of_neg (by simpa using hm)]
      rfl

/-- C29: `filterByInitKeys` (RabbitMQ and Kafka).  When key filtering is not enabled
the config is returned unchanged.  When it is enabled, the lists `Producer` and
`Consumer` are replaced by the lists in which every config, in the original order,
appears as often as its `Key` occurs in the key list (so `m` times for a key listed
`m` times); for a key list without duplicates these are exactly the sub-lists of the
configs whose `Key` occurs in the key list, each once and in the original order; for
the empty key list they are empty. -/
theorem filterByInitKeys_keeps_listed_keys :
    (∀ {σ : Type} (g : rabbitmq.Globals σ) (mq : rabbitmq.RabbitMQ),
      g.initByKeysEnable = false → rabbitmq.filterByInitKeys g mq = mq) ∧
    (∀ {σ : Type} (g : rabbitmq.Globals σ) (mq : rabbitmq.RabbitMQ),
      g.initByKeysEnable = true →
      rabbitmq.filterByInitKeys g mq =
        { mq with
          Producer := mq.Producer.flatMap (fun v => List.replicate (g.initKeys.count v.Key) v),
          Consumer := mq.Consumer.flatMap
            (fun v => List.replicate (g.initKeys.count v.Key) v) } ∧
      (g.initKeys.Nodup →
        rabbitmq.filterByInitKeys g mq =
          { mq with
            Producer := mq.Producer.filter (fun v => decide (v.Key ∈ g.initKeys)),
            Consumer := mq.Consumer.filter (fun v => decide (v.Key ∈ g.initKeys)) }) ∧
      (g.initKeys = [] →
        (rabbitmq.filterByInitKeys g mq).Producer = [] ∧
        (rabbitmq.filterByInitKeys g mq).Consumer = [])) ∧
    (∀ {σ : Type} (g : kafka.Globals σ) (k : kafka.Kafka),
      g.initByKeysEnable = false → kafka.filterByInitKeys g k = k) ∧
    (∀ {σ : Type} (g : kafka.Globals σ) (k : kafka.Kafka),
      g.initByKeysEnable = true →
      kafka.filterByInitKeys g k =
        { k with
          Producer := k.Producer.flatMap (fun v => List.replicate (g.initKeys.count v.Key) v),
          Consumer := k.Consumer.flatMap
            (fun v => List.replicate (g.initKeys.count v.Key) v) } ∧
      (g.initKeys.Nodup →
        kafka.filterByInitKeys g k =
          { k with
            Producer := k.Producer.filter (fun v => decide (v.Key ∈ g.initKeys)),
            Consumer := k.Consumer.filter (fun v => decide (v.Key ∈ g.initKeys)) }) ∧
      (g.initKeys = [] →
        (kafka.filterByInitKeys g k).Producer = [] ∧
        (kafka.filterByInitKeys g k).Consumer = [])) := by
  refine ⟨?_, ?_, ?_, ?_⟩
  · intro σ g mq h
    simp [rabbitmq.filterByInitKeys, h]
  · intro σ g mq h
    have hP := keyLoop_outer rabbitmq.ProducerConf.Key g.initKeys mq.Producer []
    have hC := keyLoop_outer rabbitmq.ConsumerConf.Key g.initKeys mq.Consumer []
    simp only [List.nil_append] at hP hC
    have hmain : rabbitmq.filterByInitKeys g mq =
        { mq with
          Producer := mq.Producer.flatMap (fun v => List.replicate (g.initKeys.count v.Key) v),
          Consumer := mq.Consumer.flatMap
            (fun v => List.replicate (g.initKeys.count v.Key) v) } := by
      simp only [rabbitmq.filterByInitKeys, h, Bool.not_true, Bool.false_eq_true, if_false]
      rw [hP, hC]
    refine ⟨hmain, ?_, ?_⟩
    · intro hn
      rw [hmain, keyLoop_nodup rabbitmq.ProducerConf.Key g.initKeys hn,
        keyLoop_nodup rabbitmq.ConsumerConf.Key g.initKeys hn]
    · intro he
      rw [hmain, he]
      simp
  · intro σ g k h
    simp [kafka.filterByInitKeys, h]
  · intro σ g k h
    have hP := keyLoop_outer kafka.ProducerConf.Key g.initKeys k.Producer []
    have hC := keyLoop_outer kafka.ConsumerConf.Key g.initKeys k.Consumer []
    simp only [List.nil_append] at hP hC
    have hmain : kafka.filterByInitKeys g k =
        { k with
          Producer := k.Producer.flatMap (fun v => List.replicate (g.initKeys.count v.Key) v),
          Consumer := k.Consumer.flatMap
            (fun v => List.replicate (g.initKeys.count v.Key) v) } := by
      simp only [kafka.filterByInitKeys, h, Bool.not_true, Bool.false_eq_true, if_false]
      rw [hP, hC]
    refine ⟨hmain, ?_, ?_⟩
    · intro hn
      rw [hmain, keyLoop_nodup kafka.ProducerConf.Key g.initKeys hn,
        keyLoop_nodup kafka.ConsumerConf.Key g.initKeys hn]
    · intro he
      rw [hmain, he]
      simp

theorem filterByInitKeys_keeps_listed_keys_witness :
    rabbitmq.filterByInitKeys (rabbitmq.Globals.init Nat) rabbitmq.sampleMQ = rabbitmq.sampleMQ ∧
    (rabbitmq.filterByInitKeys (rabbitmq.keyedGlobals ["c", "a", "c"]) rabbitmq.sampleMQ).Producer =
      [rabbitmq.producerConf "a", rabbitmq.producerConf "c", rabbitmq.producerConf "c"] ∧
    (rabbitmq.filterByInitKeys (rabbitmq.keyedGlobals ["c", "a"]) rabbitmq.sampleMQ).Consumer =
      [rabbitmq.consumerConf "a", rabbitmq.consumerConf "c"] ∧
    (rabbitmq.filterByInitKeys (rabbitmq.keyedGlobals []) rabbitmq.sampleMQ).Producer = [] ∧
    kafka.filterByInitKeys (kafka.Globals.init Nat) kafka.sampleKafka = kafka.sampleKafka ∧
    (kafka.filterByInitKeys (kafka.keyedGlobals ["c", "a", "c"]) kafka.sampleKafka).Producer =
      [kafka.producerConf "a", kafka.producerConf "c", kafka.producerConf "c"] ∧
    (kafka.filterByInitKeys (kafka.keyedGlobals ["c", "a"]) kafka.sampleKafka).Consumer =
      [kafka.consumerConf "a", kafka.consumerConf "c"] ∧
    (kafka.filterByInitKeys (kafka.keyedGlobals []) kafka.sampleKafka).Producer = [] :=
  ⟨filterByInitKeys_keeps_listed_keys.1 (rabbitmq.Globals.init Nat) rabbitmq.sampleMQ rfl,
   (congrArg rabbitmq.RabbitMQ.Producer
     (filterByInitKeys_keeps_listed_keys.2.1 (rabbitmq.keyedGlobals ["c", "a", "c"])
       rabbitmq.sampleMQ rfl).1).trans (by decide),
   (congrArg rabbitmq.RabbitMQ.Consumer
     ((filterByInitKeys_keeps_listed_keys.2.1 (rabbitmq.keyedGlobals ["c", "a"])
       rabbitmq.sampleMQ rfl).2.1 (by decide))).trans (by decide),
   ((filterByInitKeys_keeps_listed_keys.2.1 (rabbitmq.keyedGlobals [])
       rabbitmq.sampleMQ rfl).2.2 rfl).1,
   filterByInitKeys_keeps_listed_keys.2.2.1 (kafka.Globals.init Nat) kafka.sampleKafka rfl,
   (congrArg kafka.Kafka.Producer
     (filterByInitKeys_keeps_listed_keys.2.2.2 (kafka.keyedGlobals ["c", "a", "c"])
       kafka.sampleKafka rfl).1).trans (by decide),
   (congrArg kafka.Kafka.Consumer
     ((filterByInitKeys_keeps_listed_keys.2.2.2 (kafka.keyedGlobals ["c", "a"])
       kafka.sampleKafka rfl).2.1 (by decide))).trans (by decide),
   ((filterByInitKeys_keeps_listed_keys.2.2.2 (kafka.keyedGlobals [])
       kafka.sampleKafka rfl).2.2 rfl).1⟩

/-- C26 (the claim fails here): `RemoveFunc` removes the entry from the scheduler but
never deletes the symbol from `ids`: the symbols registered after `RemoveFunc` are
the ones registered before, and `AddCronFunc` after `RemoveFunc(symbol)` returns what
it returns without the `RemoveFunc`.  So after `AddCronFunc("aa", spec, f)` has
succeeded and `RemoveFunc("aa")` has removed the job from the scheduler, a second
`AddCronFunc("aa", spec, f)` with a valid spec fails with "aa cron job already exists"
and the scheduler stays without entries. -/
theorem removeFunc_keeps_symbol_registered :
    (∀ (symbol : String) (g : cron.Globals) (k : String),
      (cron.RemoveFunc symbol g).ids k = g.ids k) ∧
    (∀ (parse : String → Option String) (symbol spec : String) (g : cron.Globals),
      (cron.AddCronFunc parse symbol spec (cron.RemoveFunc symbol g)).1 =
        (cron.AddCronFunc parse symbol spec g).1) ∧
    (cron.AddCronFunc cron.acceptAll "aa" "@every 1s" cron.Globals.init).1 = none ∧
    (cron.AddCronFunc cron.acceptAll "aa" "@every 1s" cron.Globals.init).2.c.entries =
      [(1, "@every 1s")] ∧
    (cron.RemoveFunc "aa"
      (cron.AddCronFunc cron.acceptAll "aa" "@every 1s" cron.Globals.init).2).c.entries = [] ∧
    (cron.AddCronFunc cron.acceptAll "aa" "@every 1s"
      (cron.RemoveFunc "aa"
        (cron.AddCronFunc cron.acceptAll "aa" "@every 1s" cron.Globals.init).2)).1 =
      some "aa cron job already exists" ∧
    (cron.AddCronFunc cron.acceptAll "aa" "@every 1s"
      (cron.RemoveFunc "aa"
        (cron.AddCronFunc cron.acceptAll "aa" "@every 1s" cron.Globals.init).2)).2.c.entries =
      [] := by
  refine ⟨?_, ?_, by decide, by decide, by decide, by decide, by decide⟩
  · intro symbol g k
    simp only [cron.RemoveFunc]
    cases g.ids symbol <;> rfl
  · intro parse symbol spec g
    cases hs : g.ids symbol with
    | none => simp [cron.RemoveFunc, hs]
    | some id => simp [cron.AddCronFunc, cron.RemoveFunc, hs]

/-- C20 (the claim fails for the nil map): the round trip `GenerateToken(claims)`,
`ValidateToken(t)` under any configuration, one with a secret key and
`ExpireMinute > 0` included, and whatever the jwt library computes.  For the nil claim
map `GenerateToken` panics: it returns no token and nothing is validated.  For a
non-nil claim map no panic occurs, the token and the error of `GenerateToken` are
those of the library's `SignedString` for the claims with "exp" set and the
configured key, and `ValidateToken` returns what the library's `ParseWithClaims`
returns for that token and the same key. -/
theorem round_trip_panics_for_nil_claims :
    (∀ (lib : jwt.Library) (g : jwt.Globals) (now : Int),
      (jwt.roundTrip lib g now none).isNone = true) ∧
    (∀ (lib : jwt.Library) (now : Int),
      (jwt.roundTrip lib jwt.sampleGlobals now none).isNone = true ∧
      jwt.sampleGlobals.gConfig.SecretKey = "test-secret-key" ∧
      0 < jwt.sampleGlobals.gConfig.ExpireMinute) ∧
    (∀ (lib : jwt.Library) (g : jwt.Globals) (now : Int) (claims : StrMap),
      jwt.roundTrip lib g now (some claims) =
        some (lib.SignedString
            { claims := claims.set "exp"
                (Value.int ((now + wrap64 (jwt.Minute * g.gConfig.ExpireMinute)) / Second)),
              key := g.gConfig.SecretKey },
          jwt.ValidateToken lib g
            (lib.SignedString
              { claims := claims.set "exp"
                  (Value.int ((now + wrap64 (jwt.Minute * g.gConfig.ExpireMinute)) / Second)),
                key := g.gConfig.SecretKey }).1)) ∧
    (∀ (lib : jwt.Library) (g : jwt.Globals) (token : String),
      jwt.ValidateToken lib g token = lib.ParseWithClaims token g.gConfig.SecretKey) := by
  refine ⟨?_, ?_, ?_, ?_⟩
  · intro lib g now
    rfl
  · intro lib now
    exact ⟨rfl, by decide, by decide⟩
  · intro lib g now claims
    rfl
  · intro lib g token
    simp only [jwt.ValidateToken]
    cases lib.ParseWithClaims token g.gConfig.SecretKey <;> rfl

/-- C21 (the claim fails for the nil map): `GenerateToken(nil)` panics, because the
claims of the token are the nil map itself and the entry "exp" is assigned into it;
no claims are signed.  For every non-nil claim map the claims signed are the input
claims with "exp" set to the Unix time of `now` plus `ExpireMinute` minutes (the
minutes being the 64-bit product `time.Minute * ExpireMinute`): "exp" is present, a
value supplied under "exp" is overwritten, every other entry is as in the input, and
the key is the configured secret.  With 60 minutes the expiry is 3600 seconds after
`now`, with -1 minute it is 60 seconds before `now`. -/
theorem generateToken_nil_claims_panics :
    (∀ (g : jwt.Globals) (now : Int), (jwt.GenerateToken g now none).isNone = true) ∧
    (∀ (g : jwt.Globals) (now : Int) (claims : StrMap) (k : String),
      (jwt.GenerateToken g now (some claims)).map (fun s => s.claims k) =
        some (if k = "exp" then
          some (Value.int ((now + wrap64 (jwt.Minute * g.gConfig.ExpireMinute)) / Second))
          else claims k)) ∧
    (∀ (g : jwt.Globals) (now : Int) (claims : StrMap),
      (jwt.GenerateToken g now (some claims)).map (fun s => s.key) =
        some g.gConfig.SecretKey) ∧
    (jwt.GenerateToken jwt.sampleGlobals (1700000000 * Second + 5)
        (some (jwt.sampleClaims.set "exp" (Value.int 1)))).map
      (fun s => (s.claims "exp", s.claims "userID", s.claims "role", s.claims "iss")) =
      some (some (Value.int 1700003600), some (Value.int 123), some (Value.str "admin"), none) ∧
    (jwt.GenerateToken { gConfig := { SecretKey := "k", ExpireMinute := -1 }, once := true }
        (1700000000 * Second + 5) (some jwt.sampleClaims)).map (fun s => s.claims "exp") =
      some (some (Value.int 1699999940)) := by
  refine ⟨?_, ?_, ?_, by decide, by decide⟩
  · intro g now
    rfl
  · intro g now claims k
    simp only [jwt.GenerateToken, Option.map_some', StrMap.set]
  · intro g now claims
    rfl

namespace i18n

theorem mergeParams_lookup (k : String) :
    ∀ (params : List Param) (templateData : StrMap),
      mergeParams templateData params k = (lastValue params k).or (templateData k) := by
  intro params
  induction params with
  | nil => intro td; rfl
  | cons p ps ih =>
    intro td
    have hstep : mergeParams td (p :: ps) = mergeParams
        (match p with
          | Param.strMap paramMap => td.assignAll paramMap
          | Param.other _ => td) ps := rfl
    rw [hstep, ih]
    simp only [lastValue, List.reverse_cons, List.findSome?_append]
    cases p with
    | strMap m =>
      simp only [StrMap.assignAll, List.findSome?]
      cases List.findSome? (fun param => match param with
          | Param.strMap m => m k
          | Param.other _ => none) ps.reverse <;> cases m k <;> rfl
    | other v =>
      simp only [List.findSome?]
      cases List.findSome? (fun param => match param with
          | Param.strMap m => m k
          | Param.other _ => none) ps.reverse <;> rfl

theorem mergeParams_filter :
    ∀ (params : List Param) (templateData : StrMap),
      mergeParams templateData params = mergeParams templateData (params.filter Param.isMap) := by
  intro params
  induction params with
  | nil => intro td; rfl
  | cons p ps ih =>
    intro td
    cases p with
    | strMap m =>
      have h1 : (Param.strMap m :: ps).filter Param.isMap =
          Param.strMap m :: ps.filter Param.isMap := rfl
      rw [h1]
      exact ih (td.assignAll m)
    | other v =>
      have h1 : (Param.other v :: ps).filter Param.isMap = ps.filter Param.isMap := rfl
      rw [h1]
      exact ih td

end i18n

/-- C22: the template data that `GetLocalizeMessage` passes to the localizer of a
registered language.  It is built from the params that are maps from string to value,
in argument order: the value of a key is the one in the last such map that has the
key (no value when no map has it); params that are not such maps are ignored; with no
params it is empty.  Passing the one map {Name, Time, Message} and passing three maps
with one of these entries each gives the same call of the localizer, hence the same
message. -/
theorem getLocalizeMessage_merges_params :
    (∀ (i : i18n.I18n) (lang key : String) (params : List i18n.Param)
      (localizer : i18n.Localizer), i.localizerMap lang = some localizer →
      i18n.GetLocalizeMessage i lang key params =
        localizer { MessageID := key,
                    TemplateData := i18n.mergeParams StrMap.empty params }) ∧
    (∀ (params : List i18n.Param) (k : String),
      i18n.mergeParams StrMap.empty params k = i18n.lastValue params k) ∧
    (∀ (params : List i18n.Param),
      i18n.mergeParams StrMap.empty params =
        i18n.mergeParams StrMap.empty (params.filter i18n.Param.isMap)) ∧
    (∀ (k : String), i18n.mergeParams StrMap.empty [] k = none) ∧
    (∀ (i : i18n.I18n) (lang key : String) (name time message : Value),
      i18n.GetLocalizeMessage i lang key
        [i18n.Param.strMap (((StrMap.empty.set "Name" name).set "Time" time).set
          "Message" message)] =
      i18n.GetLocalizeMessage i lang key
        [i18n.Param.strMap (StrMap.empty.set "Name" name),
         i18n.Param.strMap (StrMap.empty.set "Time" time),
         i18n.Param.strMap (StrMap.empty.set "Message" message)]) := by
  refine ⟨?_, ?_, ?_, ?_, ?_⟩
  · intro i lang key params localizer h
    simp only [i18n.GetLocalizeMessage, h]
  · intro params k
    rw [i18n.mergeParams_lookup]
    cases i18n.lastValue params k <;> rfl
  · intro params
    exact i18n.mergeParams_filter params StrMap.empty
  · intro k
    rfl
  · intro i lang key name time message
    have hdata : i18n.mergeParams StrMap.empty
        [i18n.Param.strMap (((StrMap.empty.set "Name" name).set "Time" time).set
          "Message" message)] =
        i18n.mergeParams StrMap.empty
          [i18n.Param.strMap (StrMap.empty.set "Name" name),
           i18n.Param.strMap (StrMap.empty.set "Time" time),
           i18n.Param.strMap (StrMap.empty.set "Message" message)] := by
      funext k
      simp only [i18n.mergeParams, List.foldl_cons, List.foldl_nil, StrMap.assignAll,
        StrMap.set, StrMap.empty]
      by_cases h1 : k = "Message"
      · simp [h1]
      · by_cases h2 : k = "Time"
        · simp [h2]
        · by_cases h3 : k = "Name"
          · simp [h3]
          · simp [h1, h2, h3]
    simp only [i18n.GetLocalizeMessage, hdata]

theorem getLocalizeMessage_merges_params_witness :
    i18n.GetLocalizeMessage i18n.sampleI18n "en_US" "greeting_time"
      [i18n.Param.strMap (StrMap.empty.set "Name" (Value.str "Bob")),
       i18n.Param.other (Value.int 7),
       i18n.Param.strMap (StrMap.empty.set "Time" (Value.str "10:00")),
       i18n.Param.strMap (StrMap.empty.set "Message" (Value.str "good morning"))] =
      ("Bob, it's 10:00, good morning", none) :=
  (getLocalizeMessage_merges_params.1 i18n.sampleI18n "en_US" "greeting_time"
    [i18n.Param.strMap (StrMap.empty.set "Name" (Value.str "Bob")),
     i18n.Param.other (Value.int 7),
     i18n.Param.strMap (StrMap.empty.set "Time" (Value.str "10:00")),
     i18n.Param.strMap (StrMap.empty.set "Message" (Value.str "good morning"))]
    i18n.greeting rfl).trans (by decide)

namespace verify_code

theorem validate_wrong (option : VerifyCodeOption) (h : Hash) (c : String) (e now : Int)
    (code ip : String) (hc : h.code = some c) (hlen : 0 < c.length) (hne : code ≠ c)
    (he : h.error = some e) :
    ValidateVerifyCode option h now code ip =
      (some RedisValidateVerifyCodeErr,
        if e + 1 > option.ErrorTimes then { h with error := some (e + 1), code := some "" }
        else { h with error := some (e + 1) }) := by
  obtain ⟨hcode, htime, hip, hsucc, herr, htot⟩ := h
  simp only at hc he
  subst hc he
  have herrMap : errMap redisValidateVerifyCodeErrInvalidCode =
      some RedisValidateVerifyCodeErr := by decide
  have hne1 : ¬ c = code := fun h1 => hne h1.symm
  simp [ValidateVerifyCode, redisValidateVerifyCodeScript, hlen, hne1, herrMap]

theorem validate_locked (option : VerifyCodeOption) (h : Hash) (e now : Int)
    (code ip : String) (hc : h.code = some "") (he : h.error = some e) (hpos : 0 < e) :
    ValidateVerifyCode option h now code ip = (some RedisNeedResetVerifyCode, h) := by
  obtain ⟨hcode, htime, hip, hsucc, herr, htot⟩ := h
  simp only at hc he
  subst hc he
  have herrMap : errMap redisNeedResetVerifyCodeErrCode = some RedisNeedResetVerifyCode := by
    decide
  simp [ValidateVerifyCode, redisValidateVerifyCodeScript, hpos, herrMap]

theorem validateAll_append (option : VerifyCodeOption) :
    ∀ (as bs : List Attempt) (h : Hash),
      validateAll option (as ++ bs) h =
        ((validateAll option as h).1 ++ (validateAll option bs (validateAll option as h).2).1,
         (validateAll option bs (validateAll option as h).2).2) := by
  intro as
  induction as with
  | nil => intro bs h; rfl
  | cons a rest ih =>
    intro bs h
    have hcons : a :: rest ++ bs = a :: (rest ++ bs) := rfl
    rw [hcons]
    simp only [validateAll]
    rw [ih]
    rfl

theorem validateAll_wrong (option : VerifyCodeOption) (c : String) (hlen : 0 < c.length) :
    ∀ (as : List Attempt) (h : Hash) (e : Int), h.code = some c → h.error = some e →
      e ≤ option.ErrorTimes → (∀ a ∈ as, a.code ≠ c) →
      e + (as.length : Int) ≤ option.ErrorTimes + 1 →
      validateAll option as h =
        (List.replicate as.length (some RedisValidateVerifyCodeErr),
          if e + (as.length : Int) ≤ option.ErrorTimes then
            { h with error := some (e + (as.length : Int)) }
          else { h with error := some (e + (as.length : Int)), code := some "" }) := by
  intro as
  induction as with
  | nil =>
    intro h e hc he hle _ _
    obtain ⟨hcode, htime, hip, hsucc, herr, htot⟩ := h
    simp only at hc he
    subst hc he
    simp [validateAll, hle]
  | cons a rest ih =>
    intro h e hc he hle hall hbound
    have hstep := validate_wrong option h c e a.now a.code a.ip hc hlen
      (hall a (List.mem_cons_self a rest)) he
    have hrest : ∀ b ∈ rest, b.code ≠ c := fun b hb => hall b (List.mem_cons_of_mem a hb)
    simp only [List.length_cons, Nat.cast_add, Nat.cast_one] at hbound ⊢
    by_cases hover : e + 1 > option.ErrorTimes
    · have hnil : rest = [] := by
        have h0 : rest.length = 0 := by omega
        exact List.length_eq_zero.mp h0
      subst hnil
      rw [if_pos hover] at hstep
      simp only [validateAll, hstep, List.length_nil, Nat.cast_zero, add_zero, zero_add,
        List.replicate]
      rw [if_neg (by omega)]
    · rw [if_neg hover] at hstep
      have hih := ih { h with error := some (e + 1) } (e + 1) hc rfl (by omega) hrest
        (by omega)
      simp only [validateAll, hstep, hih, List.replicate_succ]
      have hsum : e + 1 + (rest.length : Int) = e + ((rest.length : Int) + 1) := by omega
      rw [hsum]

theorem validateAll_locked (option : VerifyCodeOption) :
    ∀ (bs : List Attempt) (h : Hash) (e : Int), h.code = some "" → h.error = some e →
      0 < e →
      validateAll option bs h =
        (List.replicate bs.length (some RedisNeedResetVerifyCode), h) := by
  intro bs
  induction bs with
  | nil => intro h e _ _ _; rfl
  | cons b rest ih =>
    intro h e hc he hpos
    simp only [validateAll, validate_locked option h e b.now b.code b.ip hc he hpos,
      ih h e hc he hpos, List.length_cons, List.replicate_succ]

end verify_code

/-- C27: lockout of a verification code.  Start from a stored non-empty code `c` with
the error counter at 0 and `ErrorTimes = E ≥ 0`, and let `ValidateVerifyCode` be called
with codes different from `c`.  Each of the first `E + 1` such calls returns
`RedisValidateVerifyCodeErr` and adds one to the error counter; the stored code is
still `c` after at most `E` of them and is cleared by call number `E + 1`.  After
these `E + 1` calls every further call, with any code (the code `c` included), returns
`RedisNeedResetVerifyCode` and leaves the hash as it is (no call of `StoreVerifyCode`
in between, and the key not yet expired). -/
theorem validate_lockout_after_wrong_codes :
    ∀ (option : verify_code.VerifyCodeOption) (h : verify_code.Hash) (c : String),
      0 ≤ option.ErrorTimes → h.code = some c → 0 < c.length → h.error = some 0 →
      (∀ (as : List verify_code.Attempt), (∀ a ∈ as, a.code ≠ c) →
        (as.length : Int) ≤ option.ErrorTimes + 1 →
        (verify_code.validateAll option as h).1 =
          List.replicate as.length (some verify_code.RedisValidateVerifyCodeErr) ∧
        (verify_code.validateAll option as h).2.error = some (as.length : Int) ∧
        (verify_code.validateAll option as h).2.code =
          (if (as.length : Int) ≤ option.ErrorTimes then some c else some "")) ∧
      (∀ (as bs : List verify_code.Attempt), (∀ a ∈ as, a.code ≠ c) →
        (as.length : Int) = option.ErrorTimes + 1 →
        (verify_code.validateAll option (as ++ bs) h).1 =
          List.replicate as.length (some verify_code.RedisValidateVerifyCodeErr) ++
            List.replicate bs.length (some verify_code.RedisNeedResetVerifyCode) ∧
        (verify_code.validateAll option (as ++ bs) h).2 =
          (verify_code.validateAll option as h).2) := by
  intro option h c hE hc hlen he
  refine ⟨?_, ?_⟩
  · intro as hall hbound
    have hrun := verify_code.validateAll_wrong option c hlen as h 0 hc he hE hall (by omega)
    simp only [zero_add] at hrun
    rw [hrun]
    refine ⟨rfl, ?_, ?_⟩
    · by_cases hle : (as.length : Int) ≤ option.ErrorTimes
      · rw [if_pos hle]
      · rw [if_neg hle]
    · by_cases hle : (as.length : Int) ≤ option.ErrorTimes
      · rw [if_pos hle, if_pos hle]
        exact hc
      · rw [if_neg hle, if_neg hle]
  · intro as bs hall hlenas
    have hrun := verify_code.validateAll_wrong option c hlen as h 0 hc he hE hall (by omega)
    simp only [zero_add] at hrun
    rw [if_neg (by omega)] at hrun
    have hlock := verify_code.validateAll_locked option bs
      { h with error := some (as.length : Int), code := some "" } (as.length : Int) rfl rfl
      (by omega)
    rw [verify_code.validateAll_append, hrun]
    simp [hlock]

theorem validate_lockout_after_wrong_codes_witness :
    ((verify_code.validateAll verify_code.sampleOption
        [verify_code.attemptWith "0000", verify_code.attemptWith "1111"]
        verify_code.storedHash).1 =
        List.replicate 2 (some verify_code.RedisValidateVerifyCodeErr) ∧
      (verify_code.validateAll verify_code.sampleOption
        [verify_code.attemptWith "0000", verify_code.attemptWith "1111"]
        verify_code.storedHash).2.error = some 2 ∧
      (verify_code.validateAll verify_code.sampleOption
        [verify_code.attemptWith "0000", verify_code.attemptWith "1111"]
        verify_code.storedHash).2.code = some "1234") ∧
    ((verify_code.validateAll verify_code.sampleOption
        ([verify_code.attemptWith "0000", verify_code.attemptWith "1111",
          verify_code.attemptWith ""] ++
         [verify_code.attemptWith "1234", verify_code.attemptWith "0000"])
        verify_code.storedHash).1 =
        List.replicate 3 (some verify_code.RedisValidateVerifyCodeErr) ++
          List.replicate 2 (some verify_code.RedisNeedResetVerifyCode) ∧
      (verify_code.validateAll verify_code.sampleOption
        ([verify_code.attemptWith "0000", verify_code.attemptWith "1111",
          verify_code.attemptWith ""] ++
         [verify_code.attemptWith "1234", verify_code.attemptWith "0000"])
        verify_code.storedHash).2 =
      (verify_code.validateAll verify_code.sampleOption
        [verify_code.attemptWith "0000", verify_code.attemptWith "1111",
          verify_code.attemptWith ""] verify_code.storedHash).2) :=
  ⟨(validate_lockout_after_wrong_codes verify_code.sampleOption verify_code.storedHash "1234"
      (by decide) rfl (by decide) rfl).1
      [verify_code.attemptWith "0000", verify_code.attemptWith "1111"] (by decide) (by decide),
   (validate_lockout_after_wrong_codes verify_code.sampleOption verify_code.storedHash "1234"
      (by decide) rfl (by decide) rfl).2
      [verify_code.attemptWith "0000", verify_code.attemptWith "1111",
        verify_code.attemptWith ""]
      [verify_code.attemptWith "1234", verify_code.attemptWith "0000"] (by decide) (by decide)⟩

/-- C28 (the claim fails here): the hash holds a store at time 100 and `StoreVerifyCode`
is called with `now = 90` (the clock of the caller is behind the clock that made the
stored time) and `Interval = 60`.  Then `now - t < Interval`, nothing is stored, and
the call returns the waiting time 70 with `RedisStoreVerifyCodeErrFast`: a waiting
time above `Interval`. -/
theorem store_wait_exceeds_interval :
    verify_code.storedHash.time = some 100 ∧
    verify_code.sampleOption.Interval = 60 ∧
    (90 : Int) - 100 < verify_code.sampleOption.Interval ∧
    verify_code.StoreVerifyCode verify_code.sampleOption verify_code.storedHash 90 "5678"
        "10.0.0.1" =
      ((70, some verify_code.RedisStoreVerifyCodeErrFast), verify_code.storedHash) ∧
    ¬ ((70 : Int) ≤ verify_code.sampleOption.Interval) := by
  decide

/-- C28 (amended): `StoreVerifyCode` on the hash `h` at time `now`.  If the hash holds
a store time `t` with `now - t < Interval`, the call returns
`(Interval + t - now, RedisStoreVerifyCodeErrFast)` with `0 < Interval + t - now`, and
with `Interval + t - now ≤ Interval` when `t ≤ now`, and the hash is unchanged,
whatever the stored total.  Otherwise, if the stored total is at least `Limit`, it
returns `(0, RedisStoreVerifyCodeErrLimit)` and the hash is unchanged.  Otherwise it
stores the code, `time = now` and the ip, sets `success` and `error` to 0, adds
exactly 1 to the total (an absent total counts as 0) and returns `(Interval, nil)`. -/
theorem storeVerifyCode_rate_limits :
    ∀ (option : verify_code.VerifyCodeOption) (h : verify_code.Hash) (now : Int)
      (code ip : String),
      (∀ (t : Int), h.time = some t → now - t < option.Interval →
        verify_code.StoreVerifyCode option h now code ip =
          ((option.Interval + t - now, some verify_code.RedisStoreVerifyCodeErrFast), h) ∧
        0 < option.Interval + t - now ∧
        (t ≤ now → option.Interval + t - now ≤ option.Interval)) ∧
      ((∀ (t : Int), h.time = some t → ¬ now - t < option.Interval) →
        ∀ (n : Int), h.total = some n → n ≥ option.Limit →
        verify_code.StoreVerifyCode option h now code ip =
          ((0, some verify_code.RedisStoreVerifyCodeErrLimit), h)) ∧
      ((∀ (t : Int), h.time = some t → ¬ now - t < option.Interval) →
        (∀ (n : Int), h.total = some n → n < option.Limit) →
        verify_code.StoreVerifyCode option h now code ip =
          ((option.Interval, none),
           { code := some code, time := some now, ip := some ip, success := some 0,
             error := some 0, total := some (h.total.getD 0 + 1) })) := by
  intro option h now code ip
  have hFast : verify_code.errMap verify_code.redisStoreVerifyCodeErrFastCode =
      some verify_code.RedisStoreVerifyCodeErrFast := by decide
  have hLimit : verify_code.errMap verify_code.redisStoreVerifyCodeErrLimitCode =
      some verify_code.RedisStoreVerifyCodeErrLimit := by decide
  have hOk : verify_code.errMap 0 = none := by decide
  obtain ⟨hcode, htime, hip, hsucc, herr, htot⟩ := h
  refine ⟨?_, ?_, ?_⟩
  · intro t ht hlt
    simp only at ht
    subst ht
    refine ⟨?_, by omega, fun _ => by omega⟩
    simp [verify_code.StoreVerifyCode, verify_code.redisStoreVerifyCodeScript, hlt, hFast]
  · intro hslow n hn hge
    simp only at hn hslow
    subst hn
    cases htime with
    | none =>
      simp [verify_code.StoreVerifyCode, verify_code.redisStoreVerifyCodeScript, hge, hLimit]
    | some t =>
      have hnot := hslow t rfl
      simp [verify_code.StoreVerifyCode, verify_code.redisStoreVerifyCodeScript, hnot, hge,
        hLimit]
  · intro hslow hfew
    simp only at hslow hfew
    cases htime with
    | none =>
      cases htot with
      | none =>
        simp [verify_code.StoreVerifyCode, verify_code.redisStoreVerifyCodeScript, hOk]
      | some n =>
        have hn : ¬ option.Limit ≤ n := by have := hfew n rfl; omega
        simp [verify_code.StoreVerifyCode, verify_code.redisStoreVerifyCodeScript, hOk, hn]
    | some t =>
      have hnot := hslow t rfl
      cases htot with
      | none =>
        simp [verify_code.StoreVerifyCode, verify_code.redisStoreVerifyCodeScript, hOk, hnot]
      | some n =>
        have hn : ¬ option.Limit ≤ n := by have := hfew n rfl; omega
        simp [verify_code.StoreVerifyCode, verify_code.redisStoreVerifyCodeScript, hOk, hnot,
          hn]

theorem storeVerifyCode_rate_limits_witness :
    (verify_code.StoreVerifyCode verify_code.sampleOption verify_code.usedUpHash 130 "5678"
        "10.0.0.2" =
        ((verify_code.sampleOption.Interval + 100 - 130,
          some verify_code.RedisStoreVerifyCodeErrFast), verify_code.usedUpHash) ∧
      0 < verify_code.sampleOption.Interval + 100 - 130 ∧
      verify_code.sampleOption.Interval + 100 - 130 ≤ verify_code.sampleOption.Interval) ∧
    verify_code.StoreVerifyCode verify_code.sampleOption verify_code.usedUpHash 160 "5678"
        "10.0.0.2" =
      ((0, some verify_code.RedisStoreVerifyCodeErrLimit), verify_code.usedUpHash) ∧
    verify_code.StoreVerifyCode verify_code.sampleOption verify_code.storedHash 160 "5678"
        "10.0.0.2" =
      ((verify_code.sampleOption.Interval, none),
       { code := some "5678", time := some 160, ip := some "10.0.0.2", success := some 0,
         error := some 0, total := some (verify_code.storedHash.total.getD 0 + 1) }) :=
  ⟨⟨((storeVerifyCode_rate_limits verify_code.sampleOption verify_code.usedUpHash 130 "5678"
        "10.0.0.2").1 100 rfl (by decide)).1,
    ((storeVerifyCode_rate_limits verify_code.sampleOption verify_code.usedUpHash 130 "5678"
        "10.0.0.2").1 100 rfl (by decide)).2.1,
    ((storeVerifyCode_rate_limits verify_code.sampleOption verify_code.usedUpHash 130 "5678"
        "10.0.0.2").1 100 rfl (by decide)).2.2 (by decide)⟩,
   (storeVerifyCode_rate_limits verify_code.sampleOption verify_code.usedUpHash 160 "5678"
        "10.0.0.2").2.1 (by decide) 5 rfl (by decide),
   (storeVerifyCode_rate_limits verify_code.sampleOption verify_code.storedHash 160 "5678"
        "10.0.0.2").2.2 (by decide) (by decide)⟩

end GoBase
